import Mathlib

/-!
# iKuai exporter: the collection cycle

A shallow embedding of `pkg/exporter.go` (the collector of the iKuai Prometheus exporter)
and theorems about the observations one collection cycle sends to the metric channel.

Conventions of the embedding.

* The channel `metrics` is the list of observations sent on it, in sending order.
* A run-time panic inside `Collect` is caught by the deferred `recover`, which sends the
  host down-indicator after whatever was sent before the panic.
* The three router queries are the values they return in this cycle: a response
  (assumed non-nil) and a transport error.
* Integer fields of the router responses are declared in the client package
  `github.com/tossp/ikuai/action`, which is not part of this repository; they are taken
  to be of the Go type `int64` (what `int` is on 64-bit platforms). A field holds an
  integer here, every observation built as `float64(n)` from an integer `n` records `n`,
  and every arithmetic operation of the source on such fields (`+=` in the device loop,
  `Total - Available`, `time.Now().Unix() - updateTime`) wraps around (`wrapInt64`).
* Go leaves the iteration order of a map unspecified; the embedding iterates in insertion
  order and no theorem below depends on that order.
* The device loop stores the address of its loop variable in a map. Its meaning depends
  on the language version of the module (the `go` directive, which is not among the
  sources), so `Collect` takes the scope of the loop variable as its first argument
  (`LoopVar`); theorems that hold for both scopes are stated for both.
* `time.Now().Unix()` is the argument `now`: one clock reading serves a cycle.
-/

namespace Ikuai

/-! ## Descriptors and observations -/

/-- The metric descriptors created by `NewIKuaiExporter`. The field comments of
`streamDownBytesDesc` and `streamDownSpeedDesc` in the struct repeat the upstream wording;
the descriptors are registered and used for the downstream values, as embedded here. -/
inductive Desc where
  | versionDesc
  | cpuUsageRatioDesc
  | cpuTempDesc
  | memSizeDesc
  | memUsageDesc
  | memCachedDesc
  | memBuffersDesc
  | lanDeviceDesc
  | lanDeviceCountDesc
  | ifaceInfoDesc
  | UpDesc
  | UpTimeDesc
  | streamUpBytesDesc
  | streamDownBytesDesc
  | streamUpSpeedDesc
  | streamDownSpeedDesc
  | connCountDesc
  | dhcpAddrpoolCountDesc
  | appFlowHistogramDesc
  deriving DecidableEq, Repr

/-- The fully qualified metric name given to `prometheus.NewDesc`. -/
def Desc.fqName : Desc → String
  | .versionDesc => "ikuai_version"
  | .cpuUsageRatioDesc => "ikuai_cpu_usage_ratio"
  | .cpuTempDesc => "ikuai_cpu_temperature"
  | .memSizeDesc => "ikuai_memory_size_bytes"
  | .memUsageDesc => "ikuai_memory_usage_bytes"
  | .memCachedDesc => "ikuai_memory_cached_bytes"
  | .memBuffersDesc => "ikuai_memory_buffers_bytes"
  | .lanDeviceDesc => "ikuai_device_info"
  | .lanDeviceCountDesc => "ikuai_device_count"
  | .ifaceInfoDesc => "ikuai_iface_info"
  | .UpDesc => "ikuai_up"
  | .UpTimeDesc => "ikuai_uptime"
  | .streamUpBytesDesc => "ikuai_network_send_bytes"
  | .streamDownBytesDesc => "ikuai_network_recv_bytes"
  | .streamUpSpeedDesc => "ikuai_network_send_kbytes_per_second"
  | .streamDownSpeedDesc => "ikuai_network_recv_kbytes_per_second"
  | .connCountDesc => "ikuai_network_conn_count"
  | .dhcpAddrpoolCountDesc => "ikuai_dhcp_addrpool_num"
  | .appFlowHistogramDesc => "ikuai_app_flow_histogram"

/-- The variable label names given to `prometheus.NewDesc`. -/
def Desc.variableLabels : Desc → List String
  | .versionDesc => ["version", "arch", "verstring"]
  | .cpuUsageRatioDesc => ["id"]
  | .cpuTempDesc => []
  | .memSizeDesc => []
  | .memUsageDesc => []
  | .memCachedDesc => []
  | .memBuffersDesc => []
  | .lanDeviceDesc => ["id", "mac", "hostname", "ip_addr", "comment"]
  | .lanDeviceCountDesc => []
  | .ifaceInfoDesc => ["id", "interface", "comment", "internet", "parent_interface", "ip_addr"]
  | .UpDesc => ["id"]
  | .UpTimeDesc => ["id"]
  | .streamUpBytesDesc => ["id"]
  | .streamDownBytesDesc => ["id"]
  | .streamUpSpeedDesc => ["id"]
  | .streamDownSpeedDesc => ["id"]
  | .connCountDesc => ["id"]
  | .dhcpAddrpoolCountDesc => []
  | .appFlowHistogramDesc => ["category"]

/-- The value kinds of `prometheus.ValueType` the collector uses. -/
inductive ValueType where
  | CounterValue
  | GaugeValue
  deriving DecidableEq, Repr

/-- The value of a constant metric: `float64(n)` of an integer `n`, or the first result of
`strconv.ParseFloat(s, 64)` on the bytes `s` (its error is discarded by the source). -/
inductive Value where
  | ofInt (n : Int)
  | parseFloat (s : List UInt8)
  deriving DecidableEq, Repr

/-- An observation sent on the channel: the arguments of `MustNewConstMetric` or of
`MustNewConstHistogram` (count, sum, bucket map, label values). -/
inductive Metric where
  | const (desc : Desc) (valueType : ValueType) (value : Value) (labelValues : List String)
  | histogram (desc : Desc) (count : Nat) (sum : Int) (buckets : List (Int × Nat))
      (labelValues : List String)
  deriving DecidableEq, Repr

/-- The descriptor of an observation. -/
def Metric.desc : Metric → Desc
  | .const d _ _ _ => d
  | .histogram d _ _ _ _ => d

/-- The label values of an observation, in the order of the descriptor's label names. -/
def Metric.labelValues : Metric → List String
  | .const _ _ _ ls => ls
  | .histogram _ _ _ _ ls => ls

/-- The value of the label called `name`, when the descriptor has such a label. -/
def Metric.label (m : Metric) (name : String) : Option String :=
  (m.desc.variableLabels.zip m.labelValues).lookup name

/-- The integer behind a constant metric (`none` for a histogram or a parsed float). -/
def Metric.intValue : Metric → Option Int
  | .const _ _ (.ofInt n) _ => some n
  | _ => none

/-! ## Router responses -/

/-- The status envelope `action.Result`; only `ErrMsg` is read by the collector. -/
structure Result where
  ErrMsg : String
  deriving DecidableEq, Repr

/-- The record `action.LanDeviceInfo`, restricted to the fields the collector reads. -/
structure LanDeviceInfo where
  Mac : String
  Hostname : String
  IPAddr : String
  Comment : String
  TotalUp : Int
  TotalDown : Int
  Upload : Int
  Download : Int
  ConnectNum : Int
  deriving DecidableEq, Repr, Inhabited

/-- One element of `Data.IfaceStream`: the traffic record of an interface. -/
structure IfaceStream where
  Interface : String
  Comment : String
  IPAddr : String
  TotalUp : Int
  TotalDown : Int
  Upload : Int
  Download : Int
  ConnectNum : String
  deriving DecidableEq, Repr

/-- One element of `Data.IfaceCheck`: the connectivity check of an interface. -/
structure IfaceCheck where
  Interface : String
  Internet : String
  ParentInterface : String
  Result : String
  Updatetime : String
  deriving DecidableEq, Repr

/-- The part of `stat.Data.SysStat` (and of `stat.Data`) the collector reads. -/
structure SysStat where
  Version : String
  Arch : String
  Verstring : String
  Cputemp : List Int
  Cpu : List String
  MemTotal : Int
  MemAvailable : Int
  MemCached : Int
  MemBuffers : Int
  OnlineUserCount : Int
  Uptime : Int
  StreamTotalUp : Int
  StreamTotalDown : Int
  StreamUpload : Int
  StreamDownload : Int
  StreamConnectNum : Int
  deriving DecidableEq, Repr

/-- The response of `ShowSysStat` with its transport error. `AppFlow` is the slice of maps
`stat.Data.AppFlow.AppFlow`; a map is the list of its entries. -/
structure ShowSysStatResult where
  Result : Result
  err : Option String
  SysStat : SysStat
  DhcpAvailableNum : Int
  AppFlow : List (List (String × Int))
  deriving DecidableEq, Repr

/-- The response of `ShowMonitorLan` with its transport error. -/
structure ShowMonitorLanResult where
  Result : Result
  err : Option String
  Data : List LanDeviceInfo
  deriving DecidableEq, Repr

/-- The response of `ShowMonitorInterface` with its transport error. -/
structure ShowMonitorInterfaceResult where
  Result : Result
  err : Option String
  IfaceStream : List IfaceStream
  IfaceCheck : List IfaceCheck
  deriving DecidableEq, Repr

/-! ## Response validation -/

/-- The function `isFail`: a transport error is present or the status message is not
the string "Success". -/
def isFail (result : Result) (err : Option String) : Bool :=
  if err ≠ none ∨ result.ErrMsg ≠ "Success" then true else false

/-! ## Histogram buckets -/

/-- Modelled from the spec: `prometheus.LinearBuckets(start, width, count)` is library code
outside the sources; the spec (4.4) describes its result as `count` linearly spaced bounds
starting at `start` and stepping `width`. -/
def LinearBuckets (start width : Int) : Nat → List Int
  | 0 => []
  | count + 1 => start :: LinearBuckets (start + width) width count

/-- The field `appFlowBuckets` as set by `NewIKuaiExporter`. The bounds are integers below
`2 ^ 53`, hence exact as `float64`. -/
def appFlowBuckets : List Int :=
  LinearBuckets (1 * 1024 * 1024) (5 * 1024 * 1024) 10

/-- The statement `bucketCounts[bucket]++` on a Go map held as a list of entries: a
missing key reads as zero. -/
def incrCount (bucketCounts : List (Int × Nat)) (bucket : Int) : List (Int × Nat) :=
  match bucketCounts.lookup bucket with
  | some _ => bucketCounts.map (fun e => if e.1 = bucket then (e.1, e.2 + 1) else e)
  | none => bucketCounts ++ [(bucket, 1)]

/-- The method `generateAppFlowBucketsCounts`, with the receiver's bucket slice as an
argument. The value is `float64(v)` of an integer `v`; since the bounds are exact and
rounding is monotone, `float64(v) <= bucket` is `v <= bucket`. -/
def generateAppFlowBucketsCounts (buckets : List Int) (value : Int) : List (Int × Nat) :=
  buckets.foldl (fun bucketCounts bucket =>
    if value ≤ bucket then incrCount bucketCounts bucket else bucketCounts) []

/-- The count a Go map read `bucketCounts[bucket]` returns: zero for a missing key. -/
def countOf (bucketCounts : List (Int × Nat)) (bucket : Int) : Nat :=
  (bucketCounts.lookup bucket).getD 0

/-- The conversion `uint64(value)` of a signed integer of at most 64 bits. -/
def toUint64 (value : Int) : Nat :=
  (value % 2 ^ 64).toNat

/-- The loop over `stat.Data.AppFlow.AppFlow[0]`: one histogram per entry other than
"Total". -/
def appFlowHistograms (buckets : List Int) (sample : List (String × Int)) : List Metric :=
  (sample.filter (fun e => e.1 ≠ "Total")).map (fun e =>
    Metric.histogram .appFlowHistogramDesc (toUint64 e.2) e.2
      (generateAppFlowBucketsCounts buckets e.2) [e.1])

/-- The block guarded by `len(stat.Data.AppFlow.AppFlow) > 0`. -/
def appFlowMetrics (buckets : List Int) (appFlow : List (List (String × Int))) : List Metric :=
  match appFlow with
  | [] => []
  | sample :: _ => appFlowHistograms buckets sample

/-! ## Integer parsing and 64-bit arithmetic -/

/-- The value of a non-empty string of decimal digits (`none` for any other string). -/
def parseDecimal (cs : List Char) : Option Nat :=
  if cs = [] then none
  else cs.foldl (fun acc c =>
    match acc with
    | none => none
    | some n => if c.isDigit then some (n * 10 + (c.toNat - 48)) else none) (some 0)

/-- The standard library function `strconv.ParseInt(s, 10, bitSize)`: an optional sign
followed by decimal digits, accepted when the value fits a signed integer of `bitSize`
bits; `none` stands for a returned error (syntax or range). -/
def ParseInt (s : String) (bitSize : Nat) : Option Int :=
  match s.data with
  | [] => none
  | c :: rest =>
    let neg := decide (c = '-')
    let digits := if c = '+' ∨ c = '-' then rest else c :: rest
    match parseDecimal digits with
    | none => none
    | some un =>
      let cutoff := 2 ^ (bitSize - 1)
      if ¬ neg ∧ cutoff ≤ un then none
      else if neg ∧ cutoff < un then none
      else some (if neg then - (un : Int) else (un : Int))

/-- The result of an `int64` operation whose exact value is `x`: Go wraps around. -/
def wrapInt64 (x : Int) : Int :=
  (x + 2 ^ 63) % 2 ^ 64 - 2 ^ 63

/-- The integers that are values of the Go type `int64`. -/
@[reducible] def isInt64 (x : Int) : Prop :=
  -2 ^ 63 ≤ x ∧ x < 2 ^ 63

/-! ## Interfaces -/

/-- The local variables of one iteration of the outer loop of `interfaceMetrics` that the
inner loop over the check records assigns. -/
structure IfaceVars where
  internet : String
  parentIface : String
  ifaceUp : Int
  ifaceUptime : Int
  deriving DecidableEq, Repr

/-- The body of the inner loop `for _, ifaceCheck := range monitorInterface.Data.IfaceCheck`.
The argument `now` is the value of `time.Now().Unix()`; the subtraction is an `int64` one. -/
def checkStep (now : Int) (iface : IfaceStream) (v : IfaceVars) (ifaceCheck : IfaceCheck) :
    IfaceVars :=
  if ifaceCheck.Interface = iface.Interface then
    let v1 := { v with internet := ifaceCheck.Internet,
                       parentIface := ifaceCheck.ParentInterface }
    if ifaceCheck.Result ≠ "success" then
      { v1 with ifaceUp := 0 }
    else
      match ParseInt ifaceCheck.Updatetime 64 with
      | some updateTime => { v1 with ifaceUptime := wrapInt64 (now - updateTime) }
      | none => v1
  else v

/-- The variables after the inner loop, started from their initial values
(`""`, `""`, `1`, `int64(0)`). -/
def checkLoop (now : Int) (checks : List IfaceCheck) (iface : IfaceStream) : IfaceVars :=
  checks.foldl (checkStep now iface)
    { internet := "", parentIface := "", ifaceUp := 1, ifaceUptime := 0 }

/-- The identifier `fmt.Sprintf("iface/%v", iface.Interface)`. -/
def ifaceId (iface : IfaceStream) : String :=
  "iface/" ++ iface.Interface

/-- The connection count of an interface: `ParseInt(iface.ConnectNum, 10, 32)`, replaced
by zero on error. -/
def ifaceConn (iface : IfaceStream) : Int :=
  match ParseInt iface.ConnectNum 32 with
  | some n => n
  | none => 0

/-- The eight observations one iteration of the outer loop of `interfaceMetrics` sends. -/
def ifaceObservations (now : Int) (checks : List IfaceCheck) (iface : IfaceStream) :
    List Metric :=
  let v := checkLoop now checks iface
  [ .const .ifaceInfoDesc .GaugeValue (.ofInt 1)
      [ifaceId iface, iface.Interface, iface.Comment, v.internet, v.parentIface, iface.IPAddr],
    .const .UpDesc .GaugeValue (.ofInt v.ifaceUp) [ifaceId iface],
    .const .UpTimeDesc .CounterValue (.ofInt v.ifaceUptime) [ifaceId iface],
    .const .streamUpBytesDesc .CounterValue (.ofInt iface.TotalUp) [ifaceId iface],
    .const .streamDownBytesDesc .CounterValue (.ofInt iface.TotalDown) [ifaceId iface],
    .const .streamUpSpeedDesc .GaugeValue (.ofInt iface.Upload) [ifaceId iface],
    .const .streamDownSpeedDesc .GaugeValue (.ofInt iface.Download) [ifaceId iface],
    .const .connCountDesc .GaugeValue (.ofInt (ifaceConn iface)) [ifaceId iface] ]

/-- The method `interfaceMetrics`: the observations it sends, record by record. -/
def interfaceMetrics (now : Int) (monitorInterface : ShowMonitorInterfaceResult) :
    List Metric :=
  monitorInterface.IfaceStream.flatMap (ifaceObservations now monitorInterface.IfaceCheck)

/-! ## LAN devices -/

/-- The scope of the variable of a `for ... range` loop: one variable per iteration (the
language from Go 1.22 on) or one variable for the whole loop (earlier language versions).
The `go` directive of the module is not among the sources, so the device loop, which
stores `&device`, is given for both. -/
inductive LoopVar where
  | perIteration
  | perLoop
  deriving DecidableEq, Repr

/-- The state of the device loop: the storage of the loop variable `device` (one cell per
variable, addressed by position) and the map `devices` from identifier to address. -/
structure DeviceLoop where
  cells : List LanDeviceInfo
  devices : List (String × Nat)
  deriving DecidableEq, Repr

/-- The identifier `fmt.Sprintf("device/%v", device.Mac)`. -/
def deviceId (device : LanDeviceInfo) : String :=
  "device/" ++ device.Mac

/-- A device record whose five counters are `int64` values, as every record the client
decodes is. -/
@[reducible] def countersInt64 (device : LanDeviceInfo) : Prop :=
  isInt64 device.TotalUp ∧ isInt64 device.TotalDown ∧ isInt64 device.Upload
    ∧ isInt64 device.Download ∧ isInt64 device.ConnectNum

/-- The five statements `i.F += device.F` of the device loop; each is an `int64` addition
and wraps around. -/
def addCounters (i device : LanDeviceInfo) : LanDeviceInfo :=
  { i with TotalUp := wrapInt64 (i.TotalUp + device.TotalUp),
           TotalDown := wrapInt64 (i.TotalDown + device.TotalDown),
           Upload := wrapInt64 (i.Upload + device.Upload),
           Download := wrapInt64 (i.Download + device.Download),
           ConnectNum := wrapInt64 (i.ConnectNum + device.ConnectNum) }

/-- The start of an iteration: the next record is copied into the loop variable, a new
cell under `perIteration` and the only cell under `perLoop`. Returns the storage and
`&device`. -/
def bindLoopVar (sem : LoopVar) (cells : List LanDeviceInfo) (record : LanDeviceInfo) :
    List LanDeviceInfo × Nat :=
  match sem with
  | .perIteration => (cells ++ [record], cells.length)
  | .perLoop => ([record], 0)

/-- The body of `for _, device := range lanDevice.Data.Data`. When the identifier is
already a key, the counters of the loop variable are added to the cell the map points to
(each statement reads a field of `device` that no earlier statement wrote, also when both
are the same cell); otherwise `&device` is stored under the identifier. -/
def deviceStep (sem : LoopVar) (st : DeviceLoop) (record : LanDeviceInfo) : DeviceLoop :=
  let (cells, addr) := bindLoopVar sem st.cells record
  match st.devices.lookup (deviceId record) with
  | some i => { cells := cells.set i (addCounters (cells.getD i default) record),
                devices := st.devices }
  | none => { cells := cells, devices := st.devices ++ [(deviceId record, addr)] }

/-- The device loop over the raw records, from the empty map. -/
def deviceLoop (sem : LoopVar) (data : List LanDeviceInfo) : DeviceLoop :=
  data.foldl (deviceStep sem) { cells := [], devices := [] }

/-- The six observations sent for one entry of the map `devices`. -/
def deviceObservations (deviceId : String) (device : LanDeviceInfo) : List Metric :=
  [ .const .lanDeviceDesc .GaugeValue (.ofInt 1)
      [deviceId, device.Mac, device.Hostname, device.IPAddr, device.Comment],
    .const .streamUpBytesDesc .CounterValue (.ofInt device.TotalUp) [deviceId],
    .const .streamDownBytesDesc .CounterValue (.ofInt device.TotalDown) [deviceId],
    .const .streamUpSpeedDesc .GaugeValue (.ofInt device.Upload) [deviceId],
    .const .streamDownSpeedDesc .GaugeValue (.ofInt device.Download) [deviceId],
    .const .connCountDesc .GaugeValue (.ofInt device.ConnectNum) [deviceId] ]

/-- The map `devices` after the loop with its pointers followed. -/
def mergedDevices (sem : LoopVar) (data : List LanDeviceInfo) :
    List (String × LanDeviceInfo) :=
  let st := deviceLoop sem data
  st.devices.map (fun e => (e.1, st.cells.getD e.2 default))

/-- The else-branch after `ShowMonitorLan`: dedup loop, then emission loop. -/
def deviceMetrics (sem : LoopVar) (data : List LanDeviceInfo) : List Metric :=
  (mergedDevices sem data).flatMap (fun e => deviceObservations e.1 e.2)

/-! ## The collection cycle -/

/-- The bytes of a Go string (its UTF-8 encoding). -/
def goBytes (s : String) : List UInt8 :=
  s.data.flatMap String.utf8EncodeChar

/-- The loop `for idx, item := range sysStat.Cpu`, from index `idx` on: the observations
sent and whether the loop panicked. The slice expression `item[:len(item)-1]` panics
(slice bounds out of range) when `item` is empty. -/
def cpuLoop : Nat → List String → List Metric × Bool
  | _, [] => ([], false)
  | idx, item :: rest =>
    if (goBytes item).length = 0 then ([], true)
    else
      let r := cpuLoop (idx + 1) rest
      (Metric.const .cpuUsageRatioDesc .GaugeValue (.parseFloat (goBytes item).dropLast)
          ["core/" ++ toString idx] :: r.1, r.2)

/-- The host down-indicator sent by the deferred function after a panic. -/
def hostDown : Metric :=
  .const .UpDesc .GaugeValue (.ofInt 0) ["host"]

/-- The host up-indicator sent as the last statement of `Collect`. -/
def hostUp : Metric :=
  .const .UpDesc .GaugeValue (.ofInt 1) ["host"]

/-- The observations from the version metric to the CPU temperature. -/
def versionMetrics (sysStat : SysStat) : List Metric :=
  Metric.const .versionDesc .GaugeValue (.ofInt 1)
      [sysStat.Version, sysStat.Arch, sysStat.Verstring] ::
    (match sysStat.Cputemp with
     | [] => []
     | t :: _ => [Metric.const .cpuTempDesc .GaugeValue (.ofInt t) []])

/-- The four memory gauges and the DHCP pool gauge. The used-memory value is the `int64`
subtraction `Total - Available`, which wraps around. -/
def memoryMetrics (stat : ShowSysStatResult) : List Metric :=
  [ .const .memSizeDesc .GaugeValue (.ofInt stat.SysStat.MemTotal) [],
    .const .memUsageDesc .GaugeValue
      (.ofInt (wrapInt64 (stat.SysStat.MemTotal - stat.SysStat.MemAvailable))) [],
    .const .memCachedDesc .GaugeValue (.ofInt stat.SysStat.MemCached) [],
    .const .memBuffersDesc .GaugeValue (.ofInt stat.SysStat.MemBuffers) [],
    .const .dhcpAddrpoolCountDesc .GaugeValue (.ofInt stat.DhcpAvailableNum) [] ]

/-- The host metrics that close a completed cycle, the up-indicator last. -/
def hostMetrics (sysStat : SysStat) : List Metric :=
  [ .const .UpTimeDesc .CounterValue (.ofInt sysStat.Uptime) ["host"],
    .const .streamUpBytesDesc .CounterValue (.ofInt sysStat.StreamTotalUp) ["host"],
    .const .streamDownBytesDesc .CounterValue (.ofInt sysStat.StreamTotalDown) ["host"],
    .const .streamUpSpeedDesc .GaugeValue (.ofInt sysStat.StreamUpload) ["host"],
    .const .streamDownSpeedDesc .GaugeValue (.ofInt sysStat.StreamDownload) ["host"],
    .const .connCountDesc .GaugeValue (.ofInt sysStat.StreamConnectNum) ["host"],
    hostUp ]

/-- The statements of `Collect` after the CPU loop, none of which can panic. -/
def collectTail (sem : LoopVar) (now : Int) (stat : ShowSysStatResult)
    (lanDevice : ShowMonitorLanResult) (monitorInterface : ShowMonitorInterfaceResult) :
    List Metric :=
  memoryMetrics stat
    ++ appFlowMetrics appFlowBuckets stat.AppFlow
    ++ (if isFail lanDevice.Result lanDevice.err then []
        else deviceMetrics sem lanDevice.Data)
    ++ [Metric.const .lanDeviceCountDesc .GaugeValue (.ofInt stat.SysStat.OnlineUserCount) []]
    ++ (if isFail monitorInterface.Result monitorInterface.err then []
        else interfaceMetrics now monitorInterface)
    ++ hostMetrics stat.SysStat

/-- The body of `Collect`: the observations sent and whether it panicked. -/
def collectBody (sem : LoopVar) (now : Int) (stat : ShowSysStatResult)
    (lanDevice : ShowMonitorLanResult) (monitorInterface : ShowMonitorInterfaceResult) :
    List Metric × Bool :=
  if isFail stat.Result stat.err then ([], true)
  else
    let cpu := cpuLoop 0 stat.SysStat.Cpu
    if cpu.2 then (versionMetrics stat.SysStat ++ cpu.1, true)
    else (versionMetrics stat.SysStat ++ cpu.1
            ++ collectTail sem now stat lanDevice monitorInterface, false)

/-- The method `Collect`: everything sent on the channel in one cycle. The deferred
function recovers a panic and sends the host down-indicator. -/
def Collect (sem : LoopVar) (now : Int) (stat : ShowSysStatResult)
    (lanDevice : ShowMonitorLanResult) (monitorInterface : ShowMonitorInterfaceResult) :
    List Metric :=
  let body := collectBody sem now stat lanDevice monitorInterface
  if body.2 then body.1 ++ [hostDown] else body.1

/-! ## Example inputs -/

/-- A successful system-statistics response: two cores, one app-flow sample. -/
def exStat : ShowSysStatResult :=
  { Result := { ErrMsg := "Success" }, err := none,
    SysStat :=
      { Version := "3.7.11", Arch := "x64", Verstring := "3.7.11 x64 Build202401",
        Cputemp := [41], Cpu := ["5.00%", "12.50%"],
        MemTotal := 1000, MemAvailable := 400, MemCached := 100, MemBuffers := 50,
        OnlineUserCount := 5, Uptime := 86400,
        StreamTotalUp := 7000, StreamTotalDown := 9000, StreamUpload := 10,
        StreamDownload := 20, StreamConnectNum := 30 },
    DhcpAvailableNum := 200,
    AppFlow := [[("Total", 8000000), ("HTTP", 0), ("Video", 7000000)]] }

/-- A system-statistics response the router answered with a failure message. -/
def exStatFailed : ShowSysStatResult :=
  { exStat with Result := { ErrMsg := "no login authentication" } }

/-- A successful system-statistics response whose only CPU utilization string is empty. -/
def exStatEmptyCpu : ShowSysStatResult :=
  { exStat with SysStat := { exStat.SysStat with Cputemp := [], Cpu := [""] } }

/-- Three raw device records, the first and the third with the same MAC. -/
def exDevices : List LanDeviceInfo :=
  [ { Mac := "aa:aa", Hostname := "nas", IPAddr := "10.0.0.2", Comment := "first",
      TotalUp := 1, TotalDown := 2, Upload := 3, Download := 4, ConnectNum := 5 },
    { Mac := "bb:bb", Hostname := "tv", IPAddr := "10.0.0.3", Comment := "",
      TotalUp := 10, TotalDown := 20, Upload := 30, Download := 40, ConnectNum := 50 },
    { Mac := "aa:aa", Hostname := "nas6", IPAddr := "fe80::2", Comment := "third",
      TotalUp := 100, TotalDown := 200, Upload := 300, Download := 400, ConnectNum := 500 } ]

/-- A successful LAN-device response with the records of `exDevices`. -/
def exLan : ShowMonitorLanResult :=
  { Result := { ErrMsg := "Success" }, err := none, Data := exDevices }

/-- Two raw records of one MAC address whose send-byte counters are `2 ^ 62` each. -/
def exDevicesBig : List LanDeviceInfo :=
  [ { Mac := "aa:aa", Hostname := "nas", IPAddr := "10.0.0.2", Comment := "first",
      TotalUp := 4611686018427387904, TotalDown := 2, Upload := 3, Download := 4,
      ConnectNum := 5 },
    { Mac := "aa:aa", Hostname := "nas6", IPAddr := "fe80::2", Comment := "second",
      TotalUp := 4611686018427387904, TotalDown := 20, Upload := 30, Download := 40,
      ConnectNum := 50 } ]

/-- A successful LAN-device response with the records of `exDevicesBig`. -/
def exLanBig : ShowMonitorLanResult :=
  { Result := { ErrMsg := "Success" }, err := none, Data := exDevicesBig }

/-- A successful system-statistics response with memory total `2 ^ 63 - 1` and memory
available `-1`. -/
def exStatBigMem : ShowSysStatResult :=
  { exStat with SysStat := { exStat.SysStat with MemTotal := 9223372036854775807,
                                                 MemAvailable := -1 } }

/-- A successful LAN-device response with no device. -/
def exLanEmpty : ShowMonitorLanResult :=
  { Result := { ErrMsg := "Success" }, err := none, Data := [] }

/-- The traffic record of the interface wan1. -/
def exWan1 : IfaceStream :=
  { Interface := "wan1", Comment := "uplink", IPAddr := "192.0.2.1",
    TotalUp := 11, TotalDown := 22, Upload := 33, Download := 44, ConnectNum := "abc" }

/-- A successful check of wan1, updated at time 100. -/
def exCheckOk : IfaceCheck :=
  { Interface := "wan1", Internet := "1", ParentInterface := "eth1",
    Result := "success", Updatetime := "100" }

/-- A failed check of wan1. -/
def exCheckFailed : IfaceCheck :=
  { Interface := "wan1", Internet := "1", ParentInterface := "eth1",
    Result := "timeout", Updatetime := "100" }

/-- A successful check of wan1 whose timestamp is the least `int64`. -/
def exCheckMinInt : IfaceCheck :=
  { exCheckOk with Updatetime := "-9223372036854775808" }

/-- A successful check of wan1 whose timestamp is not a number. -/
def exCheckNoTime : IfaceCheck :=
  { exCheckOk with Updatetime := "never" }

/-- A successful interface response: wan1 with one successful check. -/
def exIface : ShowMonitorInterfaceResult :=
  { Result := { ErrMsg := "Success" }, err := none,
    IfaceStream := [exWan1], IfaceCheck := [exCheckOk] }

/-- A successful interface response that lists wan1 twice. -/
def exIfaceTwice : ShowMonitorInterfaceResult :=
  { exIface with IfaceStream := [exWan1, exWan1] }

/-! ## The device deduplicator of the specification -/

/-- The step of the Device Deduplicator as the spec words it (4.2): if the identifier of
the record already exists in the output mapping, add its counters into the existing
entry, otherwise insert the record as a new entry. -/
def specMergeStep (acc : List (String × LanDeviceInfo)) (record : LanDeviceInfo) :
    List (String × LanDeviceInfo) :=
  match acc.lookup (deviceId record) with
  | some _ => acc.map (fun e =>
      if e.1 = deviceId record then (e.1, addCounters e.2 record) else e)
  | none => acc ++ [(deviceId record, record)]

/-- The Device Deduplicator of the spec (4.2): the fold of `specMergeStep` over the raw
records in order. -/
def specMerge (data : List LanDeviceInfo) : List (String × LanDeviceInfo) :=
  data.foldl specMergeStep []

/-- The records of `data` with the MAC address `mac`, in order. -/
def recordsOf (mac : String) (data : List LanDeviceInfo) : List LanDeviceInfo :=
  data.filter (fun r => r.Mac = mac)

/-! ## Reading identifiers back -/

/-- The id labels of the observations of the descriptor `desc` in `l`, in sending order. -/
def idsOf (desc : Desc) (l : List Metric) : List String :=
  (l.filter (fun x => x.desc = desc)).filterMap (fun x => x.label "id")

/-- The number a string of decimal digits denotes; it reads back what `%v` prints for an
index. -/
def decimalValue (cs : List Char) : Nat :=
  cs.foldl (fun acc c => acc * 10 + (c.toNat - 48)) 0

/-- A check record of another interface. -/
def exCheckOther : IfaceCheck :=
  { Interface := "wan2", Internet := "1", ParentInterface := "eth2",
    Result := "timeout", Updatetime := "100" }

/-- A successful system-statistics response whose second CPU utilization string is
empty. -/
def exStatSecondCpuEmpty : ShowSysStatResult :=
  { exStat with SysStat := { exStat.SysStat with Cputemp := [], Cpu := ["5.00%", ""] } }

/-- A LAN-device response that came with a transport error. -/
def exLanFailed : ShowMonitorLanResult :=
  { Result := { ErrMsg := "" }, err := some "connection refused", Data := exDevices }

/-- An interface response the router answered with a failure message. -/
def exIfaceFailed : ShowMonitorInterfaceResult :=
  { exIface with Result := { ErrMsg := "no login authentication" } }

/-! ## Lemmas: bucket counts -/

theorem lookup_map_one (bs : List Int) (k : Int) :
    (bs.map (fun b => (b, (1 : Nat)))).lookup k = if k ∈ bs then some 1 else none := by
  induction bs with
  | nil => simp
  | cons b rest ih =>
    by_cases h : k = b
    · subst h; simp [List.lookup]
    · have h2 : (k == b) = false := by simpa using h
      simp [List.lookup, h2, ih, h]

theorem foldl_bucketCounts (value : Int) (bs : List Int) :
    ∀ acc : List Int, (∀ b ∈ bs, b ∉ acc) → bs.Nodup →
      bs.foldl (fun bucketCounts bucket =>
          if value ≤ bucket then incrCount bucketCounts bucket else bucketCounts)
        (acc.map (fun b => (b, (1 : Nat))))
        = (acc ++ bs.filter (fun b => value ≤ b)).map (fun b => (b, (1 : Nat))) := by
  induction bs with
  | nil => intro acc _ _; simp
  | cons b rest ih =>
    intro acc hacc hnd
    have hb : b ∉ acc := hacc b (List.mem_cons_self _ _)
    have hrest : rest.Nodup := (List.nodup_cons.mp hnd).2
    have hbr : b ∉ rest := (List.nodup_cons.mp hnd).1
    simp only [List.foldl_cons]
    by_cases hv : value ≤ b
    · have hinc : incrCount (acc.map (fun b => (b, (1 : Nat)))) b
          = (acc ++ [b]).map (fun b => (b, (1 : Nat))) := by
        simp [incrCount, lookup_map_one, hb]
      rw [if_pos hv, hinc, ih (acc ++ [b]) _ hrest]
      · simp [List.filter_cons, hv]
      · intro x hx
        simp only [List.mem_append, List.mem_singleton, not_or]
        exact ⟨hacc x (List.mem_cons_of_mem _ hx), fun h => hbr (h ▸ hx)⟩
    · rw [if_neg hv, ih acc (fun x hx => hacc x (List.mem_cons_of_mem _ hx)) hrest]
      simp [List.filter_cons, hv]

/-- With pairwise distinct bounds the result has one entry, of count one, for each bound
that is at least the value. -/
theorem generateAppFlowBucketsCounts_eq (buckets : List Int) (value : Int)
    (hnd : buckets.Nodup) :
    generateAppFlowBucketsCounts buckets value
      = (buckets.filter (fun b => value ≤ b)).map (fun b => (b, (1 : Nat))) := by
  have h := foldl_bucketCounts value buckets [] (by simp) hnd
  simpa [generateAppFlowBucketsCounts] using h

theorem appFlowBuckets_eq :
    appFlowBuckets = [1048576, 6291456, 11534336, 16777216, 22020096, 27262976, 32505856,
      37748736, 42991616, 48234496] := by
  decide

theorem appFlowBuckets_nodup : appFlowBuckets.Nodup := by
  rw [appFlowBuckets_eq]; decide

/-! ## Lemmas: the shape of a cycle -/

theorem isFail_eq_true_iff (result : Result) (err : Option String) :
    isFail result err = true ↔ (err ≠ none ∨ result.ErrMsg ≠ "Success") := by
  unfold isFail
  split <;> simp_all

theorem isFail_eq_false_iff (result : Result) (err : Option String) :
    isFail result err = false ↔ (err = none ∧ result.ErrMsg = "Success") := by
  unfold isFail
  split <;> simp_all
  · tauto

theorem goBytes_length_eq_zero (item : String) : (goBytes item).length = 0 ↔ item = "" := by
  obtain ⟨cs⟩ := item
  cases cs with
  | nil => simp [goBytes]
  | cons c rest =>
    have hc := Char.utf8Size_pos c
    have hne : (String.mk (c :: rest)) ≠ "" := by
      intro h
      have := congrArg String.data h
      simp at this
    simp [goBytes, List.flatMap_cons, hne]
    intro h
    have := String.length_utf8EncodeChar c
    rw [h] at this
    simp at this
    omega

/-- The CPU loop panics exactly when some utilization string is empty. -/
theorem cpuLoop_panics_iff (items : List String) :
    ∀ idx, (cpuLoop idx items).2 = true ↔ "" ∈ items := by
  induction items with
  | nil => intro idx; simp [cpuLoop]
  | cons item rest ih =>
    intro idx
    by_cases h : item = ""
    · subst h; simp [cpuLoop, goBytes]
    · have h1 : ¬ (goBytes item).length = 0 := by rwa [goBytes_length_eq_zero]
      have h2 : ¬ "" = item := fun e => h e.symm
      simp only [cpuLoop, if_neg h1, ih, List.mem_cons, h2, false_or]

/-! ## Lemmas: the check loop -/

theorem checkStep_of_ne (now : Int) (iface : IfaceStream) (v : IfaceVars) (c : IfaceCheck)
    (h : c.Interface ≠ iface.Interface) : checkStep now iface v c = v := by
  simp [checkStep, h]

theorem checkStep_ifaceUp_zero (now : Int) (iface : IfaceStream) (v : IfaceVars)
    (c : IfaceCheck) (h : v.ifaceUp = 0) : (checkStep now iface v c).ifaceUp = 0 := by
  unfold checkStep
  split
  · split
    · rfl
    · split <;> simpa using h
  · exact h

theorem foldl_checkStep_ifaceUp_zero (now : Int) (iface : IfaceStream)
    (checks : List IfaceCheck) :
    ∀ v : IfaceVars, v.ifaceUp = 0 → (checks.foldl (checkStep now iface) v).ifaceUp = 0 := by
  induction checks with
  | nil => intro v h; simpa using h
  | cons c rest ih =>
    intro v h
    exact ih _ (checkStep_ifaceUp_zero now iface v c h)

/-- A matching check record with a result other than "success" leaves the up flag at 0,
whatever the records after it are. -/
theorem foldl_checkStep_failed (now : Int) (iface : IfaceStream) (checks : List IfaceCheck) :
    ∀ v : IfaceVars,
      (∃ c ∈ checks, c.Interface = iface.Interface ∧ c.Result ≠ "success") →
      (checks.foldl (checkStep now iface) v).ifaceUp = 0 := by
  induction checks with
  | nil => intro v h; simp at h
  | cons c rest ih =>
    intro v h
    obtain ⟨k, hk, hname, hres⟩ := h
    rcases List.mem_cons.mp hk with rfl | hk
    · exact foldl_checkStep_ifaceUp_zero now iface rest _
        (by simp [checkStep, hname, hres])
    · exact ih _ ⟨k, hk, hname, hres⟩

/-- The uptime variable is assigned only by a matching successful record whose timestamp
parses. -/
theorem foldl_checkStep_uptime (now : Int) (iface : IfaceStream) (checks : List IfaceCheck) :
    ∀ v : IfaceVars,
      (∀ c ∈ checks, c.Interface = iface.Interface → c.Result = "success" →
        ParseInt c.Updatetime 64 = none) →
      (checks.foldl (checkStep now iface) v).ifaceUptime = v.ifaceUptime := by
  induction checks with
  | nil => intro v _; rfl
  | cons c rest ih =>
    intro v h
    have hrest := ih (checkStep now iface v c)
      (fun k hk => h k (List.mem_cons_of_mem _ hk))
    rw [List.foldl_cons, hrest]
    have hc := h c (List.mem_cons_self _ _)
    unfold checkStep
    split
    · rename_i hname
      split
      · rfl
      · rename_i hres
        have hres2 : c.Result = "success" := by simpa using hres
        rw [hc hname hres2]
    · rfl

/-- Only the check records that carry the interface name take part in the loop. -/
theorem foldl_checkStep_filter (now : Int) (iface : IfaceStream) (checks : List IfaceCheck) :
    ∀ v : IfaceVars,
      checks.foldl (checkStep now iface) v
        = (checks.filter (fun c => c.Interface = iface.Interface)).foldl
            (checkStep now iface) v := by
  induction checks with
  | nil => intro v; rfl
  | cons c rest ih =>
    intro v
    by_cases h : c.Interface = iface.Interface
    · simp [List.filter_cons, h, ih]
    · simp [List.filter_cons, h, ih, checkStep_of_ne now iface v c h]

theorem wrapInt64_of_range (x : Int) (h1 : -2 ^ 63 ≤ x) (h2 : x < 2 ^ 63) :
    wrapInt64 x = x := by
  unfold wrapInt64
  rw [Int.emod_eq_of_lt (by omega) (by omega)]
  omega

theorem mem_interfaceMetrics (now : Int) (monitorInterface : ShowMonitorInterfaceResult)
    (iface : IfaceStream) (h : iface ∈ monitorInterface.IfaceStream) (m : Metric)
    (hm : m ∈ ifaceObservations now monitorInterface.IfaceCheck iface) :
    m ∈ interfaceMetrics now monitorInterface := by
  unfold interfaceMetrics
  exact List.mem_flatMap.mpr ⟨iface, h, hm⟩

/-! ## Lemmas: identifiers -/

theorem iface_ne_host (x : String) : "iface/" ++ x ≠ "host" := by
  intro h
  have := congrArg String.data h
  simp at this

theorem device_ne_host (x : String) : "device/" ++ x ≠ "host" := by
  intro h
  have := congrArg String.data h
  simp at this

theorem device_ne_iface (x y : String) : "device/" ++ x ≠ "iface/" ++ y := by
  intro h
  have := congrArg String.data h
  simp at this

theorem append_left_cancel (p x y : String) (h : p ++ x = p ++ y) : x = y := by
  have := congrArg String.data h
  simp only [String.data_append, List.append_cancel_left_eq] at this
  exact String.ext this

/-! ## Lemmas: which descriptors each part of a cycle uses -/

theorem filter_desc_eq_nil (l : List Metric) (ds : List Desc) (d : Desc)
    (h : ∀ m ∈ l, m.desc ∈ ds) (hd : d ∉ ds) :
    l.filter (fun m => m.desc = d) = [] := by
  rw [List.filter_eq_nil_iff]
  intro m hm
  have := h m hm
  simp only [decide_eq_true_eq]
  intro he
  exact hd (he ▸ this)

theorem desc_versionMetrics (sysStat : SysStat) :
    ∀ m ∈ versionMetrics sysStat, m.desc ∈ [Desc.versionDesc, Desc.cpuTempDesc] := by
  intro m hm
  unfold versionMetrics at hm
  cases hct : sysStat.Cputemp <;> simp [hct] at hm
  · subst hm; simp [Metric.desc]
  · rcases hm with rfl | rfl <;> simp [Metric.desc]

theorem desc_cpuLoop (items : List String) :
    ∀ idx, ∀ m ∈ (cpuLoop idx items).1, m.desc ∈ [Desc.cpuUsageRatioDesc] := by
  induction items with
  | nil => intro idx m hm; simp [cpuLoop] at hm
  | cons item rest ih =>
    intro idx m hm
    unfold cpuLoop at hm
    split at hm
    · simp at hm
    · rcases List.mem_cons.mp hm with rfl | hm
      · simp [Metric.desc]
      · exact ih _ m hm

theorem desc_memoryMetrics (stat : ShowSysStatResult) :
    ∀ m ∈ memoryMetrics stat, m.desc ∈ [Desc.memSizeDesc, Desc.memUsageDesc,
      Desc.memCachedDesc, Desc.memBuffersDesc, Desc.dhcpAddrpoolCountDesc] := by
  intro m hm
  simp only [memoryMetrics, List.mem_cons, List.mem_singleton, List.not_mem_nil,
    or_false] at hm
  rcases hm with rfl | rfl | rfl | rfl | rfl <;> simp [Metric.desc]

theorem desc_appFlowMetrics (buckets : List Int) (appFlow : List (List (String × Int))) :
    ∀ m ∈ appFlowMetrics buckets appFlow, m.desc ∈ [Desc.appFlowHistogramDesc] := by
  intro m hm
  cases appFlow with
  | nil => simp [appFlowMetrics] at hm
  | cons sample rest =>
    simp only [appFlowMetrics, appFlowHistograms, List.mem_map] at hm
    obtain ⟨e, _, rfl⟩ := hm
    simp [Metric.desc]

theorem desc_deviceObservations (id : String) (device : LanDeviceInfo) :
    ∀ m ∈ deviceObservations id device, m.desc ∈ [Desc.lanDeviceDesc,
      Desc.streamUpBytesDesc, Desc.streamDownBytesDesc, Desc.streamUpSpeedDesc,
      Desc.streamDownSpeedDesc, Desc.connCountDesc] := by
  intro m hm
  simp only [deviceObservations, List.mem_cons, List.mem_singleton, List.not_mem_nil,
    or_false] at hm
  rcases hm with rfl | rfl | rfl | rfl | rfl | rfl <;> simp [Metric.desc]

theorem desc_deviceMetrics (sem : LoopVar) (data : List LanDeviceInfo) :
    ∀ m ∈ deviceMetrics sem data, m.desc ∈ [Desc.lanDeviceDesc,
      Desc.streamUpBytesDesc, Desc.streamDownBytesDesc, Desc.streamUpSpeedDesc,
      Desc.streamDownSpeedDesc, Desc.connCountDesc] := by
  intro m hm
  unfold deviceMetrics at hm
  obtain ⟨e, _, he⟩ := List.mem_flatMap.mp hm
  exact desc_deviceObservations _ _ m he

theorem desc_ifaceObservations (now : Int) (checks : List IfaceCheck) (iface : IfaceStream) :
    ∀ m ∈ ifaceObservations now checks iface, m.desc ∈ [Desc.ifaceInfoDesc, Desc.UpDesc,
      Desc.UpTimeDesc, Desc.streamUpBytesDesc, Desc.streamDownBytesDesc,
      Desc.streamUpSpeedDesc, Desc.streamDownSpeedDesc, Desc.connCountDesc] := by
  intro m hm
  simp only [ifaceObservations, List.mem_cons, List.mem_singleton, List.not_mem_nil,
    or_false] at hm
  rcases hm with rfl | rfl | rfl | rfl | rfl | rfl | rfl | rfl <;> simp [Metric.desc]

theorem desc_interfaceMetrics (now : Int) (monitorInterface : ShowMonitorInterfaceResult) :
    ∀ m ∈ interfaceMetrics now monitorInterface, m.desc ∈ [Desc.ifaceInfoDesc, Desc.UpDesc,
      Desc.UpTimeDesc, Desc.streamUpBytesDesc, Desc.streamDownBytesDesc,
      Desc.streamUpSpeedDesc, Desc.streamDownSpeedDesc, Desc.connCountDesc] := by
  intro m hm
  unfold interfaceMetrics at hm
  obtain ⟨e, _, he⟩ := List.mem_flatMap.mp hm
  exact desc_ifaceObservations _ _ _ m he

theorem desc_hostMetrics (sysStat : SysStat) :
    ∀ m ∈ hostMetrics sysStat, m.desc ∈ [Desc.UpTimeDesc, Desc.streamUpBytesDesc,
      Desc.streamDownBytesDesc, Desc.streamUpSpeedDesc, Desc.streamDownSpeedDesc,
      Desc.connCountDesc, Desc.UpDesc] := by
  intro m hm
  simp only [hostMetrics, hostUp, List.mem_cons, List.mem_singleton, List.not_mem_nil,
    or_false] at hm
  rcases hm with rfl | rfl | rfl | rfl | rfl | rfl | rfl <;> simp [Metric.desc]

/-! ## Lemmas: the three shapes of a cycle -/

theorem Collect_of_failed (sem : LoopVar) (now : Int) (stat : ShowSysStatResult)
    (lanDevice : ShowMonitorLanResult) (monitorInterface : ShowMonitorInterfaceResult)
    (h : isFail stat.Result stat.err = true) :
    Collect sem now stat lanDevice monitorInterface = [hostDown] := by
  simp [Collect, collectBody, h]

theorem Collect_of_cpu_panic (sem : LoopVar) (now : Int) (stat : ShowSysStatResult)
    (lanDevice : ShowMonitorLanResult) (monitorInterface : ShowMonitorInterfaceResult)
    (h : isFail stat.Result stat.err = false) (hcpu : "" ∈ stat.SysStat.Cpu) :
    Collect sem now stat lanDevice monitorInterface
      = versionMetrics stat.SysStat ++ (cpuLoop 0 stat.SysStat.Cpu).1 ++ [hostDown] := by
  have hp : (cpuLoop 0 stat.SysStat.Cpu).2 = true := (cpuLoop_panics_iff _ 0).2 hcpu
  simp [Collect, collectBody, h, hp]

theorem Collect_of_completed (sem : LoopVar) (now : Int) (stat : ShowSysStatResult)
    (lanDevice : ShowMonitorLanResult) (monitorInterface : ShowMonitorInterfaceResult)
    (h : isFail stat.Result stat.err = false) (hcpu : "" ∉ stat.SysStat.Cpu) :
    Collect sem now stat lanDevice monitorInterface
      = versionMetrics stat.SysStat ++ (cpuLoop 0 stat.SysStat.Cpu).1
          ++ collectTail sem now stat lanDevice monitorInterface := by
  have hp : (cpuLoop 0 stat.SysStat.Cpu).2 = false := by
    cases hb : (cpuLoop 0 stat.SysStat.Cpu).2
    · rfl
    · exact absurd ((cpuLoop_panics_iff _ 0).1 hb) hcpu
  simp [Collect, collectBody, h, hp]

/-! ## Lemmas: the id label of each part of a cycle -/

theorem label_id_ifaceObservations (now : Int) (checks : List IfaceCheck)
    (iface : IfaceStream) :
    ∀ m ∈ ifaceObservations now checks iface,
      m.label "id" = some ("iface/" ++ iface.Interface) := by
  intro m hm
  simp only [ifaceObservations, List.mem_cons, List.mem_singleton, List.not_mem_nil,
    or_false] at hm
  rcases hm with rfl | rfl | rfl | rfl | rfl | rfl | rfl | rfl <;>
    simp [Metric.label, Metric.desc, Metric.labelValues, Desc.variableLabels, List.lookup,
      ifaceId]

theorem label_id_interfaceMetrics (now : Int)
    (monitorInterface : ShowMonitorInterfaceResult) :
    ∀ m ∈ interfaceMetrics now monitorInterface,
      ∃ iface ∈ monitorInterface.IfaceStream,
        m.label "id" = some ("iface/" ++ iface.Interface) := by
  intro m hm
  unfold interfaceMetrics at hm
  obtain ⟨iface, hi, he⟩ := List.mem_flatMap.mp hm
  exact ⟨iface, hi, label_id_ifaceObservations _ _ _ m he⟩

theorem label_id_deviceObservations (id : String) (device : LanDeviceInfo) :
    ∀ m ∈ deviceObservations id device, m.label "id" = some id := by
  intro m hm
  simp only [deviceObservations, List.mem_cons, List.mem_singleton, List.not_mem_nil,
    or_false] at hm
  rcases hm with rfl | rfl | rfl | rfl | rfl | rfl <;>
    simp [Metric.label, Metric.desc, Metric.labelValues, Desc.variableLabels, List.lookup]

theorem label_id_hostMetrics (sysStat : SysStat) :
    ∀ m ∈ hostMetrics sysStat, m.label "id" = some "host" := by
  intro m hm
  simp only [hostMetrics, hostUp, List.mem_cons, List.mem_singleton, List.not_mem_nil,
    or_false] at hm
  rcases hm with rfl | rfl | rfl | rfl | rfl | rfl | rfl <;>
    simp [Metric.label, Metric.desc, Metric.labelValues, Desc.variableLabels, List.lookup]

theorem hostDown_not_mem_of_desc (l : List Metric) (ds : List Desc)
    (h : ∀ m ∈ l, m.desc ∈ ds) (hd : Desc.UpDesc ∉ ds) : hostDown ∉ l := by
  intro hm
  exact hd (h _ hm)

theorem hostUp_not_mem_of_desc (l : List Metric) (ds : List Desc)
    (h : ∀ m ∈ l, m.desc ∈ ds) (hd : Desc.UpDesc ∉ ds) : hostUp ∉ l := by
  intro hm
  exact hd (h _ hm)

theorem hostDown_not_mem_collectTail (sem : LoopVar) (now : Int) (stat : ShowSysStatResult)
    (lanDevice : ShowMonitorLanResult) (monitorInterface : ShowMonitorInterfaceResult) :
    hostDown ∉ collectTail sem now stat lanDevice monitorInterface := by
  unfold collectTail
  simp only [List.mem_append, not_or]
  refine ⟨⟨⟨⟨⟨?_, ?_⟩, ?_⟩, ?_⟩, ?_⟩, ?_⟩
  · exact hostDown_not_mem_of_desc _ _ (desc_memoryMetrics stat) (by decide)
  · exact hostDown_not_mem_of_desc _ _ (desc_appFlowMetrics _ _) (by decide)
  · split
    · simp
    · exact hostDown_not_mem_of_desc _ _ (desc_deviceMetrics _ _) (by decide)
  · simp [hostDown]
  · split
    · simp
    · intro hm
      obtain ⟨iface, _, hl⟩ := label_id_interfaceMetrics now monitorInterface _ hm
      have h2 : hostDown.label "id" = some "host" := by decide
      rw [h2] at hl
      exact iface_ne_host _ (Option.some.inj hl).symm
  · simp [hostMetrics, hostDown, hostUp]

theorem collectTail_getLast (sem : LoopVar) (now : Int) (stat : ShowSysStatResult)
    (lanDevice : ShowMonitorLanResult) (monitorInterface : ShowMonitorInterfaceResult) :
    ∃ pre, collectTail sem now stat lanDevice monitorInterface = pre ++ [hostUp] := by
  refine ⟨memoryMetrics stat
    ++ appFlowMetrics appFlowBuckets stat.AppFlow
    ++ (if isFail lanDevice.Result lanDevice.err then []
        else deviceMetrics sem lanDevice.Data)
    ++ [Metric.const .lanDeviceCountDesc .GaugeValue (.ofInt stat.SysStat.OnlineUserCount) []]
    ++ (if isFail monitorInterface.Result monitorInterface.err then []
        else interfaceMetrics now monitorInterface)
    ++ (hostMetrics stat.SysStat).dropLast, ?_⟩
  simp [collectTail, hostMetrics]

/-! ## Lemmas: the observations of one descriptor in a cycle -/

theorem filter_ite_nil (p : Metric → Bool) (c : Bool) (l : List Metric) :
    (if c = true then [] else l).filter p = if c = true then [] else l.filter p := by
  cases c <;> simp

theorem deviceMetrics_nil (sem : LoopVar) : deviceMetrics sem [] = [] := by
  simp [deviceMetrics, mergedDevices, deviceLoop]

/-- The device-count observations of a cycle that is not stopped by a panic. -/
theorem filter_lanDeviceCount_collectTail (sem : LoopVar) (now : Int)
    (stat : ShowSysStatResult) (lanDevice : ShowMonitorLanResult)
    (monitorInterface : ShowMonitorInterfaceResult) :
    (collectTail sem now stat lanDevice monitorInterface).filter
        (fun m => m.desc = .lanDeviceCountDesc)
      = [Metric.const .lanDeviceCountDesc .GaugeValue
          (.ofInt stat.SysStat.OnlineUserCount) []] := by
  have h1 := filter_desc_eq_nil _ _ .lanDeviceCountDesc (desc_memoryMetrics stat) (by decide)
  have h2 := filter_desc_eq_nil _ _ .lanDeviceCountDesc
    (desc_appFlowMetrics appFlowBuckets stat.AppFlow) (by decide)
  have h3 := filter_desc_eq_nil _ _ .lanDeviceCountDesc
    (desc_deviceMetrics sem lanDevice.Data) (by decide)
  have h4 := filter_desc_eq_nil _ _ .lanDeviceCountDesc
    (desc_interfaceMetrics now monitorInterface) (by decide)
  have h5 := filter_desc_eq_nil _ _ .lanDeviceCountDesc
    (desc_hostMetrics stat.SysStat) (by decide)
  simp only [collectTail, List.filter_append, filter_ite_nil, h1, h2, h3, h4, h5]
  simp [Metric.desc]

theorem filter_desc_head (stat : ShowSysStatResult) (d : Desc)
    (hd : d ∉ [Desc.versionDesc, Desc.cpuTempDesc, Desc.cpuUsageRatioDesc]) :
    (versionMetrics stat.SysStat ++ (cpuLoop 0 stat.SysStat.Cpu).1).filter
      (fun m => m.desc = d) = [] := by
  have hv := filter_desc_eq_nil _ _ d (desc_versionMetrics stat.SysStat)
    (fun h => hd (by simp only [List.mem_cons, List.mem_singleton] at h ⊢; tauto))
  have hc := filter_desc_eq_nil _ _ d (desc_cpuLoop stat.SysStat.Cpu 0)
    (fun h => hd (by simp only [List.mem_cons, List.mem_singleton] at h ⊢; tauto))
  rw [List.filter_append, hv, hc]
  rfl

/-- The observations of a descriptor used only after the CPU loop: those of the tail of
the cycle when the cycle completes, none when it is stopped by a panic. -/
theorem filter_desc_Collect (sem : LoopVar) (now : Int) (stat : ShowSysStatResult)
    (lanDevice : ShowMonitorLanResult) (monitorInterface : ShowMonitorInterfaceResult)
    (d : Desc)
    (hd : d ∉ [Desc.versionDesc, Desc.cpuTempDesc, Desc.cpuUsageRatioDesc])
    (hup : d ≠ Desc.UpDesc) :
    (Collect sem now stat lanDevice monitorInterface).filter (fun m => m.desc = d)
      = if isFail stat.Result stat.err = false ∧ "" ∉ stat.SysStat.Cpu
        then (collectTail sem now stat lanDevice monitorInterface).filter
          (fun m => m.desc = d)
        else [] := by
  have hdown : [hostDown].filter (fun m => m.desc = d) = [] := by
    rw [List.filter_eq_nil_iff]
    intro m hm
    rw [List.mem_singleton] at hm
    subst hm
    simpa [hostDown, Metric.desc] using fun h => hup h.symm
  cases hf : isFail stat.Result stat.err
  · by_cases hcpu : "" ∈ stat.SysStat.Cpu
    · rw [Collect_of_cpu_panic sem now stat lanDevice monitorInterface hf hcpu,
        List.filter_append, filter_desc_head stat d hd, hdown]
      simp [hcpu]
    · rw [Collect_of_completed sem now stat lanDevice monitorInterface hf hcpu,
        List.filter_append, filter_desc_head stat d hd]
      simp [hcpu]
  · rw [Collect_of_failed sem now stat lanDevice monitorInterface hf, hdown]
    simp

/-! ## Lemmas: app-flow histograms -/

/-- The histogram observations of the tail of a cycle are those of the app-flow block. -/
theorem filter_appFlow_collectTail (sem : LoopVar) (now : Int)
    (stat : ShowSysStatResult) (lanDevice : ShowMonitorLanResult)
    (monitorInterface : ShowMonitorInterfaceResult) :
    (collectTail sem now stat lanDevice monitorInterface).filter
        (fun m => m.desc = .appFlowHistogramDesc)
      = appFlowMetrics appFlowBuckets stat.AppFlow := by
  have h1 := filter_desc_eq_nil _ _ .appFlowHistogramDesc (desc_memoryMetrics stat)
    (by decide)
  have h3 := filter_desc_eq_nil _ _ .appFlowHistogramDesc
    (desc_deviceMetrics sem lanDevice.Data) (by decide)
  have h4 := filter_desc_eq_nil _ _ .appFlowHistogramDesc
    (desc_interfaceMetrics now monitorInterface) (by decide)
  have h5 := filter_desc_eq_nil _ _ .appFlowHistogramDesc
    (desc_hostMetrics stat.SysStat) (by decide)
  have h2 : (appFlowMetrics appFlowBuckets stat.AppFlow).filter
      (fun m => m.desc = .appFlowHistogramDesc)
      = appFlowMetrics appFlowBuckets stat.AppFlow := by
    rw [List.filter_eq_self]
    intro m hm
    have := desc_appFlowMetrics _ _ m hm
    simpa using this
  simp only [collectTail, List.filter_append, filter_ite_nil, h1, h2, h3, h4, h5]
  simp [Metric.desc]

/-- The histogram observations of a cycle: those of the app-flow block when the cycle
completes, none otherwise. -/
theorem filter_appFlow_Collect (sem : LoopVar) (now : Int) (stat : ShowSysStatResult)
    (lanDevice : ShowMonitorLanResult) (monitorInterface : ShowMonitorInterfaceResult) :
    (Collect sem now stat lanDevice monitorInterface).filter
        (fun m => m.desc = .appFlowHistogramDesc)
      = if isFail stat.Result stat.err = false ∧ "" ∉ stat.SysStat.Cpu
        then appFlowMetrics appFlowBuckets stat.AppFlow else [] := by
  rw [filter_desc_Collect sem now stat lanDevice monitorInterface .appFlowHistogramDesc
    (by decide) (by decide), filter_appFlow_collectTail]

/-- Every histogram observation of a cycle comes from an entry of the first app-flow
sample whose name is not "Total". -/
theorem mem_Collect_histogram (sem : LoopVar) (now : Int) (stat : ShowSysStatResult)
    (lanDevice : ShowMonitorLanResult) (monitorInterface : ShowMonitorInterfaceResult)
    (m : Metric) (hm : m ∈ Collect sem now stat lanDevice monitorInterface)
    (hd : m.desc = .appFlowHistogramDesc) :
    ∃ e ∈ stat.AppFlow.headD [], e.1 ≠ "Total"
      ∧ m = Metric.histogram .appFlowHistogramDesc (toUint64 e.2) e.2
          (generateAppFlowBucketsCounts appFlowBuckets e.2) [e.1] := by
  have hmem : m ∈ (Collect sem now stat lanDevice monitorInterface).filter
      (fun m => m.desc = .appFlowHistogramDesc) :=
    List.mem_filter.mpr ⟨hm, by simpa using hd⟩
  rw [filter_appFlow_Collect] at hmem
  split at hmem
  · cases hs : stat.AppFlow with
    | nil => simp [hs, appFlowMetrics] at hmem
    | cons sample rest =>
      simp only [hs, appFlowMetrics, appFlowHistograms, List.mem_map, List.mem_filter] at hmem
      obtain ⟨e, ⟨he, hne⟩, rfl⟩ := hmem
      exact ⟨e, by simpa using he, by simpa using hne, rfl⟩
  · simp at hmem

theorem le_of_mem_appFlowBuckets (b : Int) (hb : b ∈ appFlowBuckets) : b ≤ 48234496 := by
  rw [appFlowBuckets_eq] at hb
  simp only [List.mem_cons, List.mem_singleton, List.not_mem_nil, or_false] at hb
  omega

theorem countOf_le_toUint64 (v : Int) (hv : 1 ≤ v) (b : Int) :
    countOf (generateAppFlowBucketsCounts appFlowBuckets v) b ≤ toUint64 v := by
  rw [generateAppFlowBucketsCounts_eq _ _ appFlowBuckets_nodup]
  unfold countOf
  rw [lookup_map_one]
  split
  · rename_i hmem
    have hb := List.mem_filter.mp hmem
    have h1 := le_of_mem_appFlowBuckets b hb.1
    have h2 : v ≤ b := by simpa using hb.2
    have h3 : v % 2 ^ 64 = v := Int.emod_eq_of_lt (by omega) (by omega)
    simp only [Option.getD_some, toUint64, h3]
    omega
  · simp

/-! ## Lemmas: maps held as lists of entries -/

theorem lookup_map_val {β γ : Type} (f : β → γ) (k : String) (l : List (String × β)) :
    (l.map (fun e => (e.1, f e.2))).lookup k = (l.lookup k).map f := by
  induction l with
  | nil => rfl
  | cons e rest ih =>
    obtain ⟨a, b⟩ := e
    by_cases h : k = a
    · subst h; simp [List.lookup]
    · have h2 : (k == a) = false := by simpa using h
      simp [List.lookup, h2, ih]

theorem mem_of_lookup_eq_some {β : Type} (k : String) (v : β) (l : List (String × β))
    (h : l.lookup k = some v) : (k, v) ∈ l := by
  obtain ⟨l₁, l₂, rfl, _⟩ := List.lookup_eq_some_iff.mp h
  simp

theorem lookup_eq_some_of_mem {β : Type} (k : String) (v : β) (l : List (String × β))
    (hnd : (l.map Prod.fst).Nodup) (h : (k, v) ∈ l) : l.lookup k = some v := by
  induction l with
  | nil => simp at h
  | cons e rest ih =>
    obtain ⟨a, b⟩ := e
    simp only [List.map_cons, List.nodup_cons] at hnd
    rcases List.mem_cons.mp h with heq | hmem
    · injection heq with h1 h2
      subst h1; subst h2
      simp
    · have hne : k ≠ a := by
        intro hka
        subst hka
        exact hnd.1 (List.mem_map.mpr ⟨(k, v), hmem, rfl⟩)
      have h2 : (k == a) = false := by simpa using hne
      simp [List.lookup, h2, ih hnd.2 hmem]

theorem lookup_eq_none_of_not_mem {β : Type} (k : String) (l : List (String × β))
    (h : k ∉ l.map Prod.fst) : l.lookup k = none := by
  rw [List.lookup_eq_none_iff]
  intro p hp
  simp only [bne_iff_ne, ne_eq]
  intro hk
  exact h (List.mem_map.mpr ⟨p, hp, hk.symm⟩)

theorem not_mem_keys_of_lookup_eq_none {β : Type} (k : String) (l : List (String × β))
    (h : l.lookup k = none) : k ∉ l.map Prod.fst := by
  rw [List.lookup_eq_none_iff] at h
  intro hm
  obtain ⟨p, hp, hk⟩ := List.mem_map.mp hm
  have := h p hp
  simp only [bne_iff_ne, ne_eq] at this
  exact this hk.symm

/-! ## Lemmas: the device loop with one variable per iteration -/

/-- The map of the device loop with its pointers followed. -/
theorem mergedDevices_eq (sem : LoopVar) (data : List LanDeviceInfo) :
    mergedDevices sem data
      = (deviceLoop sem data).devices.map
          (fun e => (e.1, (deviceLoop sem data).cells.getD e.2 default)) := rfl

theorem getD_set_self (l : List LanDeviceInfo) (i : Nat) (a d : LanDeviceInfo)
    (h : i < l.length) : (l.set i a).getD i d = a := by
  simp [List.getD_eq_getElem?_getD, List.getElem?_set, h]

theorem getD_set_of_ne (l : List LanDeviceInfo) (i j : Nat) (a d : LanDeviceInfo)
    (h : i ≠ j) : (l.set i a).getD j d = l.getD j d := by
  simp [List.getD_eq_getElem?_getD, List.getElem?_set, h]

/-- The step of the loop with per-iteration variables keeps every pointer in range and
the pointers and keys pairwise distinct, and acts on the entries as the step of the
spec. -/
theorem deviceStep_perIteration (st : DeviceLoop) (record : LanDeviceInfo)
    (hrange : ∀ e ∈ st.devices, e.2 < st.cells.length)
    (hptr : (st.devices.map Prod.snd).Nodup)
    (hkeys : (st.devices.map Prod.fst).Nodup) :
    (∀ e ∈ (deviceStep .perIteration st record).devices,
        e.2 < (deviceStep .perIteration st record).cells.length)
    ∧ ((deviceStep .perIteration st record).devices.map Prod.snd).Nodup
    ∧ ((deviceStep .perIteration st record).devices.map Prod.fst).Nodup
    ∧ (deviceStep .perIteration st record).devices.map
          (fun e => (e.1, (deviceStep .perIteration st record).cells.getD e.2 default))
        = specMergeStep
            (st.devices.map (fun e => (e.1, st.cells.getD e.2 default))) record := by
  cases hl : st.devices.lookup (deviceId record) with
  | none =>
    have hstep : deviceStep .perIteration st record
        = { cells := st.cells ++ [record],
            devices := st.devices ++ [(deviceId record, st.cells.length)] } := by
      simp [deviceStep, bindLoopVar, hl]
    rw [hstep]
    refine ⟨?_, ?_, ?_, ?_⟩
    · intro e he
      simp only [List.mem_append, List.mem_singleton] at he
      rcases he with he | rfl
      · have := hrange e he
        simp only [List.length_append, List.length_singleton]
        omega
      · simp
    · simp only [List.map_append, List.map_cons, List.map_nil]
      rw [List.nodup_append]
      refine ⟨hptr, by simp, ?_⟩
      intro a ha hb
      simp only [List.mem_singleton] at hb
      subst hb
      obtain ⟨e, he, heq⟩ := List.mem_map.mp ha
      have := hrange e he
      omega
    · simp only [List.map_append, List.map_cons, List.map_nil]
      rw [List.nodup_append]
      refine ⟨hkeys, by simp, ?_⟩
      intro a ha hb
      simp only [List.mem_singleton] at hb
      subst hb
      exact not_mem_keys_of_lookup_eq_none _ _ hl ha
    · have hspec : (st.devices.map (fun e => (e.1, st.cells.getD e.2 default))).lookup
          (deviceId record) = none := by
        rw [lookup_map_val (fun p => st.cells.getD p default), hl]; rfl
      simp only [specMergeStep, hspec, List.map_append, List.map_cons, List.map_nil]
      congr 1
      · apply List.map_congr_left
        intro e he
        rw [List.getD_append _ _ _ _ (hrange e he)]
      · rw [List.getD_append_right _ _ _ _ (le_refl _)]
        simp
  | some i =>
    have hstep : deviceStep .perIteration st record
        = { cells := (st.cells ++ [record]).set i
              (addCounters ((st.cells ++ [record]).getD i default) record),
            devices := st.devices } := by
      simp [deviceStep, bindLoopVar, hl]
    have hmem : (deviceId record, i) ∈ st.devices := mem_of_lookup_eq_some _ _ _ hl
    have hi : i < st.cells.length := hrange _ hmem
    rw [hstep]
    refine ⟨?_, hptr, hkeys, ?_⟩
    · intro e he
      have := hrange e he
      simp only [List.length_set, List.length_append, List.length_singleton]
      omega
    · have hspec : (st.devices.map (fun e => (e.1, st.cells.getD e.2 default))).lookup
          (deviceId record) = some (st.cells.getD i default) := by
        rw [lookup_map_val (fun p => st.cells.getD p default), hl]; rfl
      simp only [specMergeStep, hspec, List.map_map]
      apply List.map_congr_left
      intro e he
      have he2 : e.2 < st.cells.length := hrange e he
      by_cases hk : e.1 = deviceId record
      · have hlook := lookup_eq_some_of_mem e.1 e.2 st.devices hkeys he
        rw [hk, hl] at hlook
        have hei : i = e.2 := Option.some.inj hlook
        subst hei
        simp only [Function.comp, hk, if_true]
        rw [getD_set_self _ _ _ _ (by simp; omega), List.getD_append _ _ _ _ hi]
      · have hne : i ≠ e.2 := by
          intro hie
          subst hie
          have := (List.inj_on_of_nodup_map hptr) hmem he rfl
          exact hk (congrArg Prod.fst this).symm
        simp only [Function.comp, hk, if_false]
        rw [getD_set_of_ne _ _ _ _ _ hne, List.getD_append _ _ _ _ he2]

theorem foldl_deviceStep_perIteration (data : List LanDeviceInfo) :
    ∀ st : DeviceLoop,
      (∀ e ∈ st.devices, e.2 < st.cells.length) →
      (st.devices.map Prod.snd).Nodup →
      (st.devices.map Prod.fst).Nodup →
      (data.foldl (deviceStep .perIteration) st).devices.map
          (fun e => (e.1, (data.foldl (deviceStep .perIteration) st).cells.getD e.2 default))
        = data.foldl specMergeStep
            (st.devices.map (fun e => (e.1, st.cells.getD e.2 default))) := by
  induction data with
  | nil => intro st _ _ _; rfl
  | cons record rest ih =>
    intro st hrange hptr hkeys
    obtain ⟨h1, h2, h3, h4⟩ := deviceStep_perIteration st record hrange hptr hkeys
    simp only [List.foldl_cons]
    rw [ih _ h1 h2 h3, h4]

/-- With one loop variable per iteration the device loop computes the Device Deduplicator
of the spec: no entry of the map is overwritten or shared. -/
theorem mergedDevices_perIteration (data : List LanDeviceInfo) :
    mergedDevices .perIteration data = specMerge data := by
  have h := foldl_deviceStep_perIteration data { cells := [], devices := [] }
    (by simp) (by simp) (by simp)
  simpa [mergedDevices, deviceLoop, specMerge] using h

/-! ## Lemmas: the device deduplicator of the spec -/

theorem lookup_cons_eq {β : Type} (k a : String) (b : β) (l : List (String × β)) :
    ((a, b) :: l).lookup k = if k = a then some b else l.lookup k := by
  by_cases h : k = a
  · subst h; simp
  · have h2 : (k == a) = false := by simpa using h
    simp [List.lookup, h2, h]

theorem lookup_map_update (f : LanDeviceInfo → LanDeviceInfo) (id k : String)
    (acc : List (String × LanDeviceInfo)) :
    (acc.map (fun e => if e.1 = id then (e.1, f e.2) else e)).lookup k
      = if k = id then (acc.lookup k).map f else acc.lookup k := by
  induction acc with
  | nil => simp
  | cons e rest ih =>
    obtain ⟨a, b⟩ := e
    rw [List.map_cons]
    dsimp only
    by_cases ha : a = id
    · rw [if_pos ha, lookup_cons_eq, lookup_cons_eq, ih]
      by_cases hka : k = a
      · subst hka
        simp [ha]
      · simp only [hka, if_false]
    · rw [if_neg ha, lookup_cons_eq, lookup_cons_eq, ih]
      by_cases hka : k = a
      · subst hka
        simp [ha]
      · simp only [hka, if_false]

theorem keys_specMergeStep (acc : List (String × LanDeviceInfo)) (record : LanDeviceInfo) :
    (specMergeStep acc record).map Prod.fst
      = if deviceId record ∈ acc.map Prod.fst then acc.map Prod.fst
        else acc.map Prod.fst ++ [deviceId record] := by
  unfold specMergeStep
  cases hl : acc.lookup (deviceId record) with
  | none =>
    have := not_mem_keys_of_lookup_eq_none _ _ hl
    simp [this]
  | some d =>
    have hm := mem_of_lookup_eq_some _ _ _ hl
    have : deviceId record ∈ acc.map Prod.fst := List.mem_map.mpr ⟨_, hm, rfl⟩
    simp only [this, if_true, List.map_map]
    apply List.map_congr_left
    intro e _
    by_cases he : e.1 = deviceId record <;> simp [he]

theorem keys_nodup_specMergeStep (acc : List (String × LanDeviceInfo))
    (record : LanDeviceInfo) (h : (acc.map Prod.fst).Nodup) :
    ((specMergeStep acc record).map Prod.fst).Nodup := by
  rw [keys_specMergeStep]
  split
  · exact h
  · rename_i hn
    rw [List.nodup_append]
    refine ⟨h, by simp, ?_⟩
    intro a ha hb
    simp only [List.mem_singleton] at hb
    subst hb
    exact hn ha

theorem deviceId_eq_iff (record : LanDeviceInfo) (mac : String) :
    deviceId record = "device/" ++ mac ↔ record.Mac = mac := by
  unfold deviceId
  constructor
  · exact append_left_cancel _ _ _
  · intro h; rw [h]

/-- The entry of an identifier after the fold of the spec step: the entry it had before
with the counters of all later records of that MAC added, or, when it had none, the first
record of that MAC with the counters of the later ones added. -/
theorem lookup_foldl_specMergeStep (mac : String) (data : List LanDeviceInfo) :
    ∀ acc : List (String × LanDeviceInfo),
      (data.foldl specMergeStep acc).lookup ("device/" ++ mac)
        = match acc.lookup ("device/" ++ mac) with
          | some d => some ((recordsOf mac data).foldl addCounters d)
          | none =>
            match recordsOf mac data with
            | [] => none
            | r :: rest => some (rest.foldl addCounters r) := by
  induction data with
  | nil =>
    intro acc
    cases h : acc.lookup ("device/" ++ mac) <;> simp [recordsOf, h]
  | cons record rest ih =>
    intro acc
    rw [List.foldl_cons, ih]
    by_cases hm : record.Mac = mac
    · have hid : deviceId record = "device/" ++ mac := (deviceId_eq_iff _ _).2 hm
      have hrec : recordsOf mac (record :: rest) = record :: recordsOf mac rest := by
        simp [recordsOf, List.filter_cons, hm]
      rw [hrec]
      unfold specMergeStep
      rw [hid]
      cases hl : acc.lookup ("device/" ++ mac) with
      | none =>
        simp [List.lookup_append, hl]
      | some d =>
        have hu := lookup_map_update (fun x => addCounters x record) ("device/" ++ mac)
          ("device/" ++ mac) acc
        rw [hu, hl]
        simp
    · have hid : "device/" ++ mac ≠ deviceId record := by
        intro h
        exact hm ((deviceId_eq_iff _ _).1 h.symm)
      have hrec : recordsOf mac (record :: rest) = recordsOf mac rest := by
        simp [recordsOf, List.filter_cons, hm]
      rw [hrec]
      have hsame : (specMergeStep acc record).lookup ("device/" ++ mac)
          = acc.lookup ("device/" ++ mac) := by
        unfold specMergeStep
        cases hl : acc.lookup (deviceId record) with
        | none =>
          have h2 : ("device/" ++ mac == deviceId record) = false := by simpa using hid
          simp [List.lookup_append, List.lookup, h2]
        | some d =>
          have hu := lookup_map_update (fun x => addCounters x record) (deviceId record)
            ("device/" ++ mac) acc
          rw [hu, if_neg hid]
      rw [hsame]

theorem wrapInt64_isInt64 (x : Int) : isInt64 (wrapInt64 x) := by
  unfold isInt64 wrapInt64
  constructor <;> omega

theorem wrapInt64_add_left (a b : Int) : wrapInt64 (wrapInt64 a + b) = wrapInt64 (a + b) := by
  unfold wrapInt64
  omega

/-- Adding the counters of a list of records to a record of `int64` counters: each
counter becomes the sum of that counter over the record and the list, wrapped to 64 bits,
and the descriptive fields stay. -/
theorem foldl_addCounters (rs : List LanDeviceInfo) :
    ∀ d : LanDeviceInfo,
      (isInt64 d.TotalUp → (rs.foldl addCounters d).TotalUp
          = wrapInt64 (d.TotalUp + (rs.map (·.TotalUp)).sum))
      ∧ (isInt64 d.TotalDown → (rs.foldl addCounters d).TotalDown
          = wrapInt64 (d.TotalDown + (rs.map (·.TotalDown)).sum))
      ∧ (isInt64 d.Upload → (rs.foldl addCounters d).Upload
          = wrapInt64 (d.Upload + (rs.map (·.Upload)).sum))
      ∧ (isInt64 d.Download → (rs.foldl addCounters d).Download
          = wrapInt64 (d.Download + (rs.map (·.Download)).sum))
      ∧ (isInt64 d.ConnectNum → (rs.foldl addCounters d).ConnectNum
          = wrapInt64 (d.ConnectNum + (rs.map (·.ConnectNum)).sum))
      ∧ (rs.foldl addCounters d).Mac = d.Mac
      ∧ (rs.foldl addCounters d).Hostname = d.Hostname
      ∧ (rs.foldl addCounters d).IPAddr = d.IPAddr
      ∧ (rs.foldl addCounters d).Comment = d.Comment := by
  induction rs with
  | nil =>
    intro d
    refine ⟨?_, ?_, ?_, ?_, ?_, rfl, rfl, rfl, rfl⟩
    all_goals
      intro h
      simp [wrapInt64_of_range _ h.1 h.2]
  | cons r rest ih =>
    intro d
    obtain ⟨h1, h2, h3, h4, h5, h6, h7, h8, h9⟩ := ih (addCounters d r)
    simp only [List.foldl_cons, List.map_cons, List.sum_cons]
    refine ⟨fun _ => ?_, fun _ => ?_, fun _ => ?_, fun _ => ?_, fun _ => ?_,
      h6, h7, h8, h9⟩
    · rw [h1 (wrapInt64_isInt64 _)]
      show wrapInt64 (wrapInt64 (d.TotalUp + r.TotalUp) + _) = _
      rw [wrapInt64_add_left, Int.add_assoc]
    · rw [h2 (wrapInt64_isInt64 _)]
      show wrapInt64 (wrapInt64 (d.TotalDown + r.TotalDown) + _) = _
      rw [wrapInt64_add_left, Int.add_assoc]
    · rw [h3 (wrapInt64_isInt64 _)]
      show wrapInt64 (wrapInt64 (d.Upload + r.Upload) + _) = _
      rw [wrapInt64_add_left, Int.add_assoc]
    · rw [h4 (wrapInt64_isInt64 _)]
      show wrapInt64 (wrapInt64 (d.Download + r.Download) + _) = _
      rw [wrapInt64_add_left, Int.add_assoc]
    · rw [h5 (wrapInt64_isInt64 _)]
      show wrapInt64 (wrapInt64 (d.ConnectNum + r.ConnectNum) + _) = _
      rw [wrapInt64_add_left, Int.add_assoc]

/-- The entry of the spec deduplicator for a MAC address that occurs in the list: the
first record of that MAC with the counters of the later ones added. -/
theorem lookup_specMerge (mac : String) (data : List LanDeviceInfo) :
    (specMerge data).lookup ("device/" ++ mac)
      = match recordsOf mac data with
        | [] => none
        | r :: rest => some (rest.foldl addCounters r) := by
  have h := lookup_foldl_specMergeStep mac data []
  simpa [specMerge] using h

theorem keys_nodup_foldl_specMergeStep (data : List LanDeviceInfo) :
    ∀ acc : List (String × LanDeviceInfo), (acc.map Prod.fst).Nodup →
      ((data.foldl specMergeStep acc).map Prod.fst).Nodup := by
  induction data with
  | nil => intro acc h; exact h
  | cons r rest ih =>
    intro acc h
    exact ih _ (keys_nodup_specMergeStep acc r h)

/-! ## Lemmas: the keys of the device map under either loop-variable scope -/

theorem keys_deviceStep (sem : LoopVar) (st : DeviceLoop) (record : LanDeviceInfo) :
    (deviceStep sem st record).devices.map Prod.fst
      = if deviceId record ∈ st.devices.map Prod.fst then st.devices.map Prod.fst
        else st.devices.map Prod.fst ++ [deviceId record] := by
  unfold deviceStep
  cases hl : st.devices.lookup (deviceId record) with
  | none =>
    have := not_mem_keys_of_lookup_eq_none _ _ hl
    simp [this]
  | some d =>
    have hm := mem_of_lookup_eq_some _ _ _ hl
    have : deviceId record ∈ st.devices.map Prod.fst := List.mem_map.mpr ⟨_, hm, rfl⟩
    simp [this]

theorem keys_foldl_deviceStep (sem : LoopVar) (data : List LanDeviceInfo) :
    ∀ st : DeviceLoop, (st.devices.map Prod.fst).Nodup →
      (∀ k ∈ st.devices.map Prod.fst, ∃ mac, k = "device/" ++ mac) →
      ((data.foldl (deviceStep sem) st).devices.map Prod.fst).Nodup
      ∧ (∀ k ∈ (data.foldl (deviceStep sem) st).devices.map Prod.fst,
          ∃ mac, k = "device/" ++ mac) := by
  induction data with
  | nil => intro st h1 h2; exact ⟨h1, h2⟩
  | cons r rest ih =>
    intro st h1 h2
    apply ih
    · rw [keys_deviceStep]
      split
      · exact h1
      · rename_i hn
        rw [List.nodup_append]
        refine ⟨h1, by simp, ?_⟩
        intro a ha hb
        simp only [List.mem_singleton] at hb
        subst hb
        exact hn ha
    · rw [keys_deviceStep]
      split
      · exact h2
      · intro k hk
        simp only [List.mem_append, List.mem_singleton] at hk
        rcases hk with hk | rfl
        · exact h2 k hk
        · exact ⟨r.Mac, rfl⟩

/-- The identifiers of the merged devices are pairwise distinct and each is "device/"
followed by a MAC address, under either scope of the loop variable. -/
theorem keys_mergedDevices (sem : LoopVar) (data : List LanDeviceInfo) :
    ((mergedDevices sem data).map Prod.fst).Nodup
    ∧ (∀ k ∈ (mergedDevices sem data).map Prod.fst, ∃ mac, k = "device/" ++ mac) := by
  have h := keys_foldl_deviceStep sem data { cells := [], devices := [] }
    (by simp) (by simp)
  have hk : (mergedDevices sem data).map Prod.fst
      = (deviceLoop sem data).devices.map Prod.fst := by
    simp [mergedDevices, List.map_map, Function.comp]
  rw [hk]
  exact h

/-! ## Lemmas: where an observation of a cycle comes from -/

theorem mem_collectTail (sem : LoopVar) (now : Int) (stat : ShowSysStatResult)
    (lanDevice : ShowMonitorLanResult) (monitorInterface : ShowMonitorInterfaceResult)
    (x : Metric) (hx : x ∈ collectTail sem now stat lanDevice monitorInterface) :
    x ∈ memoryMetrics stat
    ∨ x ∈ appFlowMetrics appFlowBuckets stat.AppFlow
    ∨ (isFail lanDevice.Result lanDevice.err = false ∧ x ∈ deviceMetrics sem lanDevice.Data)
    ∨ x = Metric.const .lanDeviceCountDesc .GaugeValue
          (.ofInt stat.SysStat.OnlineUserCount) []
    ∨ (isFail monitorInterface.Result monitorInterface.err = false
        ∧ x ∈ interfaceMetrics now monitorInterface)
    ∨ x ∈ hostMetrics stat.SysStat := by
  simp only [collectTail, List.mem_append, List.mem_singleton] at hx
  rcases hx with ((((h | h) | h) | h) | h) | h
  · exact Or.inl h
  · exact Or.inr (Or.inl h)
  · cases hf : isFail lanDevice.Result lanDevice.err
    · simp only [hf] at h
      exact Or.inr (Or.inr (Or.inl ⟨rfl, by simpa using h⟩))
    · simp [hf] at h
  · exact Or.inr (Or.inr (Or.inr (Or.inl h)))
  · cases hf : isFail monitorInterface.Result monitorInterface.err
    · simp only [hf] at h
      exact Or.inr (Or.inr (Or.inr (Or.inr (Or.inl ⟨rfl, by simpa using h⟩))))
    · simp [hf] at h
  · exact Or.inr (Or.inr (Or.inr (Or.inr (Or.inr h))))

/-- Every observation of a cycle is the down-indicator, or was sent before or in the CPU
loop, or belongs to the tail of a cycle that was not stopped. -/
theorem mem_Collect (sem : LoopVar) (now : Int) (stat : ShowSysStatResult)
    (lanDevice : ShowMonitorLanResult) (monitorInterface : ShowMonitorInterfaceResult)
    (x : Metric) (hx : x ∈ Collect sem now stat lanDevice monitorInterface) :
    x = hostDown
    ∨ x ∈ versionMetrics stat.SysStat
    ∨ x ∈ (cpuLoop 0 stat.SysStat.Cpu).1
    ∨ (isFail stat.Result stat.err = false ∧ "" ∉ stat.SysStat.Cpu
        ∧ x ∈ collectTail sem now stat lanDevice monitorInterface) := by
  cases hf : isFail stat.Result stat.err
  · by_cases hcpu : "" ∈ stat.SysStat.Cpu
    · rw [Collect_of_cpu_panic sem now stat lanDevice monitorInterface hf hcpu] at hx
      simp only [List.mem_append, List.mem_singleton] at hx
      rcases hx with (h | h) | h
      · exact Or.inr (Or.inl h)
      · exact Or.inr (Or.inr (Or.inl h))
      · exact Or.inl h
    · rw [Collect_of_completed sem now stat lanDevice monitorInterface hf hcpu] at hx
      simp only [List.mem_append] at hx
      rcases hx with (h | h) | h
      · exact Or.inr (Or.inl h)
      · exact Or.inr (Or.inr (Or.inl h))
      · exact Or.inr (Or.inr (Or.inr ⟨rfl, hcpu, h⟩))
  · rw [Collect_of_failed sem now stat lanDevice monitorInterface hf] at hx
    exact Or.inl (List.mem_singleton.mp hx)

theorem label_id_of_desc (x : Metric) (h : x.desc ∈ [Desc.versionDesc, Desc.cpuTempDesc,
    Desc.memSizeDesc, Desc.memUsageDesc, Desc.memCachedDesc, Desc.memBuffersDesc,
    Desc.dhcpAddrpoolCountDesc, Desc.lanDeviceCountDesc, Desc.appFlowHistogramDesc]) :
    x.label "id" = none := by
  unfold Metric.label
  simp only [List.mem_cons, List.mem_singleton, List.not_mem_nil, or_false] at h
  rcases h with h | h | h | h | h | h | h | h | h <;> rw [h] <;>
    cases x.labelValues with
    | nil => simp [Desc.variableLabels]
    | cons a rest =>
      cases rest with
      | nil => simp [Desc.variableLabels, List.lookup]
      | cons b rest2 =>
        cases rest2 with
        | nil => simp [Desc.variableLabels, List.lookup]
        | cons c rest3 => simp [Desc.variableLabels, List.lookup]

theorem label_id_cpuLoop (items : List String) :
    ∀ idx, ∀ x ∈ (cpuLoop idx items).1,
      ∃ j, idx ≤ j ∧ x = Metric.const .cpuUsageRatioDesc .GaugeValue
        (.parseFloat (goBytes (items.getD (j - idx) "")).dropLast)
        ["core/" ++ toString j] := by
  induction items with
  | nil => intro idx x hx; simp [cpuLoop] at hx
  | cons item rest ih =>
    intro idx x hx
    unfold cpuLoop at hx
    split at hx
    · simp at hx
    · rcases List.mem_cons.mp hx with rfl | hx
      · exact ⟨idx, le_refl _, by simp⟩
      · obtain ⟨j, hj, rfl⟩ := ih _ x hx
        refine ⟨j, by omega, ?_⟩
        have : j - idx = (j - (idx + 1)) + 1 := by omega
        rw [this]
        simp

theorem core_ne_device (x y : String) : "core/" ++ x ≠ "device/" ++ y := by
  intro h
  have := congrArg String.data h
  simp at this

theorem core_ne_iface (x y : String) : "core/" ++ x ≠ "iface/" ++ y := by
  intro h
  have := congrArg String.data h
  simp at this

theorem core_ne_host (x : String) : "core/" ++ x ≠ "host" := by
  intro h
  have := congrArg String.data h
  simp at this

theorem mem_deviceMetrics (sem : LoopVar) (data : List LanDeviceInfo) (x : Metric)
    (hx : x ∈ deviceMetrics sem data) :
    ∃ e ∈ mergedDevices sem data, x ∈ deviceObservations e.1 e.2 := by
  unfold deviceMetrics at hx
  exact List.mem_flatMap.mp hx

/-- An observation of a cycle whose id label is "device/" followed by a MAC address is
one of the six observations of the map entry of that identifier. -/
theorem mem_Collect_device (sem : LoopVar) (now : Int) (stat : ShowSysStatResult)
    (lanDevice : ShowMonitorLanResult) (monitorInterface : ShowMonitorInterfaceResult)
    (x : Metric) (mac : String)
    (hx : x ∈ Collect sem now stat lanDevice monitorInterface)
    (hid : x.label "id" = some ("device/" ++ mac)) :
    ∃ dev, ("device/" ++ mac, dev) ∈ mergedDevices sem lanDevice.Data
      ∧ x ∈ deviceObservations ("device/" ++ mac) dev := by
  rcases mem_Collect sem now stat lanDevice monitorInterface x hx with h | h | h | h
  · subst h
    have h2 : hostDown.label "id" = some "host" := by decide
    rw [h2] at hid
    exact absurd (Option.some.inj hid).symm (device_ne_host _)
  · have hd := desc_versionMetrics _ x h
    have := label_id_of_desc x (by
      simp only [List.mem_cons, List.mem_singleton, List.not_mem_nil, or_false] at hd ⊢
      tauto)
    rw [this] at hid
    cases hid
  · obtain ⟨j, _, rfl⟩ := label_id_cpuLoop _ 0 x h
    have h2 : (Metric.const .cpuUsageRatioDesc .GaugeValue
        (.parseFloat (goBytes (stat.SysStat.Cpu.getD (j - 0) "")).dropLast)
        ["core/" ++ toString j]).label "id" = some ("core/" ++ toString j) := by
      simp [Metric.label, Metric.desc, Metric.labelValues, Desc.variableLabels, List.lookup]
    rw [h2] at hid
    exact absurd (Option.some.inj hid) (core_ne_device _ _)
  · rcases mem_collectTail sem now stat lanDevice monitorInterface x h.2.2
      with h | h | h | h | h | h
    · have hd := desc_memoryMetrics _ x h
      have := label_id_of_desc x (by
        simp only [List.mem_cons, List.mem_singleton, List.not_mem_nil, or_false] at hd ⊢
        tauto)
      rw [this] at hid
      cases hid
    · have hd := desc_appFlowMetrics _ _ x h
      have := label_id_of_desc x (by
        simp only [List.mem_cons, List.mem_singleton, List.not_mem_nil, or_false] at hd ⊢
        tauto)
      rw [this] at hid
      cases hid
    · obtain ⟨e, he, hxe⟩ := mem_deviceMetrics sem lanDevice.Data x h.2
      have hl := label_id_deviceObservations e.1 e.2 x hxe
      rw [hid] at hl
      have hk : e.1 = "device/" ++ mac := (Option.some.inj hl).symm
      refine ⟨e.2, ?_, ?_⟩
      · rw [← hk]; exact he
      · rw [← hk]; exact hxe
    · subst h
      simp [Metric.label, Metric.desc, Metric.labelValues, Desc.variableLabels] at hid
    · obtain ⟨iface, _, hl⟩ := label_id_interfaceMetrics now monitorInterface x h.2
      rw [hid] at hl
      exact absurd (Option.some.inj hl) (device_ne_iface _ _)
    · have hl := label_id_hostMetrics _ x h
      rw [hid] at hl
      exact absurd (Option.some.inj hl) (device_ne_host _)

/-- With one loop variable per iteration, the map entry of a MAC address that occurs in
the raw list holds the sums of the five counters over the records of that MAC, wrapped to
64 bits, and the descriptive fields of the first such record. -/
theorem lookup_mergedDevices_perIteration (mac : String) (data : List LanDeviceInfo)
    (hmac : mac ∈ data.map (·.Mac)) :
    ∃ dev first rest, recordsOf mac data = first :: rest
      ∧ (mergedDevices .perIteration data).lookup ("device/" ++ mac) = some dev
      ∧ (isInt64 first.TotalUp →
          dev.TotalUp = wrapInt64 ((recordsOf mac data).map (·.TotalUp)).sum)
      ∧ (isInt64 first.TotalDown →
          dev.TotalDown = wrapInt64 ((recordsOf mac data).map (·.TotalDown)).sum)
      ∧ (isInt64 first.Upload →
          dev.Upload = wrapInt64 ((recordsOf mac data).map (·.Upload)).sum)
      ∧ (isInt64 first.Download →
          dev.Download = wrapInt64 ((recordsOf mac data).map (·.Download)).sum)
      ∧ (isInt64 first.ConnectNum →
          dev.ConnectNum = wrapInt64 ((recordsOf mac data).map (·.ConnectNum)).sum)
      ∧ dev.Mac = mac ∧ dev.Hostname = first.Hostname ∧ dev.IPAddr = first.IPAddr
      ∧ dev.Comment = first.Comment := by
  rw [mergedDevices_perIteration, lookup_specMerge]
  cases hr : recordsOf mac data with
  | nil =>
    exfalso
    obtain ⟨r, hr1, hr2⟩ := List.mem_map.mp hmac
    have : r ∈ recordsOf mac data := by
      simp only [recordsOf, List.mem_filter]
      exact ⟨hr1, by simpa using hr2⟩
    rw [hr] at this
    simp at this
  | cons first rest =>
    obtain ⟨h1, h2, h3, h4, h5, h6, h7, h8, h9⟩ := foldl_addCounters rest first
    have hfirst : first.Mac = mac := by
      have : first ∈ recordsOf mac data := by rw [hr]; simp
      simp only [recordsOf, List.mem_filter] at this
      simpa using this.2
    refine ⟨rest.foldl addCounters first, first, rest, rfl, rfl, ?_, ?_, ?_, ?_, ?_, ?_,
      h7, h8, h9⟩
    · intro hi; rw [h1 hi]; simp
    · intro hi; rw [h2 hi]; simp
    · intro hi; rw [h3 hi]; simp
    · intro hi; rw [h4 hi]; simp
    · intro hi; rw [h5 hi]; simp
    · rw [h6, hfirst]

/-! ## Lemmas: printing an index is injective -/

theorem digitChar_toNat (d : Nat) (h : d < 10) : (Nat.digitChar d).toNat - 48 = d := by
  interval_cases d <;> rfl

theorem foldl_toDigitsCore (fuel : Nat) :
    ∀ (n : Nat) (ds : List Char), n < fuel →
      (Nat.toDigitsCore 10 fuel n ds).foldl (fun acc c => acc * 10 + (c.toNat - 48)) 0
        = ds.foldl (fun acc c => acc * 10 + (c.toNat - 48)) n := by
  induction fuel with
  | zero => intro n ds h; omega
  | succ fuel ih =>
    intro n ds h
    unfold Nat.toDigitsCore
    simp only
    have hd : (Nat.digitChar (n % 10)).toNat - 48 = n % 10 :=
      digitChar_toNat _ (Nat.mod_lt _ (by decide))
    split
    · rename_i h0
      simp only [List.foldl_cons, hd]
      congr 1
      omega
    · rename_i h0
      rw [ih (n / 10) _ (by omega)]
      simp only [List.foldl_cons, hd]
      congr 1
      omega

theorem decimalValue_toDigits (n : Nat) : decimalValue (Nat.toDigits 10 n) = n := by
  unfold decimalValue Nat.toDigits
  rw [foldl_toDigitsCore (n + 1) n [] (by omega)]
  rfl

theorem toString_nat_injective (a b : Nat) (h : toString a = toString b) : a = b := by
  have h2 : (Nat.toDigits 10 a).asString = (Nat.toDigits 10 b).asString := h
  have h3 : Nat.toDigits 10 a = Nat.toDigits 10 b := by
    have := congrArg String.data h2
    simpa using this
  have := congrArg decimalValue h3
  rwa [decimalValue_toDigits, decimalValue_toDigits] at this

/-! ## Lemmas: the identifiers of one metric -/

theorem idsOf_append (d : Desc) (a b : List Metric) :
    idsOf d (a ++ b) = idsOf d a ++ idsOf d b := by
  simp [idsOf, List.filter_append, List.filterMap_append]

theorem idsOf_flatMap {α : Type} (d : Desc) (l : List α) (f : α → List Metric) :
    idsOf d (l.flatMap f) = l.flatMap (fun e => idsOf d (f e)) := by
  induction l with
  | nil => rfl
  | cons e rest ih => simp [List.flatMap_cons, idsOf_append, ih]

theorem mem_idsOf (d : Desc) (l : List Metric) (k : String) :
    k ∈ idsOf d l ↔ ∃ x ∈ l, x.desc = d ∧ x.label "id" = some k := by
  simp only [idsOf, List.mem_filterMap, List.mem_filter, decide_eq_true_eq]
  constructor
  · rintro ⟨x, ⟨hx, hd⟩, hl⟩
    exact ⟨x, hx, hd, hl⟩
  · rintro ⟨x, hx, hd, hl⟩
    exact ⟨x, ⟨hx, hd⟩, hl⟩

theorem idsOf_eq_nil (d : Desc) (l : List Metric)
    (h : ∀ x ∈ l, x.label "id" = none) : idsOf d l = [] := by
  rw [List.eq_nil_iff_forall_not_mem]
  intro k hk
  obtain ⟨x, hx, _, hl⟩ := (mem_idsOf d l k).mp hk
  rw [h x hx] at hl
  cases hl

theorem flatMap_ite_singleton {α β : Type} (c : Prop) [Decidable c] (l : List α)
    (g : α → β) :
    l.flatMap (fun e => if c then [g e] else []) = if c then l.map g else [] := by
  by_cases h : c
  · simp only [h, if_true]
    induction l with
    | nil => rfl
    | cons e rest ih => simp [List.flatMap_cons, ih]
  · simp only [h, if_false]
    induction l with
    | nil => rfl
    | cons e rest ih => simp [List.flatMap_cons, ih]

theorem idsOf_deviceObservations (d : Desc) (k : String) (device : LanDeviceInfo) :
    idsOf d (deviceObservations k device)
      = if d ∈ [Desc.lanDeviceDesc, Desc.streamUpBytesDesc, Desc.streamDownBytesDesc,
          Desc.streamUpSpeedDesc, Desc.streamDownSpeedDesc, Desc.connCountDesc]
        then [k] else [] := by
  cases d <;>
    simp [idsOf, deviceObservations, List.filter, Metric.desc, Metric.label,
      Metric.labelValues, Desc.variableLabels, List.lookup]

theorem idsOf_ifaceObservations (d : Desc) (now : Int) (checks : List IfaceCheck)
    (iface : IfaceStream) :
    idsOf d (ifaceObservations now checks iface)
      = if d ∈ [Desc.ifaceInfoDesc, Desc.UpDesc, Desc.UpTimeDesc, Desc.streamUpBytesDesc,
          Desc.streamDownBytesDesc, Desc.streamUpSpeedDesc, Desc.streamDownSpeedDesc,
          Desc.connCountDesc]
        then ["iface/" ++ iface.Interface] else [] := by
  cases d <;>
    simp [idsOf, ifaceObservations, List.filter, Metric.desc, Metric.label,
      Metric.labelValues, Desc.variableLabels, List.lookup, ifaceId]

theorem idsOf_hostMetrics (d : Desc) (sysStat : SysStat) :
    idsOf d (hostMetrics sysStat)
      = if d ∈ [Desc.UpTimeDesc, Desc.streamUpBytesDesc, Desc.streamDownBytesDesc,
          Desc.streamUpSpeedDesc, Desc.streamDownSpeedDesc, Desc.connCountDesc,
          Desc.UpDesc]
        then ["host"] else [] := by
  cases d <;>
    simp [idsOf, hostMetrics, hostUp, List.filter, Metric.desc, Metric.label,
      Metric.labelValues, Desc.variableLabels, List.lookup]

theorem idsOf_deviceMetrics (d : Desc) (sem : LoopVar) (data : List LanDeviceInfo) :
    idsOf d (deviceMetrics sem data)
      = if d ∈ [Desc.lanDeviceDesc, Desc.streamUpBytesDesc, Desc.streamDownBytesDesc,
          Desc.streamUpSpeedDesc, Desc.streamDownSpeedDesc, Desc.connCountDesc]
        then (mergedDevices sem data).map Prod.fst else [] := by
  unfold deviceMetrics
  rw [idsOf_flatMap]
  simp only [idsOf_deviceObservations]
  exact flatMap_ite_singleton _ _ _

theorem idsOf_interfaceMetrics (d : Desc) (now : Int)
    (monitorInterface : ShowMonitorInterfaceResult) :
    idsOf d (interfaceMetrics now monitorInterface)
      = if d ∈ [Desc.ifaceInfoDesc, Desc.UpDesc, Desc.UpTimeDesc, Desc.streamUpBytesDesc,
          Desc.streamDownBytesDesc, Desc.streamUpSpeedDesc, Desc.streamDownSpeedDesc,
          Desc.connCountDesc]
        then monitorInterface.IfaceStream.map (fun iface => "iface/" ++ iface.Interface)
        else [] := by
  unfold interfaceMetrics
  rw [idsOf_flatMap]
  simp only [idsOf_ifaceObservations]
  exact flatMap_ite_singleton _ _ _

theorem idsOf_singleton_nodup (d : Desc) (x : Metric) : (idsOf d [x]).Nodup := by
  unfold idsOf
  by_cases hd : x.desc = d
  · cases hl : x.label "id" <;> simp [List.filter, hd, List.filterMap, hl]
  · simp [List.filter, hd]

theorem idsOf_cpuLoop_nodup (d : Desc) (items : List String) :
    ∀ idx, (idsOf d (cpuLoop idx items).1).Nodup := by
  induction items with
  | nil => intro idx; simp [cpuLoop, idsOf]
  | cons item rest ih =>
    intro idx
    unfold cpuLoop
    split
    · simp [idsOf]
    · have hsplit : ∀ (x : Metric) (l : List Metric), x :: l = [x] ++ l := fun _ _ => rfl
      dsimp only
      rw [hsplit, idsOf_append, List.nodup_append]
      refine ⟨?_, ih _, ?_⟩
      · exact idsOf_singleton_nodup _ _
      · intro k hk1 hk2
        obtain ⟨x, hx, _, hl⟩ := (mem_idsOf _ _ _).mp hk1
        obtain ⟨y, hy, _, hl2⟩ := (mem_idsOf _ _ _).mp hk2
        rw [List.mem_singleton] at hx
        subst hx
        obtain ⟨j, hj, rfl⟩ := label_id_cpuLoop rest (idx + 1) y hy
        simp only [Metric.label, Metric.desc, Metric.labelValues, Desc.variableLabels,
          List.zip_cons_cons, List.zip_nil_right, List.lookup_cons_self,
          Option.some.injEq] at hl hl2
        have := append_left_cancel _ _ _ (hl.trans hl2.symm)
        have := toString_nat_injective _ _ this
        omega

theorem mem_idsOf_cpuLoop (d : Desc) (items : List String) (idx : Nat) (k : String)
    (hk : k ∈ idsOf d (cpuLoop idx items).1) : ∃ j : Nat, k = "core/" ++ toString j := by
  obtain ⟨x, hx, _, hl⟩ := (mem_idsOf _ _ _).mp hk
  obtain ⟨j, _, rfl⟩ := label_id_cpuLoop items idx x hx
  simp only [Metric.label, Metric.desc, Metric.labelValues, Desc.variableLabels,
    List.zip_cons_cons, List.zip_nil_right, List.lookup_cons_self,
    Option.some.injEq] at hl
  exact ⟨j, hl.symm⟩

theorem idsOf_hostDown (d : Desc) :
    idsOf d [hostDown] = if d = Desc.UpDesc then ["host"] else [] := by
  cases d <;> decide

theorem idsOf_versionMetrics (d : Desc) (sysStat : SysStat) :
    idsOf d (versionMetrics sysStat) = [] := by
  apply idsOf_eq_nil
  intro x hx
  have hd := desc_versionMetrics _ x hx
  exact label_id_of_desc x (by
    simp only [List.mem_cons, List.mem_singleton, List.not_mem_nil, or_false] at hd ⊢
    tauto)

theorem idsOf_memoryMetrics (d : Desc) (stat : ShowSysStatResult) :
    idsOf d (memoryMetrics stat) = [] := by
  apply idsOf_eq_nil
  intro x hx
  have hd := desc_memoryMetrics _ x hx
  exact label_id_of_desc x (by
    simp only [List.mem_cons, List.mem_singleton, List.not_mem_nil, or_false] at hd ⊢
    tauto)

theorem idsOf_appFlowMetrics (d : Desc) (buckets : List Int)
    (appFlow : List (List (String × Int))) :
    idsOf d (appFlowMetrics buckets appFlow) = [] := by
  apply idsOf_eq_nil
  intro x hx
  have hd := desc_appFlowMetrics _ _ x hx
  exact label_id_of_desc x (by
    simp only [List.mem_cons, List.mem_singleton, List.not_mem_nil, or_false] at hd ⊢
    tauto)

theorem idsOf_ite_nil (d : Desc) (c : Bool) (l : List Metric) :
    idsOf d (if c = true then [] else l) = if c = true then [] else idsOf d l := by
  cases c <;> simp [idsOf]

/-- The identifiers of one metric in the tail of a cycle: the keys of the device map, the
identifiers of the interface records and "host", as far as the metric is sent for
them. -/
theorem idsOf_collectTail (d : Desc) (sem : LoopVar) (now : Int) (stat : ShowSysStatResult)
    (lanDevice : ShowMonitorLanResult) (monitorInterface : ShowMonitorInterfaceResult) :
    idsOf d (collectTail sem now stat lanDevice monitorInterface)
      = (if isFail lanDevice.Result lanDevice.err = true then []
          else idsOf d (deviceMetrics sem lanDevice.Data))
        ++ (if isFail monitorInterface.Result monitorInterface.err = true then []
          else idsOf d (interfaceMetrics now monitorInterface))
        ++ idsOf d (hostMetrics stat.SysStat) := by
  have hcount : idsOf d [Metric.const .lanDeviceCountDesc .GaugeValue
      (.ofInt stat.SysStat.OnlineUserCount) []] = [] := by
    apply idsOf_eq_nil
    intro x hx
    rw [List.mem_singleton] at hx
    subst hx
    rfl
  simp only [collectTail, idsOf_append, idsOf_memoryMetrics, idsOf_appFlowMetrics,
    idsOf_ite_nil, hcount, List.nil_append, List.append_nil]

theorem idsOf_deviceMetrics_nodup (d : Desc) (sem : LoopVar) (data : List LanDeviceInfo) :
    (idsOf d (deviceMetrics sem data)).Nodup
    ∧ ∀ k ∈ idsOf d (deviceMetrics sem data), ∃ mac, k = "device/" ++ mac := by
  rw [idsOf_deviceMetrics]
  split
  · exact keys_mergedDevices sem data
  · simp

theorem mem_idsOf_interfaceMetrics (d : Desc) (now : Int)
    (monitorInterface : ShowMonitorInterfaceResult) :
    ∀ k ∈ idsOf d (interfaceMetrics now monitorInterface), ∃ name, k = "iface/" ++ name := by
  intro k hk
  obtain ⟨x, hx, _, hl⟩ := (mem_idsOf _ _ _).mp hk
  obtain ⟨iface, _, hl2⟩ := label_id_interfaceMetrics now monitorInterface x hx
  rw [hl] at hl2
  exact ⟨iface.Interface, Option.some.inj hl2⟩

theorem idsOf_interfaceMetrics_nodup (d : Desc) (now : Int)
    (monitorInterface : ShowMonitorInterfaceResult)
    (hnames : (monitorInterface.IfaceStream.map (·.Interface)).Nodup) :
    (idsOf d (interfaceMetrics now monitorInterface)).Nodup := by
  rw [idsOf_interfaceMetrics]
  split
  · have : monitorInterface.IfaceStream.map (fun iface => "iface/" ++ iface.Interface)
        = (monitorInterface.IfaceStream.map (·.Interface)).map (fun n => "iface/" ++ n) := by
      simp [List.map_map, Function.comp]
    rw [this]
    exact hnames.map (fun a b h => append_left_cancel _ _ _ h)
  · simp

/-- The identifiers of one metric in the tail of a cycle are pairwise distinct as soon as
those of the interface part are. -/
theorem idsOf_collectTail_nodup (d : Desc) (sem : LoopVar) (now : Int)
    (stat : ShowSysStatResult) (lanDevice : ShowMonitorLanResult)
    (monitorInterface : ShowMonitorInterfaceResult)
    (hiface : (idsOf d (interfaceMetrics now monitorInterface)).Nodup) :
    (idsOf d (collectTail sem now stat lanDevice monitorInterface)).Nodup
    ∧ ∀ k ∈ idsOf d (collectTail sem now stat lanDevice monitorInterface),
        (∃ mac, k = "device/" ++ mac) ∨ (∃ name, k = "iface/" ++ name) ∨ k = "host" := by
  rw [idsOf_collectTail]
  have hA : (if isFail lanDevice.Result lanDevice.err = true then []
      else idsOf d (deviceMetrics sem lanDevice.Data)).Nodup
      ∧ ∀ k ∈ (if isFail lanDevice.Result lanDevice.err = true then []
          else idsOf d (deviceMetrics sem lanDevice.Data)), ∃ mac, k = "device/" ++ mac := by
    split
    · simp
    · exact idsOf_deviceMetrics_nodup d sem lanDevice.Data
  have hB : (if isFail monitorInterface.Result monitorInterface.err = true then []
      else idsOf d (interfaceMetrics now monitorInterface)).Nodup
      ∧ ∀ k ∈ (if isFail monitorInterface.Result monitorInterface.err = true then []
          else idsOf d (interfaceMetrics now monitorInterface)),
          ∃ name, k = "iface/" ++ name := by
    split
    · simp
    · exact ⟨hiface, mem_idsOf_interfaceMetrics d now monitorInterface⟩
  have hC : (idsOf d (hostMetrics stat.SysStat)).Nodup
      ∧ ∀ k ∈ idsOf d (hostMetrics stat.SysStat), k = "host" := by
    rw [idsOf_hostMetrics]
    split <;> simp
  constructor
  · rw [List.nodup_append]
    refine ⟨?_, hC.1, ?_⟩
    · rw [List.nodup_append]
      refine ⟨hA.1, hB.1, ?_⟩
      intro k hk1 hk2
      obtain ⟨mac, rfl⟩ := hA.2 k hk1
      obtain ⟨name, h⟩ := hB.2 _ hk2
      exact device_ne_iface _ _ h
    · intro k hk1 hk2
      have hk := hC.2 k hk2
      subst hk
      rcases List.mem_append.mp hk1 with h | h
      · obtain ⟨mac, h⟩ := hA.2 _ h
        exact device_ne_host _ h.symm
      · obtain ⟨name, h⟩ := hB.2 _ h
        exact iface_ne_host _ h.symm
  · intro k hk
    rcases List.mem_append.mp hk with h | h
    · rcases List.mem_append.mp h with h | h
      · exact Or.inl (hA.2 k h)
      · exact Or.inr (Or.inl (hB.2 k h))
    · exact Or.inr (Or.inr (hC.2 k h))

/-- The identifiers of one metric in a whole cycle are pairwise distinct as soon as those
of the interface part are. -/
theorem idsOf_Collect_nodup (d : Desc) (sem : LoopVar) (now : Int)
    (stat : ShowSysStatResult) (lanDevice : ShowMonitorLanResult)
    (monitorInterface : ShowMonitorInterfaceResult)
    (hiface : (idsOf d (interfaceMetrics now monitorInterface)).Nodup) :
    (idsOf d (Collect sem now stat lanDevice monitorInterface)).Nodup := by
  have hcpu1 := idsOf_cpuLoop_nodup d stat.SysStat.Cpu 0
  have hcpu2 := mem_idsOf_cpuLoop d stat.SysStat.Cpu 0
  cases hf : isFail stat.Result stat.err
  · by_cases hcpu : "" ∈ stat.SysStat.Cpu
    · rw [Collect_of_cpu_panic sem now stat lanDevice monitorInterface hf hcpu,
        idsOf_append, idsOf_append, idsOf_versionMetrics, List.nil_append,
        List.nodup_append]
      refine ⟨hcpu1, idsOf_singleton_nodup _ _, ?_⟩
      intro k hk1 hk2
      obtain ⟨j, rfl⟩ := hcpu2 k hk1
      rw [idsOf_hostDown] at hk2
      split at hk2
      · rw [List.mem_singleton] at hk2
        exact core_ne_host _ hk2
      · simp at hk2
    · rw [Collect_of_completed sem now stat lanDevice monitorInterface hf hcpu,
        idsOf_append, idsOf_append, idsOf_versionMetrics, List.nil_append,
        List.nodup_append]
      obtain ⟨ht1, ht2⟩ := idsOf_collectTail_nodup d sem now stat lanDevice
        monitorInterface hiface
      refine ⟨hcpu1, ht1, ?_⟩
      intro k hk1 hk2
      obtain ⟨j, rfl⟩ := hcpu2 k hk1
      rcases ht2 _ hk2 with ⟨mac, h⟩ | ⟨name, h⟩ | h
      · exact core_ne_device _ _ h
      · exact core_ne_iface _ _ h
      · exact core_ne_host _ h
  · rw [Collect_of_failed sem now stat lanDevice monitorInterface hf]
    exact idsOf_singleton_nodup _ _

theorem idsOf_cons (d : Desc) (x : Metric) (l : List Metric) :
    idsOf d (x :: l) = idsOf d [x] ++ idsOf d l :=
  idsOf_append d [x] l

theorem pairwise_of_idsOf_nodup (l : List Metric) (h : ∀ d, (idsOf d l).Nodup) :
    l.Pairwise (fun x y => x.desc = y.desc →
      ∀ k, x.label "id" = some k → y.label "id" ≠ some k) := by
  induction l with
  | nil => exact List.Pairwise.nil
  | cons x rest ih =>
    rw [List.pairwise_cons]
    constructor
    · intro y hy hdesc k hx hyk
      have hnd := h x.desc
      rw [idsOf_cons, List.nodup_append] at hnd
      have h1 : k ∈ idsOf x.desc [x] :=
        (mem_idsOf _ _ _).mpr ⟨x, List.mem_singleton.mpr rfl, rfl, hx⟩
      have h2 : k ∈ idsOf x.desc rest := (mem_idsOf _ _ _).mpr ⟨y, hy, hdesc.symm, hyk⟩
      exact hnd.2.2 h1 h2
    · apply ih
      intro d
      have hnd := h d
      rw [idsOf_cons, List.nodup_append] at hnd
      exact hnd.2.1

/-- Every observation of a cycle has as many label values as its descriptor has label
names, so no call of `MustNewConstMetric` or `MustNewConstHistogram` panics on the number
of labels. -/
theorem Collect_label_arity (sem : LoopVar) (now : Int) (stat : ShowSysStatResult)
    (lanDevice : ShowMonitorLanResult) (monitorInterface : ShowMonitorInterfaceResult) :
    ∀ x ∈ Collect sem now stat lanDevice monitorInterface,
      x.labelValues.length = x.desc.variableLabels.length := by
  intro x hx
  rcases mem_Collect sem now stat lanDevice monitorInterface x hx with h | h | h | h
  · subst h; rfl
  · simp only [versionMetrics] at h
    cases hct : stat.SysStat.Cputemp <;> simp [hct] at h
    · subst h; rfl
    · rcases h with rfl | rfl <;> rfl
  · obtain ⟨j, _, rfl⟩ := label_id_cpuLoop _ 0 x h
    rfl
  · rcases mem_collectTail sem now stat lanDevice monitorInterface x h.2.2
      with h | h | h | h | h | h
    · simp only [memoryMetrics, List.mem_cons, List.mem_singleton, List.not_mem_nil,
        or_false] at h
      rcases h with rfl | rfl | rfl | rfl | rfl <;> rfl
    · cases hs : stat.AppFlow with
      | nil => simp [hs, appFlowMetrics] at h
      | cons sample rest =>
        simp only [hs, appFlowMetrics, appFlowHistograms, List.mem_map] at h
        obtain ⟨e, _, rfl⟩ := h
        rfl
    · obtain ⟨e, _, he⟩ := mem_deviceMetrics sem lanDevice.Data x h.2
      simp only [deviceObservations, List.mem_cons, List.mem_singleton, List.not_mem_nil,
        or_false] at he
      rcases he with rfl | rfl | rfl | rfl | rfl | rfl <;> rfl
    · subst h; rfl
    · simp only [interfaceMetrics, List.mem_flatMap] at h
      obtain ⟨e, _, he⟩ := h.2
      simp only [ifaceObservations, List.mem_cons, List.mem_singleton, List.not_mem_nil,
        or_false] at he
      rcases he with rfl | rfl | rfl | rfl | rfl | rfl | rfl | rfl <;> rfl
    · simp only [hostMetrics, hostUp, List.mem_cons, List.mem_singleton, List.not_mem_nil,
        or_false] at h
      rcases h with rfl | rfl | rfl | rfl | rfl | rfl | rfl <;> rfl

/-- With one loop variable for the whole loop (the language before Go 1.22) every entry
of the device map points at the same variable: after the loop each identifier shows the
last record, whose counters were doubled when its own identifier was already a key. -/
theorem mergedDevices_perLoop_example :
    (mergedDevices .perLoop exDevices).lookup "device/aa:aa"
      = some { Mac := "aa:aa", Hostname := "nas6", IPAddr := "fe80::2", Comment := "third",
               TotalUp := 200, TotalDown := 400, Upload := 600, Download := 800,
               ConnectNum := 1000 }
    ∧ (mergedDevices .perLoop exDevices).lookup "device/bb:bb"
      = some { Mac := "aa:aa", Hostname := "nas6", IPAddr := "fe80::2", Comment := "third",
               TotalUp := 200, TotalDown := 400, Upload := 600, Download := 800,
               ConnectNum := 1000 } := by
  decide

/-- With one loop variable per iteration the same list gives each identifier its own
record: the first record of the MAC with the counters of the later ones added. -/
theorem mergedDevices_perIteration_example :
    (mergedDevices .perIteration exDevices).lookup "device/aa:aa"
      = some { Mac := "aa:aa", Hostname := "nas", IPAddr := "10.0.0.2", Comment := "first",
               TotalUp := 101, TotalDown := 202, Upload := 303, Download := 404,
               ConnectNum := 505 }
    ∧ (mergedDevices .perIteration exDevices).lookup "device/bb:bb"
      = some { Mac := "bb:bb", Hostname := "tv", IPAddr := "10.0.0.3", Comment := "",
               TotalUp := 10, TotalDown := 20, Upload := 30, Download := 40,
               ConnectNum := 50 } := by
  decide

/-! ## Lemmas: ascending bounds -/

theorem appFlowBuckets_pairwise : appFlowBuckets.Pairwise (· < ·) := by
  rw [appFlowBuckets_eq]; decide

theorem countOf_generateAppFlowBucketsCounts (v b : Int) :
    countOf (generateAppFlowBucketsCounts appFlowBuckets v) b
      = if b ∈ appFlowBuckets ∧ v ≤ b then 1 else 0 := by
  rw [generateAppFlowBucketsCounts_eq _ _ appFlowBuckets_nodup]
  unfold countOf
  rw [lookup_map_one]
  by_cases h : b ∈ appFlowBuckets ∧ v ≤ b
  · have : b ∈ appFlowBuckets.filter (fun b => v ≤ b) := by
      simp [List.mem_filter, h.1, h.2]
    simp [this, h]
  · have : b ∉ appFlowBuckets.filter (fun b => v ≤ b) := by
      simp only [List.mem_filter, decide_eq_true_eq]
      exact h
    simp [this, h]

theorem checkLoop_of_no_match (now : Int) (checks : List IfaceCheck) (iface : IfaceStream)
    (h : ∀ c ∈ checks, c.Interface ≠ iface.Interface) :
    checkLoop now checks iface
      = { internet := "", parentIface := "", ifaceUp := 1, ifaceUptime := 0 } := by
  unfold checkLoop
  rw [foldl_checkStep_filter]
  have : checks.filter (fun c => c.Interface = iface.Interface) = [] := by
    rw [List.filter_eq_nil_iff]
    intro c hc
    simpa using h c hc
  rw [this]
  rfl

theorem checkLoop_congr (now : Int) (checks : List IfaceCheck) (a b : IfaceStream)
    (h : a.Interface = b.Interface) : checkLoop now checks a = checkLoop now checks b := by
  have hstep : checkStep now a = checkStep now b := by
    funext v c
    simp [checkStep, h]
  simp [checkLoop, hstep]

/-- The used-memory observations of the tail of a cycle. -/
theorem filter_memUsage_collectTail (sem : LoopVar) (now : Int)
    (stat : ShowSysStatResult) (lanDevice : ShowMonitorLanResult)
    (monitorInterface : ShowMonitorInterfaceResult) :
    (collectTail sem now stat lanDevice monitorInterface).filter
        (fun m => m.desc = .memUsageDesc)
      = [Metric.const .memUsageDesc .GaugeValue
          (.ofInt (wrapInt64 (stat.SysStat.MemTotal - stat.SysStat.MemAvailable))) []] := by
  have h2 := filter_desc_eq_nil _ _ .memUsageDesc
    (desc_appFlowMetrics appFlowBuckets stat.AppFlow) (by decide)
  have h3 := filter_desc_eq_nil _ _ .memUsageDesc
    (desc_deviceMetrics sem lanDevice.Data) (by decide)
  have h4 := filter_desc_eq_nil _ _ .memUsageDesc
    (desc_interfaceMetrics now monitorInterface) (by decide)
  have h5 := filter_desc_eq_nil _ _ .memUsageDesc
    (desc_hostMetrics stat.SysStat) (by decide)
  simp only [collectTail, List.filter_append, filter_ite_nil, h2, h3, h4, h5]
  simp [memoryMetrics, List.filter, Metric.desc]

/-! ## Lemmas: the device-info series -/

theorem filter_flatMap_eq {α : Type} (l : List α) (f : α → List Metric) (p : Metric → Bool) :
    (l.flatMap f).filter p = l.flatMap (fun e => (f e).filter p) := by
  induction l with
  | nil => rfl
  | cons e rest ih => simp [List.flatMap_cons, List.filter_append, ih]

theorem flatMap_singleton_eq_map {α β : Type} (l : List α) (g : α → β) :
    l.flatMap (fun e => [g e]) = l.map g := by
  induction l with
  | nil => rfl
  | cons e rest ih => simp [List.flatMap_cons, ih]

/-- The device-info series of the emission loop: one per entry of the map, labelled with
the key and the descriptive fields of the record the entry points to. -/
theorem filter_lanDevice_deviceMetrics (sem : LoopVar) (data : List LanDeviceInfo) :
    (deviceMetrics sem data).filter (fun m => m.desc = .lanDeviceDesc)
      = (mergedDevices sem data).map (fun e =>
          Metric.const .lanDeviceDesc .GaugeValue (.ofInt 1)
            [e.1, e.2.Mac, e.2.Hostname, e.2.IPAddr, e.2.Comment]) := by
  unfold deviceMetrics
  rw [filter_flatMap_eq]
  have : ∀ e : String × LanDeviceInfo,
      (deviceObservations e.1 e.2).filter (fun m => m.desc = .lanDeviceDesc)
        = [Metric.const .lanDeviceDesc .GaugeValue (.ofInt 1)
            [e.1, e.2.Mac, e.2.Hostname, e.2.IPAddr, e.2.Comment]] := by
    intro e
    simp [deviceObservations, List.filter, Metric.desc]
  simp only [this]
  exact flatMap_singleton_eq_map _ _

/-- The device-info series of a cycle that reaches the LAN-device query and gets a
successful response. -/
theorem filter_lanDevice_Collect (sem : LoopVar) (now : Int) (stat : ShowSysStatResult)
    (lanDevice : ShowMonitorLanResult) (monitorInterface : ShowMonitorInterfaceResult)
    (hf : isFail stat.Result stat.err = false) (hcpu : "" ∉ stat.SysStat.Cpu)
    (hfl : isFail lanDevice.Result lanDevice.err = false) :
    (Collect sem now stat lanDevice monitorInterface).filter
        (fun m => m.desc = .lanDeviceDesc)
      = (mergedDevices sem lanDevice.Data).map (fun e =>
          Metric.const .lanDeviceDesc .GaugeValue (.ofInt 1)
            [e.1, e.2.Mac, e.2.Hostname, e.2.IPAddr, e.2.Comment]) := by
  rw [filter_desc_Collect sem now stat lanDevice monitorInterface .lanDeviceDesc
    (by decide) (by decide), if_pos ⟨hf, hcpu⟩]
  have h1 := filter_desc_eq_nil _ _ .lanDeviceDesc (desc_memoryMetrics stat) (by decide)
  have h2 := filter_desc_eq_nil _ _ .lanDeviceDesc
    (desc_appFlowMetrics appFlowBuckets stat.AppFlow) (by decide)
  have h4 := filter_desc_eq_nil _ _ .lanDeviceDesc
    (desc_interfaceMetrics now monitorInterface) (by decide)
  have h5 := filter_desc_eq_nil _ _ .lanDeviceDesc
    (desc_hostMetrics stat.SysStat) (by decide)
  simp only [collectTail, List.filter_append, filter_ite_nil, h1, h2, h4, h5, hfl,
    filter_lanDevice_deviceMetrics]
  simp [Metric.desc]

theorem mem_keys_foldl_deviceStep (sem : LoopVar) (data : List LanDeviceInfo) :
    ∀ (st : DeviceLoop) (k : String),
      k ∈ (data.foldl (deviceStep sem) st).devices.map Prod.fst
        ↔ k ∈ st.devices.map Prod.fst ∨ k ∈ data.map deviceId := by
  induction data with
  | nil => intro st k; simp
  | cons r rest ih =>
    intro st k
    rw [List.foldl_cons, ih, keys_deviceStep]
    split
    · rename_i hin
      simp only [List.map_cons, List.mem_cons]
      constructor
      · rintro (h | h)
        · exact Or.inl h
        · exact Or.inr (Or.inr h)
      · rintro (h | h | h)
        · exact Or.inl h
        · exact Or.inl (h ▸ hin)
        · exact Or.inr h
    · simp only [List.mem_append, List.mem_singleton, List.map_cons, List.mem_cons]
      tauto

/-- The keys of the device map are the identifiers of the raw records, each once, under
either scope of the loop variable. -/
theorem length_mergedDevices (sem : LoopVar) (data : List LanDeviceInfo) :
    (mergedDevices sem data).length = (data.map (·.Mac)).dedup.length := by
  have hk : (mergedDevices sem data).map Prod.fst
      = (deviceLoop sem data).devices.map Prod.fst := by
    simp [mergedDevices, List.map_map, Function.comp]
  have hnd := (keys_mergedDevices sem data).1
  have hmem : ∀ k, k ∈ (mergedDevices sem data).map Prod.fst ↔ k ∈ data.map deviceId := by
    intro k
    rw [hk]
    have := mem_keys_foldl_deviceStep sem data { cells := [], devices := [] } k
    simpa [deviceLoop] using this
  have h1 : ((mergedDevices sem data).map Prod.fst).toFinset = (data.map deviceId).toFinset := by
    ext k
    simp only [List.mem_toFinset]
    exact hmem k
  have h2 : (mergedDevices sem data).length
      = ((mergedDevices sem data).map Prod.fst).toFinset.card := by
    rw [List.toFinset_card_of_nodup hnd, List.length_map]
  have hinj : Function.Injective (fun mac : String => "device/" ++ mac) :=
    fun a b h => append_left_cancel _ _ _ h
  have h3 : data.map deviceId = (data.map (·.Mac)).map (fun mac => "device/" ++ mac) := by
    simp [List.map_map, Function.comp, deviceId]
  rw [h2, h1, List.card_toFinset, h3, List.dedup_map_of_injective hinj, List.length_map]

theorem head?_recordsOf (mac : String) (data : List LanDeviceInfo) :
    (recordsOf mac data).head? = data.find? (fun r => r.Mac = mac) := by
  induction data with
  | nil => rfl
  | cons r rest ih =>
    by_cases h : r.Mac = mac
    · simp [recordsOf, List.filter_cons, h]
    · have ih2 : (List.filter (fun r => decide (r.Mac = mac)) rest).head?
          = List.find? (fun r => decide (r.Mac = mac)) rest := ih
      simp [recordsOf, List.filter_cons, h, ih2]

/-- With one loop variable per iteration every entry of the device map is stored under
"device/" followed by the MAC address of its own record, and that record is the first
raw record of the MAC with the counters of all records of the MAC summed in `int64`. -/
theorem entry_mergedDevices_perIteration (data : List LanDeviceInfo)
    (e : String × LanDeviceInfo) (he : e ∈ mergedDevices .perIteration data) :
    e.1 = "device/" ++ e.2.Mac
    ∧ ∃ first, data.find? (fun r => r.Mac = e.2.Mac) = some first
        ∧ e.2.Mac = first.Mac ∧ e.2.Hostname = first.Hostname
        ∧ e.2.IPAddr = first.IPAddr ∧ e.2.Comment = first.Comment
        ∧ (isInt64 first.TotalUp →
            e.2.TotalUp = wrapInt64 ((recordsOf e.2.Mac data).map (·.TotalUp)).sum)
        ∧ (isInt64 first.TotalDown →
            e.2.TotalDown = wrapInt64 ((recordsOf e.2.Mac data).map (·.TotalDown)).sum)
        ∧ (isInt64 first.Upload →
            e.2.Upload = wrapInt64 ((recordsOf e.2.Mac data).map (·.Upload)).sum)
        ∧ (isInt64 first.Download →
            e.2.Download = wrapInt64 ((recordsOf e.2.Mac data).map (·.Download)).sum)
        ∧ (isInt64 first.ConnectNum →
            e.2.ConnectNum
              = wrapInt64 ((recordsOf e.2.Mac data).map (·.ConnectNum)).sum) := by
  obtain ⟨hnd, hform⟩ := keys_mergedDevices .perIteration data
  have hkey : e.1 ∈ (mergedDevices .perIteration data).map Prod.fst :=
    List.mem_map.mpr ⟨e, he, rfl⟩
  obtain ⟨mac, hmac⟩ := hform e.1 hkey
  have hk : (mergedDevices .perIteration data).map Prod.fst
      = (deviceLoop .perIteration data).devices.map Prod.fst := by
    simp [mergedDevices, List.map_map, Function.comp]
  have hin : e.1 ∈ data.map deviceId := by
    rw [hk] at hkey
    have := (mem_keys_foldl_deviceStep .perIteration data
      { cells := [], devices := [] } e.1).mp (by simpa [deviceLoop] using hkey)
    simpa using this
  have hmacin : mac ∈ data.map (·.Mac) := by
    obtain ⟨r, hr, hrid⟩ := List.mem_map.mp hin
    rw [hmac] at hrid
    exact List.mem_map.mpr ⟨r, hr, (deviceId_eq_iff r mac).1 hrid⟩
  obtain ⟨dev, first, rest, hrec, hlook, h1, h2, h3, h4, h5, h6, h7, h8, h9⟩ :=
    lookup_mergedDevices_perIteration mac data hmacin
  have hl2 := lookup_eq_some_of_mem e.1 e.2 _ hnd he
  rw [hmac, hlook] at hl2
  have hdev : dev = e.2 := Option.some.inj hl2
  subst hdev
  have hfind : data.find? (fun r => r.Mac = mac) = some first := by
    rw [← head?_recordsOf, hrec]; rfl
  have hfirst : first.Mac = mac := by
    have := List.find?_some hfind
    simpa using this
  rw [h6]
  exact ⟨hmac, first, hfind, hfirst.symm, h7, h8, h9, h1, h2, h3, h4, h5⟩

/-- With one loop variable per iteration the entries of the device map point to pairwise
distinct variables. -/
theorem pointers_nodup_perIteration (data : List LanDeviceInfo) :
    ((deviceLoop .perIteration data).devices.map Prod.snd).Nodup := by
  have key : ∀ (l : List LanDeviceInfo) (st : DeviceLoop),
      (∀ e ∈ st.devices, e.2 < st.cells.length) →
      (st.devices.map Prod.snd).Nodup →
      (st.devices.map Prod.fst).Nodup →
      ((l.foldl (deviceStep .perIteration) st).devices.map Prod.snd).Nodup := by
    intro l
    induction l with
    | nil => intro st _ h _; exact h
    | cons r rest ih =>
      intro st h1 h2 h3
      obtain ⟨g1, g2, g3, _⟩ := deviceStep_perIteration st r h1 h2 h3
      exact ih _ g1 g2 g3
  exact key data { cells := [], devices := [] } (by simp) (by simp) (by simp)

/-- Every device-info series of a cycle is the series of an entry of the device map of a
successful LAN-device response. -/
theorem mem_Collect_lanDevice (sem : LoopVar) (now : Int) (stat : ShowSysStatResult)
    (lanDevice : ShowMonitorLanResult) (monitorInterface : ShowMonitorInterfaceResult)
    (x : Metric) (hx : x ∈ Collect sem now stat lanDevice monitorInterface)
    (hd : x.desc = .lanDeviceDesc) :
    ∃ e ∈ mergedDevices sem lanDevice.Data,
      x = Metric.const .lanDeviceDesc .GaugeValue (.ofInt 1)
            [e.1, e.2.Mac, e.2.Hostname, e.2.IPAddr, e.2.Comment] := by
  have hne : ∀ (l : List Metric) (ds : List Desc), (∀ m ∈ l, m.desc ∈ ds) →
      Desc.lanDeviceDesc ∉ ds → x ∉ l := by
    intro l ds h hnot hm
    exact hnot (hd ▸ h x hm)
  rcases mem_Collect sem now stat lanDevice monitorInterface x hx with h | h | h | h
  · subst h; cases hd
  · exact absurd h (hne _ _ (desc_versionMetrics _) (by decide))
  · exact absurd h (hne _ _ (desc_cpuLoop _ 0) (by decide))
  · rcases mem_collectTail sem now stat lanDevice monitorInterface x h.2.2
      with h | h | h | h | h | h
    · exact absurd h (hne _ _ (desc_memoryMetrics _) (by decide))
    · exact absurd h (hne _ _ (desc_appFlowMetrics _ _) (by decide))
    · obtain ⟨e, he, hxe⟩ := mem_deviceMetrics sem lanDevice.Data x h.2
      refine ⟨e, he, ?_⟩
      simp only [deviceObservations, List.mem_cons, List.mem_singleton, List.not_mem_nil,
        or_false] at hxe
      rcases hxe with rfl | rfl | rfl | rfl | rfl | rfl
      · rfl
      all_goals cases hd
    · subst h; cases hd
    · exact absurd h.2 (hne _ _ (desc_interfaceMetrics _ _) (by decide))
    · exact absurd h (hne _ _ (desc_hostMetrics _) (by decide))

/-- A cycle that is not stopped ends with the host up-indicator and has no
down-indicator. -/
theorem Collect_completed_ends_up (sem : LoopVar) (now : Int) (stat : ShowSysStatResult)
    (lanDevice : ShowMonitorLanResult) (monitorInterface : ShowMonitorInterfaceResult)
    (hf : isFail stat.Result stat.err = false) (hcpu : "" ∉ stat.SysStat.Cpu) :
    (Collect sem now stat lanDevice monitorInterface).getLast? = some hostUp
    ∧ hostDown ∉ Collect sem now stat lanDevice monitorInterface := by
  rw [Collect_of_completed sem now stat lanDevice monitorInterface hf hcpu]
  constructor
  · obtain ⟨pre, hpre⟩ := collectTail_getLast sem now stat lanDevice monitorInterface
    rw [hpre, ← List.append_assoc]
    simp
  · simp only [List.mem_append, not_or]
    exact ⟨⟨hostDown_not_mem_of_desc _ _ (desc_versionMetrics _) (by decide),
      hostDown_not_mem_of_desc _ _ (desc_cpuLoop _ 0) (by decide)⟩,
      hostDown_not_mem_collectTail _ _ _ _ _⟩

theorem Collect_congr_tail (sem : LoopVar) (now : Int) (stat : ShowSysStatResult)
    (lanDevice lanDevice2 : ShowMonitorLanResult)
    (monitorInterface monitorInterface2 : ShowMonitorInterfaceResult)
    (h : collectTail sem now stat lanDevice monitorInterface
      = collectTail sem now stat lanDevice2 monitorInterface2) :
    Collect sem now stat lanDevice monitorInterface
      = Collect sem now stat lanDevice2 monitorInterface2 := by
  simp only [Collect, collectBody, h]

theorem interfaceMetrics_nil (now : Int) (result : Result) (err : Option String)
    (checks : List IfaceCheck) :
    interfaceMetrics now
      { Result := result, err := err, IfaceStream := [], IfaceCheck := checks } = [] := by
  simp [interfaceMetrics]

/-- The traffic observations of a cycle for the identifier of a map entry: the five built
from the counters of the entry. -/
theorem mem_Collect_device_traffic (now : Int) (stat : ShowSysStatResult)
    (lanDevice : ShowMonitorLanResult) (monitorInterface : ShowMonitorInterfaceResult)
    (hf : isFail stat.Result stat.err = false) (hcpu : "" ∉ stat.SysStat.Cpu)
    (hfl : isFail lanDevice.Result lanDevice.err = false)
    (mac : String) (dev : LanDeviceInfo)
    (hlook : (mergedDevices .perIteration lanDevice.Data).lookup ("device/" ++ mac)
      = some dev) :
    ∀ x : Metric,
      (x ∈ Collect .perIteration now stat lanDevice monitorInterface
        ∧ x.label "id" = some ("device/" ++ mac)
        ∧ x.desc ∈ [Desc.streamUpBytesDesc, Desc.streamDownBytesDesc,
            Desc.streamUpSpeedDesc, Desc.streamDownSpeedDesc, Desc.connCountDesc])
      ↔ x ∈ [ Metric.const .streamUpBytesDesc .CounterValue (.ofInt dev.TotalUp)
                ["device/" ++ mac],
              Metric.const .streamDownBytesDesc .CounterValue (.ofInt dev.TotalDown)
                ["device/" ++ mac],
              Metric.const .streamUpSpeedDesc .GaugeValue (.ofInt dev.Upload)
                ["device/" ++ mac],
              Metric.const .streamDownSpeedDesc .GaugeValue (.ofInt dev.Download)
                ["device/" ++ mac],
              Metric.const .connCountDesc .GaugeValue (.ofInt dev.ConnectNum)
                ["device/" ++ mac] ] := by
  have hentry : ("device/" ++ mac, dev) ∈ mergedDevices .perIteration lanDevice.Data :=
    mem_of_lookup_eq_some _ _ _ hlook
  intro x
  constructor
  · rintro ⟨hx, hid, hdesc⟩
    obtain ⟨dev2, hmem, hobs⟩ := mem_Collect_device .perIteration now stat lanDevice
      monitorInterface x mac hx hid
    have hl2 := lookup_eq_some_of_mem _ _ _
      (keys_mergedDevices .perIteration lanDevice.Data).1 hmem
    rw [hlook] at hl2
    have hdev : dev = dev2 := Option.some.inj hl2
    subst hdev
    simp only [deviceObservations, List.mem_cons, List.mem_singleton, List.not_mem_nil,
      or_false] at hobs
    rcases hobs with rfl | rfl | rfl | rfl | rfl | rfl
    · simp [Metric.desc] at hdesc
    all_goals simp
  · intro hx
    have hobs : x ∈ deviceObservations ("device/" ++ mac) dev := by
      simp only [List.mem_cons, List.mem_singleton, List.not_mem_nil, or_false] at hx
      simp only [deviceObservations, List.mem_cons, List.mem_singleton,
        List.not_mem_nil, or_false]
      tauto
    refine ⟨?_, label_id_deviceObservations _ _ x hobs, ?_⟩
    · rw [Collect_of_completed .perIteration now stat lanDevice monitorInterface hf hcpu]
      have hdm : x ∈ deviceMetrics .perIteration lanDevice.Data :=
        List.mem_flatMap.mpr ⟨("device/" ++ mac, dev), hentry, hobs⟩
      simp only [collectTail, List.mem_append, hfl]
      simp [hdm]
    · simp only [List.mem_cons, List.mem_singleton, List.not_mem_nil, or_false] at hx
      rcases hx with rfl | rfl | rfl | rfl | rfl <;> simp [Metric.desc]

/-! ## The claims -/

/-- C1, the claim as stated, fails: two raw records of the MAC aa:aa carry the send-byte
counter 2^62 each; their sum is 2^63, but the `int64` addition of the device loop wraps
and the send-bytes observation of "device/aa:aa" carries -2^63. -/
theorem Collect_device_counters_counterexample :
    ((recordsOf "aa:aa" exLanBig.Data).map (·.TotalUp)).sum = 9223372036854775808
    ∧ (∀ r ∈ exLanBig.Data, countersInt64 r)
    ∧ (Collect .perIteration 1700000000 exStat exLanBig exIface).filter
          (fun x => x.desc = .streamUpBytesDesc ∧ x.label "id" = some "device/aa:aa")
        = [Metric.const .streamUpBytesDesc .CounterValue (.ofInt (-9223372036854775808))
            ["device/aa:aa"]] := by
  decide

/-- C1 (amended): in a cycle that reaches the LAN-device query (system statistics
succeeded, no empty CPU string), with the loop variable of Go 1.22 (one per iteration),
for every MAC address m of a successful LAN-device response whose counters are `int64`
values, the traffic observations with id "device/m" are exactly five (send bytes, recv
bytes, send speed, recv speed, connection count), and each carries the sum of TotalUp,
TotalDown, Upload, Download, ConnectNum over the raw records whose MAC is m, wrapped to
64 bits; whenever such a sum is itself an `int64` value the observation carries exactly
the sum. -/
theorem Collect_device_counters (now : Int) (stat : ShowSysStatResult)
    (lanDevice : ShowMonitorLanResult) (monitorInterface : ShowMonitorInterfaceResult)
    (hstat : stat.err = none ∧ stat.Result.ErrMsg = "Success")
    (hcpu : "" ∉ stat.SysStat.Cpu)
    (hlan : lanDevice.err = none ∧ lanDevice.Result.ErrMsg = "Success")
    (htyped : ∀ r ∈ lanDevice.Data, countersInt64 r)
    (mac : String) (hmac : mac ∈ lanDevice.Data.map (·.Mac)) :
    (∀ x : Metric,
      (x ∈ Collect .perIteration now stat lanDevice monitorInterface
        ∧ x.label "id" = some ("device/" ++ mac)
        ∧ x.desc ∈ [Desc.streamUpBytesDesc, Desc.streamDownBytesDesc,
            Desc.streamUpSpeedDesc, Desc.streamDownSpeedDesc, Desc.connCountDesc])
      ↔ x ∈ [ Metric.const .streamUpBytesDesc .CounterValue
                (.ofInt (wrapInt64 ((recordsOf mac lanDevice.Data).map (·.TotalUp)).sum))
                ["device/" ++ mac],
              Metric.const .streamDownBytesDesc .CounterValue
                (.ofInt (wrapInt64 ((recordsOf mac lanDevice.Data).map (·.TotalDown)).sum))
                ["device/" ++ mac],
              Metric.const .streamUpSpeedDesc .GaugeValue
                (.ofInt (wrapInt64 ((recordsOf mac lanDevice.Data).map (·.Upload)).sum))
                ["device/" ++ mac],
              Metric.const .streamDownSpeedDesc .GaugeValue
                (.ofInt (wrapInt64 ((recordsOf mac lanDevice.Data).map (·.Download)).sum))
                ["device/" ++ mac],
              Metric.const .connCountDesc .GaugeValue
                (.ofInt (wrapInt64 ((recordsOf mac lanDevice.Data).map (·.ConnectNum)).sum))
                ["device/" ++ mac] ])
    ∧ (isInt64 ((recordsOf mac lanDevice.Data).map (·.TotalUp)).sum →
        Metric.const .streamUpBytesDesc .CounterValue
            (.ofInt ((recordsOf mac lanDevice.Data).map (·.TotalUp)).sum)
            ["device/" ++ mac]
          ∈ Collect .perIteration now stat lanDevice monitorInterface)
    ∧ (isInt64 ((recordsOf mac lanDevice.Data).map (·.TotalDown)).sum →
        Metric.const .streamDownBytesDesc .CounterValue
            (.ofInt ((recordsOf mac lanDevice.Data).map (·.TotalDown)).sum)
            ["device/" ++ mac]
          ∈ Collect .perIteration now stat lanDevice monitorInterface)
    ∧ (isInt64 ((recordsOf mac lanDevice.Data).map (·.Upload)).sum →
        Metric.const .streamUpSpeedDesc .GaugeValue
            (.ofInt ((recordsOf mac lanDevice.Data).map (·.Upload)).sum)
            ["device/" ++ mac]
          ∈ Collect .perIteration now stat lanDevice monitorInterface)
    ∧ (isInt64 ((recordsOf mac lanDevice.Data).map (·.Download)).sum →
        Metric.const .streamDownSpeedDesc .GaugeValue
            (.ofInt ((recordsOf mac lanDevice.Data).map (·.Download)).sum)
            ["device/" ++ mac]
          ∈ Collect .perIteration now stat lanDevice monitorInterface)
    ∧ (isInt64 ((recordsOf mac lanDevice.Data).map (·.ConnectNum)).sum →
        Metric.const .connCountDesc .GaugeValue
            (.ofInt ((recordsOf mac lanDevice.Data).map (·.ConnectNum)).sum)
            ["device/" ++ mac]
          ∈ Collect .perIteration now stat lanDevice monitorInterface) := by
  have hf : isFail stat.Result stat.err = false := (isFail_eq_false_iff _ _).2 hstat
  have hfl : isFail lanDevice.Result lanDevice.err = false := (isFail_eq_false_iff _ _).2 hlan
  obtain ⟨dev, first, rest, hrec, hlook, h1, h2, h3, h4, h5, _, _, _, _⟩ :=
    lookup_mergedDevices_perIteration mac lanDevice.Data hmac
  have hfirst : first ∈ lanDevice.Data := by
    have : first ∈ recordsOf mac lanDevice.Data := by rw [hrec]; simp
    exact (List.mem_filter.mp this).1
  obtain ⟨t1, t2, t3, t4, t5⟩ := htyped first hfirst
  have h1 := h1 t1
  have h2 := h2 t2
  have h3 := h3 t3
  have h4 := h4 t4
  have h5 := h5 t5
  have hiff := mem_Collect_device_traffic now stat lanDevice monitorInterface hf hcpu hfl
    mac dev hlook
  refine ⟨?_, ?_, ?_, ?_, ?_, ?_⟩
  · rw [← h1, ← h2, ← h3, ← h4, ← h5]
    exact hiff
  · intro hs
    rw [← wrapInt64_of_range _ hs.1 hs.2, ← h1]
    exact ((hiff _).2 (by simp)).1
  · intro hs
    rw [← wrapInt64_of_range _ hs.1 hs.2, ← h2]
    exact ((hiff _).2 (by simp)).1
  · intro hs
    rw [← wrapInt64_of_range _ hs.1 hs.2, ← h3]
    exact ((hiff _).2 (by simp)).1
  · intro hs
    rw [← wrapInt64_of_range _ hs.1 hs.2, ← h4]
    exact ((hiff _).2 (by simp)).1
  · intro hs
    rw [← wrapInt64_of_range _ hs.1 hs.2, ← h5]
    exact ((hiff _).2 (by simp)).1

/-- C1 (amended) at the device list with two records of MAC aa:aa (send bytes 1 and
100): the send bytes observation of "device/aa:aa" carries 101. -/
theorem Collect_device_counters_witness :
    "aa:aa" ∈ exLan.Data.map (·.Mac)
    ∧ (∀ r ∈ exLan.Data, countersInt64 r)
    ∧ ((recordsOf "aa:aa" exLan.Data).map (·.TotalUp)).sum = 101
    ∧ Metric.const .streamUpBytesDesc .CounterValue
          (.ofInt ((recordsOf "aa:aa" exLan.Data).map (·.TotalUp)).sum)
          ["device/" ++ "aa:aa"]
        ∈ Collect .perIteration 1700000000 exStat exLan exIface :=
  ⟨by decide, by decide, by decide,
   (Collect_device_counters 1700000000 exStat exLan exIface (by decide) (by decide)
      (by decide) (by decide) "aa:aa" (by decide)).2.1 (by decide)⟩

/-- C2: when the system-statistics query returns a transport error or a status message
other than "Success", `Collect` sends exactly one observation, the down-indicator
(`ikuai_up` with value 0 and id "host"), whatever the other two queries return. -/
theorem Collect_sysStat_failed (sem : LoopVar) (now : Int) (stat : ShowSysStatResult)
    (lanDevice : ShowMonitorLanResult) (monitorInterface : ShowMonitorInterfaceResult)
    (h : stat.err ≠ none ∨ stat.Result.ErrMsg ≠ "Success") :
    Collect sem now stat lanDevice monitorInterface
        = [Metric.const .UpDesc .GaugeValue (.ofInt 0) ["host"]]
    ∧ Desc.UpDesc.fqName = "ikuai_up"
    ∧ (Metric.const .UpDesc .GaugeValue (.ofInt 0) ["host"]).label "id" = some "host" := by
  have hf : isFail stat.Result stat.err = true := (isFail_eq_true_iff _ _).2 h
  refine ⟨?_, rfl, by decide⟩
  simp [Collect, collectBody, hf, hostDown]

/-- C2 at a response whose status message is not "Success". -/
theorem Collect_sysStat_failed_witness :
    (exStatFailed.err ≠ none ∨ exStatFailed.Result.ErrMsg ≠ "Success")
    ∧ Collect .perLoop 1700000000 exStatFailed exLan exIface
        = [Metric.const .UpDesc .GaugeValue (.ofInt 0) ["host"]] :=
  ⟨by decide,
   (Collect_sysStat_failed .perLoop 1700000000 exStatFailed exLan exIface (by decide)).1⟩

/-- C3, the claim as stated, fails: the system-statistics query succeeds but the only CPU
utilization string is empty, so the slice expression panics after the version metric was
sent; the output is the version metric followed by the host down-indicator, neither a
completed cycle nor the down-indicator alone. -/
theorem Collect_all_or_nothing_counterexample :
    isFail exStatEmptyCpu.Result exStatEmptyCpu.err = false
    ∧ Collect .perIteration 1700000000 exStatEmptyCpu exLan exIface
        = [Metric.const .versionDesc .GaugeValue (.ofInt 1)
            ["3.7.11", "x64", "3.7.11 x64 Build202401"],
           Metric.const .UpDesc .GaugeValue (.ofInt 0) ["host"]]
    ∧ Collect .perIteration 1700000000 exStatEmptyCpu exLan exIface ≠ [hostDown]
    ∧ (Collect .perIteration 1700000000 exStatEmptyCpu exLan exIface).getLast?
        ≠ some hostUp := by
  decide

/-- C3 (amended): every cycle has one of three shapes. It runs to completion, ends with
the host up-indicator at value 1 and contains no down-indicator; or the system-statistics
query failed and the output is the host down-indicator alone; or the CPU loop panicked on
an empty utilization string and the output is what was sent before the panic (the version
metric, the CPU temperature, the gauges of the earlier cores) followed by exactly one host
down-indicator, with no up-indicator. -/
theorem Collect_shapes (sem : LoopVar) (now : Int) (stat : ShowSysStatResult)
    (lanDevice : ShowMonitorLanResult) (monitorInterface : ShowMonitorInterfaceResult) :
    (isFail stat.Result stat.err = false ∧ "" ∉ stat.SysStat.Cpu
      ∧ (Collect sem now stat lanDevice monitorInterface).getLast? = some hostUp
      ∧ hostDown ∉ Collect sem now stat lanDevice monitorInterface)
    ∨ (isFail stat.Result stat.err = true
      ∧ Collect sem now stat lanDevice monitorInterface = [hostDown])
    ∨ (isFail stat.Result stat.err = false ∧ "" ∈ stat.SysStat.Cpu
      ∧ Collect sem now stat lanDevice monitorInterface
          = versionMetrics stat.SysStat ++ (cpuLoop 0 stat.SysStat.Cpu).1 ++ [hostDown]
      ∧ Metric.const .versionDesc .GaugeValue (.ofInt 1)
            [stat.SysStat.Version, stat.SysStat.Arch, stat.SysStat.Verstring]
          ∈ Collect sem now stat lanDevice monitorInterface
      ∧ hostDown ∉ versionMetrics stat.SysStat ++ (cpuLoop 0 stat.SysStat.Cpu).1
      ∧ hostUp ∉ Collect sem now stat lanDevice monitorInterface) := by
  have hv : hostDown ∉ versionMetrics stat.SysStat :=
    hostDown_not_mem_of_desc _ _ (desc_versionMetrics _) (by decide)
  have hc : hostDown ∉ (cpuLoop 0 stat.SysStat.Cpu).1 :=
    hostDown_not_mem_of_desc _ _ (desc_cpuLoop _ 0) (by decide)
  have hv2 : hostUp ∉ versionMetrics stat.SysStat :=
    hostUp_not_mem_of_desc _ _ (desc_versionMetrics _) (by decide)
  have hc2 : hostUp ∉ (cpuLoop 0 stat.SysStat.Cpu).1 :=
    hostUp_not_mem_of_desc _ _ (desc_cpuLoop _ 0) (by decide)
  cases hf : isFail stat.Result stat.err
  · by_cases hcpu : "" ∈ stat.SysStat.Cpu
    · right; right
      rw [Collect_of_cpu_panic sem now stat lanDevice monitorInterface hf hcpu]
      refine ⟨rfl, hcpu, rfl, ?_, ?_, ?_⟩
      · simp [versionMetrics]
      · simp [hv, hc]
      · simp only [List.mem_append, List.mem_singleton, not_or]
        exact ⟨⟨hv2, hc2⟩, by decide⟩
    · left
      rw [Collect_of_completed sem now stat lanDevice monitorInterface hf hcpu]
      refine ⟨rfl, hcpu, ?_, ?_⟩
      · obtain ⟨pre, hpre⟩ := collectTail_getLast sem now stat lanDevice monitorInterface
        rw [hpre, ← List.append_assoc]
        simp
      · simp only [List.mem_append, not_or]
        exact ⟨⟨hv, hc⟩, hostDown_not_mem_collectTail _ _ _ _ _⟩
  · right; left
    exact ⟨rfl, Collect_of_failed sem now stat lanDevice monitorInterface hf⟩

/-- C4, the claim as stated, fails: with a successful check of wan1 at time 100 followed
by a failed check of wan1, the check sequence contains a failed record for the
interface, yet at time 1000 the uptime sent for wan1 is 900, not 0. -/
theorem interfaceMetrics_failed_check_uptime_counterexample :
    (∃ c ∈ [exCheckOk, exCheckFailed],
        c.Interface = exWan1.Interface ∧ c.Result ≠ "success")
    ∧ (interfaceMetrics 1000 { exIface with IfaceCheck := [exCheckOk, exCheckFailed] }).filter
          (fun m => m.desc = .UpTimeDesc)
        = [Metric.const .UpTimeDesc .CounterValue (.ofInt 900) ["iface/wan1"]]
    ∧ (interfaceMetrics 1000 { exIface with IfaceCheck := [exCheckOk, exCheckFailed] }).filter
          (fun m => m.desc = .UpDesc)
        = [Metric.const .UpDesc .GaugeValue (.ofInt 0) ["iface/wan1"]] := by
  decide

/-- C4 (amended): when the check sequence contains a record with the name of a traffic
record and a result other than "success", `interfaceMetrics` sends up status 0 for that
record; the uptime it sends is 0 provided no check record with that name has result
"success" and a timestamp that parses (as when the failed record is the only one with
that name). -/
theorem interfaceMetrics_failed_check (now : Int)
    (monitorInterface : ShowMonitorInterfaceResult) (iface : IfaceStream)
    (hiface : iface ∈ monitorInterface.IfaceStream)
    (hfailed : ∃ c ∈ monitorInterface.IfaceCheck,
      c.Interface = iface.Interface ∧ c.Result ≠ "success") :
    (ifaceObservations now monitorInterface.IfaceCheck iface).filter
        (fun m => m.desc = .UpDesc)
      = [Metric.const .UpDesc .GaugeValue (.ofInt 0) ["iface/" ++ iface.Interface]]
    ∧ Metric.const .UpDesc .GaugeValue (.ofInt 0) ["iface/" ++ iface.Interface]
        ∈ interfaceMetrics now monitorInterface
    ∧ ((∀ c ∈ monitorInterface.IfaceCheck, c.Interface = iface.Interface →
          c.Result = "success" → ParseInt c.Updatetime 64 = none) →
        (ifaceObservations now monitorInterface.IfaceCheck iface).filter
            (fun m => m.desc = .UpTimeDesc)
          = [Metric.const .UpTimeDesc .CounterValue (.ofInt 0) ["iface/" ++ iface.Interface]]
        ∧ Metric.const .UpTimeDesc .CounterValue (.ofInt 0) ["iface/" ++ iface.Interface]
            ∈ interfaceMetrics now monitorInterface) := by
  have hup : (checkLoop now monitorInterface.IfaceCheck iface).ifaceUp = 0 :=
    foldl_checkStep_failed now iface _ _ hfailed
  refine ⟨?_, ?_, ?_⟩
  · simp [ifaceObservations, List.filter, Metric.desc, hup, ifaceId]
  · apply mem_interfaceMetrics now monitorInterface iface hiface
    simp [ifaceObservations, hup, ifaceId]
  · intro hno
    have hut : (checkLoop now monitorInterface.IfaceCheck iface).ifaceUptime = 0 :=
      foldl_checkStep_uptime now iface _ _ hno
    constructor
    · simp [ifaceObservations, List.filter, Metric.desc, hut, ifaceId]
    · apply mem_interfaceMetrics now monitorInterface iface hiface
      simp [ifaceObservations, hut, ifaceId]

/-- C4 (amended) at wan1 with a single, failed check record. -/
theorem interfaceMetrics_failed_check_witness :
    (ifaceObservations 1000 [exCheckFailed] exWan1).filter (fun m => m.desc = .UpDesc)
      = [Metric.const .UpDesc .GaugeValue (.ofInt 0) ["iface/" ++ exWan1.Interface]]
    ∧ (ifaceObservations 1000 [exCheckFailed] exWan1).filter (fun m => m.desc = .UpTimeDesc)
      = [Metric.const .UpTimeDesc .CounterValue (.ofInt 0) ["iface/" ++ exWan1.Interface]] :=
  have h := interfaceMetrics_failed_check 1000
    { exIface with IfaceCheck := [exCheckFailed] } exWan1 (by decide) (by decide)
  ⟨h.1, (h.2.2 (by decide)).1⟩

/-- C5: the app-flow bucket bounds are the ten values 1 MiB + k * 5 MiB for k = 0..9, in
ascending order; for every value `v`, `generateAppFlowBucketsCounts` gives a bound `b` the
count 1 when `v <= b` and no entry (count 0) when `v > b`, and every key of the result is
one of the bounds. -/
theorem appFlowBuckets_counts :
    appFlowBuckets = (List.range 10).map (fun k => (1048576 : Int) + k * 5242880)
    ∧ appFlowBuckets = [1048576, 6291456, 11534336, 16777216, 22020096, 27262976,
        32505856, 37748736, 42991616, 48234496]
    ∧ appFlowBuckets.Pairwise (· < ·)
    ∧ ∀ v : Int,
        (∀ b ∈ appFlowBuckets,
          (v ≤ b → (generateAppFlowBucketsCounts appFlowBuckets v).lookup b = some 1
                    ∧ countOf (generateAppFlowBucketsCounts appFlowBuckets v) b = 1)
          ∧ (b < v → (generateAppFlowBucketsCounts appFlowBuckets v).lookup b = none
                    ∧ countOf (generateAppFlowBucketsCounts appFlowBuckets v) b = 0))
        ∧ (∀ e ∈ generateAppFlowBucketsCounts appFlowBuckets v, e.1 ∈ appFlowBuckets)
        ∧ ((generateAppFlowBucketsCounts appFlowBuckets v).map Prod.fst).Nodup := by
  refine ⟨by decide, appFlowBuckets_eq, by rw [appFlowBuckets_eq]; decide, ?_⟩
  intro v
  rw [generateAppFlowBucketsCounts_eq _ _ appFlowBuckets_nodup]
  refine ⟨?_, ?_, ?_⟩
  · intro b hb
    constructor
    · intro hvb
      have : b ∈ appFlowBuckets.filter (fun b => v ≤ b) := by
        simp [List.mem_filter, hb, hvb]
      simp [countOf, lookup_map_one, this]
    · intro hbv
      have : b ∉ appFlowBuckets.filter (fun b => v ≤ b) := by
        simp [List.mem_filter, hb, hbv]
      simp [countOf, lookup_map_one, this]
  · intro e he
    simp only [List.mem_map, List.mem_filter] at he
    obtain ⟨b, ⟨hb, _⟩, rfl⟩ := he
    exact hb
  · rw [List.map_map]
    have : (Prod.fst ∘ fun b : Int => (b, (1 : Nat))) = id := rfl
    rw [this, List.map_id]
    exact appFlowBuckets_nodup.filter _

/-- C5 at the value 6291456: the bound 6291456 is counted, the bound 1048576 is not. -/
theorem appFlowBuckets_counts_witness :
    (generateAppFlowBucketsCounts appFlowBuckets 6291456).lookup 6291456 = some 1
    ∧ (generateAppFlowBucketsCounts appFlowBuckets 6291456).lookup 1048576 = none :=
  ⟨((appFlowBuckets_counts.2.2.2 6291456).1 6291456 (by decide)).1 (by decide) |>.1,
   ((appFlowBuckets_counts.2.2.2 6291456).1 1048576 (by decide)).2 (by decide) |>.1⟩

/-- C6, the claim as stated, fails: the system-statistics query succeeds with an
online-user count of 5, the LAN-device query succeeds with an empty device list, and the
device-count metric sent has value 5, not 0. -/
theorem Collect_device_count_counterexample :
    exStat.err = none ∧ exStat.Result.ErrMsg = "Success"
    ∧ exLanEmpty.err = none ∧ exLanEmpty.Result.ErrMsg = "Success" ∧ exLanEmpty.Data = []
    ∧ (Collect .perIteration 1700000000 exStat exLanEmpty exIface).filter
          (fun m => m.desc = .lanDeviceCountDesc)
        = [Metric.const .lanDeviceCountDesc .GaugeValue (.ofInt 5) []] := by
  decide

/-- C6 (amended): when the system-statistics query succeeds and the LAN-device query
succeeds with an empty device list, no device-info series is sent, and the device-count
metric carries the online-user count of the system-statistics response, not the length of
the device list; it is sent once in every cycle the CPU loop does not stop. -/
theorem Collect_empty_device_list (sem : LoopVar) (now : Int) (stat : ShowSysStatResult)
    (lanDevice : ShowMonitorLanResult) (monitorInterface : ShowMonitorInterfaceResult)
    (hstat : stat.err = none ∧ stat.Result.ErrMsg = "Success")
    (_hlan : lanDevice.err = none ∧ lanDevice.Result.ErrMsg = "Success")
    (hempty : lanDevice.Data = []) :
    (Collect sem now stat lanDevice monitorInterface).filter
        (fun m => m.desc = .lanDeviceDesc) = []
    ∧ (∀ m ∈ Collect sem now stat lanDevice monitorInterface,
        m.desc = .lanDeviceCountDesc →
        m = Metric.const .lanDeviceCountDesc .GaugeValue
              (.ofInt stat.SysStat.OnlineUserCount) [])
    ∧ ("" ∉ stat.SysStat.Cpu →
        (Collect sem now stat lanDevice monitorInterface).filter
            (fun m => m.desc = .lanDeviceCountDesc)
          = [Metric.const .lanDeviceCountDesc .GaugeValue
              (.ofInt stat.SysStat.OnlineUserCount) []]) := by
  have hf : isFail stat.Result stat.err = false := (isFail_eq_false_iff _ _).2 hstat
  have hdev : (collectTail sem now stat lanDevice monitorInterface).filter
      (fun m => m.desc = .lanDeviceDesc) = [] := by
    have h1 := filter_desc_eq_nil _ _ .lanDeviceDesc (desc_memoryMetrics stat) (by decide)
    have h2 := filter_desc_eq_nil _ _ .lanDeviceDesc
      (desc_appFlowMetrics appFlowBuckets stat.AppFlow) (by decide)
    have h4 := filter_desc_eq_nil _ _ .lanDeviceDesc
      (desc_interfaceMetrics now monitorInterface) (by decide)
    have h5 := filter_desc_eq_nil _ _ .lanDeviceDesc
      (desc_hostMetrics stat.SysStat) (by decide)
    simp only [collectTail, List.filter_append, filter_ite_nil, h1, h2, h4, h5, hempty,
      deviceMetrics_nil]
    simp [Metric.desc]
  have hcount := filter_desc_Collect sem now stat lanDevice monitorInterface
    .lanDeviceCountDesc (by decide) (by decide)
  rw [filter_lanDeviceCount_collectTail] at hcount
  refine ⟨?_, ?_, ?_⟩
  · rw [filter_desc_Collect sem now stat lanDevice monitorInterface
      .lanDeviceDesc (by decide) (by decide), hdev]
    simp
  · intro m hm hd
    have hmem : m ∈ (Collect sem now stat lanDevice monitorInterface).filter
        (fun m => m.desc = .lanDeviceCountDesc) :=
      List.mem_filter.mpr ⟨hm, by simpa using hd⟩
    rw [hcount] at hmem
    split at hmem
    · simpa using hmem
    · simp at hmem
  · intro hcpu
    rw [hcount, if_pos ⟨hf, hcpu⟩]

/-- C6 (amended) at a cycle with five online users and an empty device list. -/
theorem Collect_empty_device_list_witness :
    (exStat.err = none ∧ exStat.Result.ErrMsg = "Success")
    ∧ (exLanEmpty.err = none ∧ exLanEmpty.Result.ErrMsg = "Success")
    ∧ exLanEmpty.Data = []
    ∧ (Collect .perIteration 1700000000 exStat exLanEmpty exIface).filter
        (fun m => m.desc = .lanDeviceDesc) = []
    ∧ (Collect .perIteration 1700000000 exStat exLanEmpty exIface).filter
          (fun m => m.desc = .lanDeviceCountDesc)
        = [Metric.const .lanDeviceCountDesc .GaugeValue
            (.ofInt exStat.SysStat.OnlineUserCount) []] :=
  have h := Collect_empty_device_list .perIteration 1700000000 exStat exLanEmpty exIface
    (by decide) (by decide) (by decide)
  ⟨by decide, by decide, by decide, h.1, h.2.2 (by decide)⟩

/-- C7, the claim as stated, fails: the interface response lists wan1 twice, and the
cycle sends two interface-info series with the id "iface/wan1". -/
theorem Collect_ids_unique_counterexample :
    idsOf .ifaceInfoDesc (Collect .perIteration 1700000000 exStat exLan exIfaceTwice)
      = ["iface/wan1", "iface/wan1"]
    ∧ ¬ (idsOf .ifaceInfoDesc
          (Collect .perIteration 1700000000 exStat exLan exIfaceTwice)).Nodup := by
  decide

/-- C7 (amended): in the output of every cycle, for every device list, no two device-info
series carry the same device id; and when the interface names of the traffic list are
pairwise distinct (`interfaceMetrics` does not merge records), no two interface-info
series carry the same interface id and no two observations of the same metric carry the
same id label. -/
theorem Collect_ids_unique (sem : LoopVar) (now : Int) (stat : ShowSysStatResult)
    (lanDevice : ShowMonitorLanResult) (monitorInterface : ShowMonitorInterfaceResult) :
    (idsOf .lanDeviceDesc (Collect sem now stat lanDevice monitorInterface)).Nodup
    ∧ ((monitorInterface.IfaceStream.map (·.Interface)).Nodup →
        (idsOf .ifaceInfoDesc (Collect sem now stat lanDevice monitorInterface)).Nodup
        ∧ (∀ d, (idsOf d (Collect sem now stat lanDevice monitorInterface)).Nodup)
        ∧ (Collect sem now stat lanDevice monitorInterface).Pairwise
            (fun x y => x.desc = y.desc →
              ∀ k, x.label "id" = some k → y.label "id" ≠ some k)) := by
  constructor
  · apply idsOf_Collect_nodup
    rw [idsOf_interfaceMetrics]
    simp
  · intro hnames
    have hall : ∀ d, (idsOf d (Collect sem now stat lanDevice monitorInterface)).Nodup :=
      fun d => idsOf_Collect_nodup d sem now stat lanDevice monitorInterface
        (idsOf_interfaceMetrics_nodup d now monitorInterface hnames)
    exact ⟨hall _, hall, pairwise_of_idsOf_nodup _ hall⟩

/-- C7 (amended) at a cycle with two devices and one interface. -/
theorem Collect_ids_unique_witness :
    (exIface.IfaceStream.map (·.Interface)).Nodup
    ∧ "device/aa:aa"
        ∈ idsOf .lanDeviceDesc (Collect .perIteration 1700000000 exStat exLan exIface)
    ∧ "iface/wan1"
        ∈ idsOf .ifaceInfoDesc (Collect .perIteration 1700000000 exStat exLan exIface)
    ∧ (∀ d, (idsOf d (Collect .perIteration 1700000000 exStat exLan exIface)).Nodup) :=
  ⟨by decide, by decide, by decide,
   ((Collect_ids_unique .perIteration 1700000000 exStat exLan exIface).2 (by decide)).2.1⟩

/-- C8, the claim as stated, fails: the only check record of wan1 has result "success"
and the timestamp "-9223372036854775808", which parses as the integer T = -2^63; at the
Unix time N = 1700000000 the `int64` subtraction wraps and the uptime sent is
-9223372035154775808, not N - T = 9223372038554775808. -/
theorem interfaceMetrics_uptime_counterexample :
    [exCheckMinInt].filter (fun c => c.Interface = exWan1.Interface) = [exCheckMinInt]
    ∧ exCheckMinInt.Result = "success"
    ∧ ParseInt exCheckMinInt.Updatetime 64 = some (-9223372036854775808)
    ∧ (1700000000 : Int) - (-9223372036854775808) = 9223372038554775808
    ∧ (interfaceMetrics 1700000000 { exIface with IfaceCheck := [exCheckMinInt] }).filter
          (fun m => m.desc = .UpTimeDesc)
        = [Metric.const .UpTimeDesc .CounterValue (.ofInt (-9223372035154775808))
            ["iface/wan1"]] := by
  decide

/-- C8 (amended): for a traffic record whose only check record of the same name has
result "success" and a timestamp that `ParseInt` reads as T, `interfaceMetrics` sends up
status 1 and the uptime N - T wrapped to 64 bits, which is exactly N - T whenever
-2^63 <= N - T < 2^63; when `ParseInt` reports an error the uptime is 0, the status is
still 1 and all eight observations of the record are sent. -/
theorem interfaceMetrics_successful_check (now : Int)
    (monitorInterface : ShowMonitorInterfaceResult) (iface : IfaceStream) (c : IfaceCheck)
    (hiface : iface ∈ monitorInterface.IfaceStream)
    (hmatch : monitorInterface.IfaceCheck.filter (fun k => k.Interface = iface.Interface)
      = [c])
    (hres : c.Result = "success") :
    (ifaceObservations now monitorInterface.IfaceCheck iface).filter
        (fun m => m.desc = .UpDesc)
      = [Metric.const .UpDesc .GaugeValue (.ofInt 1) ["iface/" ++ iface.Interface]]
    ∧ (∀ T : Int, ParseInt c.Updatetime 64 = some T →
        (ifaceObservations now monitorInterface.IfaceCheck iface).filter
            (fun m => m.desc = .UpTimeDesc)
          = [Metric.const .UpTimeDesc .CounterValue (.ofInt (wrapInt64 (now - T)))
              ["iface/" ++ iface.Interface]]
        ∧ (-2 ^ 63 ≤ now - T → now - T < 2 ^ 63 →
            Metric.const .UpTimeDesc .CounterValue (.ofInt (now - T))
                ["iface/" ++ iface.Interface]
              ∈ interfaceMetrics now monitorInterface))
    ∧ (ParseInt c.Updatetime 64 = none →
        (ifaceObservations now monitorInterface.IfaceCheck iface).filter
            (fun m => m.desc = .UpTimeDesc)
          = [Metric.const .UpTimeDesc .CounterValue (.ofInt 0) ["iface/" ++ iface.Interface]])
    ∧ (ifaceObservations now monitorInterface.IfaceCheck iface).length = 8 := by
  have hname : c.Interface = iface.Interface := by
    have hc : c ∈ monitorInterface.IfaceCheck.filter
        (fun k => k.Interface = iface.Interface) := by rw [hmatch]; simp
    simpa using (List.mem_filter.mp hc).2
  have hloop : checkLoop now monitorInterface.IfaceCheck iface
      = checkStep now iface
          { internet := "", parentIface := "", ifaceUp := 1, ifaceUptime := 0 } c := by
    unfold checkLoop
    rw [foldl_checkStep_filter, hmatch]
    rfl
  refine ⟨?_, ?_, ?_, ?_⟩
  · cases hp : ParseInt c.Updatetime 64 <;>
      simp [ifaceObservations, List.filter, Metric.desc, hloop, checkStep, hname, hres, hp,
        ifaceId]
  · intro T hp
    have hobs : (ifaceObservations now monitorInterface.IfaceCheck iface).filter
            (fun m => m.desc = .UpTimeDesc)
          = [Metric.const .UpTimeDesc .CounterValue (.ofInt (wrapInt64 (now - T)))
              ["iface/" ++ iface.Interface]] := by
      simp [ifaceObservations, List.filter, Metric.desc, hloop, checkStep, hname, hres, hp,
        ifaceId]
    refine ⟨hobs, ?_⟩
    intro h1 h2
    apply mem_interfaceMetrics now monitorInterface iface hiface
    have hm : Metric.const .UpTimeDesc .CounterValue (.ofInt (wrapInt64 (now - T)))
        ["iface/" ++ iface.Interface]
        ∈ (ifaceObservations now monitorInterface.IfaceCheck iface).filter
            (fun m => m.desc = .UpTimeDesc) := by rw [hobs]; simp
    rw [wrapInt64_of_range _ h1 h2] at hm
    exact (List.mem_filter.mp hm).1
  · intro hp
    simp [ifaceObservations, List.filter, Metric.desc, hloop, checkStep, hname, hres, hp,
      ifaceId]
  · simp [ifaceObservations]

/-- C8 (amended) at wan1 with one successful check updated at time 100, read at time
1000: the uptime sent is 900. -/
theorem interfaceMetrics_successful_check_witness :
    exWan1 ∈ exIface.IfaceStream
    ∧ exIface.IfaceCheck.filter (fun k => k.Interface = exWan1.Interface) = [exCheckOk]
    ∧ exCheckOk.Result = "success"
    ∧ ParseInt exCheckOk.Updatetime 64 = some 100
    ∧ Metric.const .UpTimeDesc .CounterValue (.ofInt (1000 - 100))
          ["iface/" ++ exWan1.Interface]
        ∈ interfaceMetrics 1000 exIface :=
  ⟨by decide, by decide, by decide, by decide,
   ((interfaceMetrics_successful_check 1000 exIface exWan1 exCheckOk (by decide) (by decide)
      (by decide)).2.1 100 (by decide)).2 (by decide) (by decide)⟩

/-- C9: no histogram series labelled "Total" is ever sent, whatever the input; in a cycle
that completes, the category labels of the histogram series are exactly the names of the
first app-flow sample other than "Total", and they are pairwise distinct as the keys of
the sample are (one series per category). -/
theorem Collect_appFlow_categories (sem : LoopVar) (now : Int) (stat : ShowSysStatResult)
    (lanDevice : ShowMonitorLanResult) (monitorInterface : ShowMonitorInterfaceResult) :
    (∀ m ∈ Collect sem now stat lanDevice monitorInterface,
        m.desc = .appFlowHistogramDesc → m.label "category" ≠ some "Total")
    ∧ ((stat.err = none ∧ stat.Result.ErrMsg = "Success") → "" ∉ stat.SysStat.Cpu →
        ((Collect sem now stat lanDevice monitorInterface).filter
            (fun m => m.desc = .appFlowHistogramDesc)).map (fun m => m.label "category")
          = (((stat.AppFlow.headD []).map Prod.fst).filter
              (fun name => name ≠ "Total")).map some
        ∧ (((stat.AppFlow.headD []).map Prod.fst).Nodup →
            (((Collect sem now stat lanDevice monitorInterface).filter
              (fun m => m.desc = .appFlowHistogramDesc)).map
                (fun m => m.label "category")).Nodup)) := by
  constructor
  · intro m hm hd
    obtain ⟨e, _, hne, rfl⟩ := mem_Collect_histogram sem now stat lanDevice monitorInterface
      m hm hd
    simpa [Metric.label, Metric.desc, Metric.labelValues, Desc.variableLabels, List.lookup]
      using hne
  · intro hstat hcpu
    have hf : isFail stat.Result stat.err = false := (isFail_eq_false_iff _ _).2 hstat
    have heq : ((Collect sem now stat lanDevice monitorInterface).filter
            (fun m => m.desc = .appFlowHistogramDesc)).map (fun m => m.label "category")
          = (((stat.AppFlow.headD []).map Prod.fst).filter
              (fun name => name ≠ "Total")).map some := by
      rw [filter_appFlow_Collect, if_pos ⟨hf, hcpu⟩]
      cases hs : stat.AppFlow with
      | nil => simp [appFlowMetrics]
      | cons sample rest =>
        simp only [appFlowMetrics, appFlowHistograms, List.headD_cons, List.map_map,
          List.filter_map]
        apply List.map_congr_left
        intro e _
        simp [Metric.label, Metric.desc, Metric.labelValues, Desc.variableLabels,
          List.lookup]
    refine ⟨heq, fun hnd => ?_⟩
    rw [heq]
    exact (hnd.filter _).map (fun a b h => Option.some.inj h)

/-- C9 at the sample with the categories Total, HTTP and Video: the series sent are
labelled HTTP and Video. -/
theorem Collect_appFlow_categories_witness :
    ((Collect .perIteration 1700000000 exStat exLan exIface).filter
        (fun m => m.desc = .appFlowHistogramDesc)).map (fun m => m.label "category")
      = (((exStat.AppFlow.headD []).map Prod.fst).filter
          (fun name => name ≠ "Total")).map some
    ∧ (((exStat.AppFlow.headD []).map Prod.fst).filter (fun name => name ≠ "Total"))
      = ["HTTP", "Video"] :=
  ⟨((Collect_appFlow_categories .perIteration 1700000000 exStat exLan exIface).2
      (by decide) (by decide)).1, by decide⟩

/-- C10, the claim as stated, fails: the category HTTP has the byte value 0; its
histogram has the total count 0 while each of its ten buckets has the cumulative
count 1. -/
theorem Collect_histogram_count_counterexample :
    Metric.histogram .appFlowHistogramDesc 0 0
        (generateAppFlowBucketsCounts appFlowBuckets 0) ["HTTP"]
      ∈ Collect .perIteration 1700000000 exStat exLan exIface
    ∧ ("HTTP", (0 : Int)) ∈ exStat.AppFlow.headD []
    ∧ countOf (generateAppFlowBucketsCounts appFlowBuckets 0) 1048576 = 1
    ∧ ¬ (countOf (generateAppFlowBucketsCounts appFlowBuckets 0) 1048576 ≤ 0) := by
  decide

/-- C10 (amended): every histogram series `Collect` sends comes from a category of the
first app-flow sample with some byte value v; its observed sum is v, and when v >= 1 the
cumulative count of each of its buckets is at most the total count of the series. -/
theorem Collect_histogram_consistent (sem : LoopVar) (now : Int) (stat : ShowSysStatResult)
    (lanDevice : ShowMonitorLanResult) (monitorInterface : ShowMonitorInterfaceResult)
    (desc : Desc) (count : Nat) (sum : Int) (buckets : List (Int × Nat))
    (labelValues : List String)
    (hm : Metric.histogram desc count sum buckets labelValues
      ∈ Collect sem now stat lanDevice monitorInterface) :
    ∃ name v, (name, v) ∈ stat.AppFlow.headD [] ∧ labelValues = [name] ∧ sum = v
      ∧ (1 ≤ v → ∀ b, countOf buckets b ≤ count) := by
  have hd : (Metric.histogram desc count sum buckets labelValues).desc
      = .appFlowHistogramDesc := by
    rcases mem_Collect sem now stat lanDevice monitorInterface _ hm with h | h | h | h
    · simp [hostDown] at h
    · simp [versionMetrics] at h
      cases hct : stat.SysStat.Cputemp <;> simp [hct] at h
    · obtain ⟨j, _, hj⟩ := label_id_cpuLoop _ 0 _ h
      cases hj
    · rcases mem_collectTail sem now stat lanDevice monitorInterface _ h.2.2
        with h | h | h | h | h | h
      · simp [memoryMetrics] at h
      · have := desc_appFlowMetrics _ _ _ h
        simpa using this
      · obtain ⟨e, _, he⟩ := mem_deviceMetrics sem lanDevice.Data _ h.2
        simp [deviceObservations] at he
      · cases h
      · simp only [interfaceMetrics, List.mem_flatMap] at h
        obtain ⟨e, _, he⟩ := h.2
        simp [ifaceObservations] at he
      · simp [hostMetrics, hostUp] at h
  obtain ⟨e, he, _, heq⟩ := mem_Collect_histogram sem now stat lanDevice monitorInterface
    _ hm hd
  injection heq with h1 h2 h3 h4 h5
  refine ⟨e.1, e.2, he, h5, h3, ?_⟩
  intro hv b
  rw [h2, h4]
  exact countOf_le_toUint64 e.2 hv b

/-- C10 (amended) at the category Video with the byte value 7000000. -/
theorem Collect_histogram_consistent_witness :
    Metric.histogram .appFlowHistogramDesc 7000000 7000000
        (generateAppFlowBucketsCounts appFlowBuckets 7000000) ["Video"]
      ∈ Collect .perIteration 1700000000 exStat exLan exIface
    ∧ ∃ name v, (name, v) ∈ exStat.AppFlow.headD [] ∧ ["Video"] = [name]
        ∧ (7000000 : Int) = v
        ∧ (1 ≤ v → ∀ b, countOf (generateAppFlowBucketsCounts appFlowBuckets 7000000) b
            ≤ 7000000) :=
  ⟨by decide,
   Collect_histogram_consistent .perIteration 1700000000 exStat exLan exIface
     .appFlowHistogramDesc 7000000 7000000
     (generateAppFlowBucketsCounts appFlowBuckets 7000000) ["Video"] (by decide)⟩

/-- C11: in a cycle that reaches the LAN-device query and gets a successful response,
the number of device-info series `Collect` sends, which is the number of entries of the
device map, equals the number of distinct MAC addresses in the raw list. -/
theorem Collect_device_info_count (sem : LoopVar) (now : Int) (stat : ShowSysStatResult)
    (lanDevice : ShowMonitorLanResult) (monitorInterface : ShowMonitorInterfaceResult)
    (hstat : stat.err = none ∧ stat.Result.ErrMsg = "Success")
    (hcpu : "" ∉ stat.SysStat.Cpu)
    (hlan : lanDevice.err = none ∧ lanDevice.Result.ErrMsg = "Success") :
    ((Collect sem now stat lanDevice monitorInterface).filter
        (fun m => m.desc = .lanDeviceDesc)).length
      = (lanDevice.Data.map (·.Mac)).dedup.length
    ∧ (mergedDevices sem lanDevice.Data).length
      = (lanDevice.Data.map (·.Mac)).dedup.length := by
  have hf : isFail stat.Result stat.err = false := (isFail_eq_false_iff _ _).2 hstat
  have hfl : isFail lanDevice.Result lanDevice.err = false := (isFail_eq_false_iff _ _).2 hlan
  rw [filter_lanDevice_Collect sem now stat lanDevice monitorInterface hf hcpu hfl,
    List.length_map]
  exact ⟨length_mergedDevices sem lanDevice.Data, length_mergedDevices sem lanDevice.Data⟩

/-- C11 at three raw records with two distinct MAC addresses. -/
theorem Collect_device_info_count_witness :
    exLan.Data.length = 3
    ∧ (exLan.Data.map (·.Mac)).dedup.length = 2
    ∧ ((Collect .perIteration 1700000000 exStat exLan exIface).filter
        (fun m => m.desc = .lanDeviceDesc)).length
      = (exLan.Data.map (·.Mac)).dedup.length :=
  ⟨by decide, by decide,
   (Collect_device_info_count .perIteration 1700000000 exStat exLan exIface (by decide)
      (by decide) (by decide)).1⟩

/-- C12: in a cycle that reaches the LAN-device query and gets a successful response,
with the loop variable of Go 1.22 (one per iteration), for every MAC address m of the raw
list the device-info series with id "device/m" is exactly one, and its hostname, IP
address and comment labels are those of the first record of the list whose MAC is m;
later records of the MAC do not change them. -/
theorem Collect_device_info_labels (now : Int) (stat : ShowSysStatResult)
    (lanDevice : ShowMonitorLanResult) (monitorInterface : ShowMonitorInterfaceResult)
    (hstat : stat.err = none ∧ stat.Result.ErrMsg = "Success")
    (hcpu : "" ∉ stat.SysStat.Cpu)
    (hlan : lanDevice.err = none ∧ lanDevice.Result.ErrMsg = "Success")
    (mac : String) (first : LanDeviceInfo)
    (hfirst : lanDevice.Data.find? (fun r => r.Mac = mac) = some first) (x : Metric) :
    (x ∈ Collect .perIteration now stat lanDevice monitorInterface
      ∧ x.desc = .lanDeviceDesc ∧ x.label "id" = some ("device/" ++ mac))
    ↔ x = Metric.const .lanDeviceDesc .GaugeValue (.ofInt 1)
            ["device/" ++ mac, mac, first.Hostname, first.IPAddr, first.Comment] := by
  have hf : isFail stat.Result stat.err = false := (isFail_eq_false_iff _ _).2 hstat
  have hfl : isFail lanDevice.Result lanDevice.err = false := (isFail_eq_false_iff _ _).2 hlan
  have hmacin : mac ∈ lanDevice.Data.map (·.Mac) := by
    have h1 := List.mem_of_find?_eq_some hfirst
    have h2 := List.find?_some hfirst
    exact List.mem_map.mpr ⟨first, h1, by simpa using h2⟩
  obtain ⟨dev, first2, rest, hrec, hlook, _, _, _, _, _, h6, h7, h8, h9⟩ :=
    lookup_mergedDevices_perIteration mac lanDevice.Data hmacin
  have hsame : first2 = first := by
    have := head?_recordsOf mac lanDevice.Data
    rw [hrec, hfirst] at this
    exact Option.some.inj this
  subst hsame
  have hentry : ("device/" ++ mac, dev) ∈ mergedDevices .perIteration lanDevice.Data :=
    mem_of_lookup_eq_some _ _ _ hlook
  have hinfo : Metric.const .lanDeviceDesc .GaugeValue (.ofInt 1)
        ["device/" ++ mac, mac, first2.Hostname, first2.IPAddr, first2.Comment]
      = Metric.const .lanDeviceDesc .GaugeValue (.ofInt 1)
        ["device/" ++ mac, dev.Mac, dev.Hostname, dev.IPAddr, dev.Comment] := by
    rw [h6, h7, h8, h9]
  rw [hinfo]
  constructor
  · rintro ⟨hx, hd, hid⟩
    obtain ⟨e, he, rfl⟩ := mem_Collect_lanDevice .perIteration now stat lanDevice
      monitorInterface x hx hd
    have hk : e.1 = "device/" ++ mac := by
      simpa [Metric.label, Metric.desc, Metric.labelValues, Desc.variableLabels,
        List.lookup] using hid
    have hl2 := lookup_eq_some_of_mem e.1 e.2 _
      (keys_mergedDevices .perIteration lanDevice.Data).1 he
    rw [hk, hlook] at hl2
    have hdev : dev = e.2 := Option.some.inj hl2
    rw [hk, hdev]
  · intro hx
    subst hx
    refine ⟨?_, rfl, ?_⟩
    · have hmem : Metric.const .lanDeviceDesc .GaugeValue (.ofInt 1)
          ["device/" ++ mac, dev.Mac, dev.Hostname, dev.IPAddr, dev.Comment]
          ∈ (Collect .perIteration now stat lanDevice monitorInterface).filter
              (fun m => m.desc = .lanDeviceDesc) := by
        rw [filter_lanDevice_Collect .perIteration now stat lanDevice monitorInterface hf
          hcpu hfl]
        exact List.mem_map.mpr ⟨_, hentry, rfl⟩
      exact (List.mem_filter.mp hmem).1
    · simp [Metric.label, Metric.desc, Metric.labelValues, Desc.variableLabels, List.lookup]

/-- C12 at the device list whose first and third record have the MAC aa:aa: the labels
of "device/aa:aa" are those of the first record. -/
theorem Collect_device_info_labels_witness :
    exLan.Data.find? (fun r => r.Mac = "aa:aa")
      = some { Mac := "aa:aa", Hostname := "nas", IPAddr := "10.0.0.2", Comment := "first",
               TotalUp := 1, TotalDown := 2, Upload := 3, Download := 4, ConnectNum := 5 }
    ∧ Metric.const .lanDeviceDesc .GaugeValue (.ofInt 1)
          ["device/" ++ "aa:aa", "aa:aa", "nas", "10.0.0.2", "first"]
        ∈ Collect .perIteration 1700000000 exStat exLan exIface :=
  ⟨by decide,
   ((Collect_device_info_labels 1700000000 exStat exLan exIface (by decide) (by decide)
      (by decide) "aa:aa"
      { Mac := "aa:aa", Hostname := "nas", IPAddr := "10.0.0.2", Comment := "first",
        TotalUp := 1, TotalDown := 2, Upload := 3, Download := 4, ConnectNum := 5 }
      (by decide) _).2 rfl).1⟩

/-- C13: in a cycle that reaches the optional queries (system statistics succeeded, no
empty CPU string), a failed LAN-device query does not stop the cycle: the output equals
the output for a successful response with an empty device list, has no observation whose
id is "device/" followed by anything, and ends with host up = 1; likewise a failed
interface query gives the output of a successful response with an empty traffic list,
with no "iface/" id. -/
theorem Collect_optional_query_failed (sem : LoopVar) (now : Int)
    (stat : ShowSysStatResult) (lanDevice : ShowMonitorLanResult)
    (monitorInterface : ShowMonitorInterfaceResult)
    (hstat : stat.err = none ∧ stat.Result.ErrMsg = "Success")
    (hcpu : "" ∉ stat.SysStat.Cpu) :
    ((lanDevice.err ≠ none ∨ lanDevice.Result.ErrMsg ≠ "Success") →
        Collect sem now stat lanDevice monitorInterface
          = Collect sem now stat
              { Result := { ErrMsg := "Success" }, err := none, Data := [] }
              monitorInterface
        ∧ (∀ x ∈ Collect sem now stat lanDevice monitorInterface,
            ∀ mac, x.label "id" ≠ some ("device/" ++ mac))
        ∧ (Collect sem now stat lanDevice monitorInterface).getLast? = some hostUp
        ∧ hostDown ∉ Collect sem now stat lanDevice monitorInterface)
    ∧ ((monitorInterface.err ≠ none ∨ monitorInterface.Result.ErrMsg ≠ "Success") →
        Collect sem now stat lanDevice monitorInterface
          = Collect sem now stat lanDevice
              { Result := { ErrMsg := "Success" }, err := none, IfaceStream := [],
                IfaceCheck := [] }
        ∧ (∀ x ∈ Collect sem now stat lanDevice monitorInterface,
            ∀ name, x.label "id" ≠ some ("iface/" ++ name))
        ∧ (Collect sem now stat lanDevice monitorInterface).getLast? = some hostUp
        ∧ hostDown ∉ Collect sem now stat lanDevice monitorInterface) := by
  have hf : isFail stat.Result stat.err = false := (isFail_eq_false_iff _ _).2 hstat
  have hend := Collect_completed_ends_up sem now stat lanDevice monitorInterface hf hcpu
  constructor
  · intro hfail
    have hfl : isFail lanDevice.Result lanDevice.err = true :=
      (isFail_eq_true_iff _ _).2 hfail
    have hok : isFail { ErrMsg := "Success" } (none : Option String) = false := by decide
    have heq : Collect sem now stat lanDevice monitorInterface
        = Collect sem now stat
            { Result := { ErrMsg := "Success" }, err := none, Data := [] }
            monitorInterface := by
      apply Collect_congr_tail
      simp [collectTail, hfl, hok, deviceMetrics_nil]
    refine ⟨heq, ?_, hend.1, hend.2⟩
    intro x hx mac hid
    rw [heq] at hx
    obtain ⟨dev, hmem, _⟩ := mem_Collect_device sem now stat _ monitorInterface x mac hx hid
    simp [mergedDevices, deviceLoop] at hmem
  · intro hfail
    have hfi : isFail monitorInterface.Result monitorInterface.err = true :=
      (isFail_eq_true_iff _ _).2 hfail
    have hok : isFail { ErrMsg := "Success" } (none : Option String) = false := by decide
    have heq : Collect sem now stat lanDevice monitorInterface
        = Collect sem now stat lanDevice
            { Result := { ErrMsg := "Success" }, err := none, IfaceStream := [],
              IfaceCheck := [] } := by
      apply Collect_congr_tail
      simp [collectTail, hfi, hok, interfaceMetrics_nil]
    refine ⟨heq, ?_, hend.1, hend.2⟩
    intro x hx name hid
    rcases mem_Collect sem now stat lanDevice monitorInterface x hx with h | h | h | h
    · subst h
      have h2 : hostDown.label "id" = some "host" := by decide
      rw [h2] at hid
      exact iface_ne_host _ (Option.some.inj hid).symm
    · have hd := desc_versionMetrics _ x h
      have := label_id_of_desc x (by
        simp only [List.mem_cons, List.mem_singleton, List.not_mem_nil, or_false] at hd ⊢
        tauto)
      rw [this] at hid
      cases hid
    · obtain ⟨j, _, rfl⟩ := label_id_cpuLoop _ 0 x h
      have h2 : (Metric.const .cpuUsageRatioDesc .GaugeValue
          (.parseFloat (goBytes (stat.SysStat.Cpu.getD (j - 0) "")).dropLast)
          ["core/" ++ toString j]).label "id" = some ("core/" ++ toString j) := by
        simp [Metric.label, Metric.desc, Metric.labelValues, Desc.variableLabels,
          List.lookup]
      rw [h2] at hid
      exact core_ne_iface _ _ (Option.some.inj hid)
    · rcases mem_collectTail sem now stat lanDevice monitorInterface x h.2.2
        with h | h | h | h | h | h
      · have hd := desc_memoryMetrics _ x h
        have := label_id_of_desc x (by
          simp only [List.mem_cons, List.mem_singleton, List.not_mem_nil, or_false] at hd ⊢
          tauto)
        rw [this] at hid
        cases hid
      · have hd := desc_appFlowMetrics _ _ x h
        have := label_id_of_desc x (by
          simp only [List.mem_cons, List.mem_singleton, List.not_mem_nil, or_false] at hd ⊢
          tauto)
        rw [this] at hid
        cases hid
      · obtain ⟨e, he, hxe⟩ := mem_deviceMetrics sem lanDevice.Data x h.2
        have hl := label_id_deviceObservations e.1 e.2 x hxe
        rw [hid] at hl
        have hkey : e.1 ∈ (mergedDevices sem lanDevice.Data).map Prod.fst :=
          List.mem_map.mpr ⟨e, he, rfl⟩
        obtain ⟨mac, hmac⟩ := (keys_mergedDevices sem lanDevice.Data).2 e.1 hkey
        rw [hmac] at hl
        exact device_ne_iface _ _ (Option.some.inj hl).symm
      · subst h
        simp [Metric.label, Metric.desc, Metric.labelValues, Desc.variableLabels] at hid
      · rw [hfi] at h
        exact absurd h.1 (by decide)
      · have hl := label_id_hostMetrics _ x h
        rw [hid] at hl
        exact iface_ne_host _ (Option.some.inj hl)

/-- C13 at a LAN-device query that failed with a transport error. -/
theorem Collect_optional_query_failed_witness :
    (exLanFailed.err ≠ none ∨ exLanFailed.Result.ErrMsg ≠ "Success")
    ∧ Collect .perIteration 1700000000 exStat exLanFailed exIface
        = Collect .perIteration 1700000000 exStat exLanEmpty exIface
    ∧ (Collect .perIteration 1700000000 exStat exLanFailed exIface).getLast? = some hostUp :=
  have h := (Collect_optional_query_failed .perIteration 1700000000 exStat exLanFailed
    exIface (by decide) (by decide)).1 (by decide)
  ⟨by decide, h.1, h.2.2.1⟩

/-- C14: for a traffic record whose name matches no record of the check sequence,
`interfaceMetrics` sends an interface-info series with empty is-internet and
parent-interface labels, up status 1 and uptime 0. -/
theorem interfaceMetrics_no_check (now : Int)
    (monitorInterface : ShowMonitorInterfaceResult) (iface : IfaceStream)
    (hiface : iface ∈ monitorInterface.IfaceStream)
    (hno : ∀ c ∈ monitorInterface.IfaceCheck, c.Interface ≠ iface.Interface) :
    (ifaceObservations now monitorInterface.IfaceCheck iface).take 3
      = [ Metric.const .ifaceInfoDesc .GaugeValue (.ofInt 1)
            ["iface/" ++ iface.Interface, iface.Interface, iface.Comment, "", "",
              iface.IPAddr],
          Metric.const .UpDesc .GaugeValue (.ofInt 1) ["iface/" ++ iface.Interface],
          Metric.const .UpTimeDesc .CounterValue (.ofInt 0) ["iface/" ++ iface.Interface] ]
    ∧ (∀ x ∈ (ifaceObservations now monitorInterface.IfaceCheck iface).drop 3,
        x.desc ∉ [Desc.ifaceInfoDesc, Desc.UpDesc, Desc.UpTimeDesc])
    ∧ (∀ x ∈ ifaceObservations now monitorInterface.IfaceCheck iface,
        x ∈ interfaceMetrics now monitorInterface)
    ∧ (Metric.const .ifaceInfoDesc .GaugeValue (.ofInt 1)
          ["iface/" ++ iface.Interface, iface.Interface, iface.Comment, "", "",
            iface.IPAddr]).label "internet" = some ""
    ∧ (Metric.const .ifaceInfoDesc .GaugeValue (.ofInt 1)
          ["iface/" ++ iface.Interface, iface.Interface, iface.Comment, "", "",
            iface.IPAddr]).label "parent_interface" = some "" := by
  have hloop := checkLoop_of_no_match now monitorInterface.IfaceCheck iface hno
  refine ⟨?_, ?_, ?_, ?_, ?_⟩
  · simp [ifaceObservations, hloop, ifaceId]
  · intro x hx
    simp only [ifaceObservations, List.drop_succ_cons, List.drop_zero, List.mem_cons,
      List.mem_singleton, List.not_mem_nil, or_false] at hx
    rcases hx with rfl | rfl | rfl | rfl | rfl <;> simp [Metric.desc]
  · intro x hx
    exact mem_interfaceMetrics now monitorInterface iface hiface x hx
  · simp [Metric.label, Metric.desc, Metric.labelValues, Desc.variableLabels, List.lookup]
  · simp [Metric.label, Metric.desc, Metric.labelValues, Desc.variableLabels, List.lookup]

/-- C14 at wan1 with a check sequence that only knows wan2. -/
theorem interfaceMetrics_no_check_witness :
    (∀ c ∈ [exCheckOther], c.Interface ≠ exWan1.Interface)
    ∧ (ifaceObservations 1000 [exCheckOther] exWan1).take 3
      = [ Metric.const .ifaceInfoDesc .GaugeValue (.ofInt 1)
            ["iface/" ++ exWan1.Interface, exWan1.Interface, exWan1.Comment, "", "",
              exWan1.IPAddr],
          Metric.const .UpDesc .GaugeValue (.ofInt 1) ["iface/" ++ exWan1.Interface],
          Metric.const .UpTimeDesc .CounterValue (.ofInt 0)
            ["iface/" ++ exWan1.Interface] ] :=
  ⟨by decide,
   (interfaceMetrics_no_check 1000 { exIface with IfaceCheck := [exCheckOther] } exWan1
      (by decide) (by decide)).1⟩

/-- C15: for a traffic record whose connection-count string `ParseInt` rejects (such as
"abc"), `interfaceMetrics` sends the connection-count metric of that interface with value
0; the record still yields its eight observations, and the seven others are those of the
same record with any other connection-count string. -/
theorem interfaceMetrics_bad_connect_num (now : Int)
    (monitorInterface : ShowMonitorInterfaceResult) (iface : IfaceStream)
    (hiface : iface ∈ monitorInterface.IfaceStream)
    (hbad : ParseInt iface.ConnectNum 32 = none) :
    (ifaceObservations now monitorInterface.IfaceCheck iface).filter
        (fun m => m.desc = .connCountDesc)
      = [Metric.const .connCountDesc .GaugeValue (.ofInt 0) ["iface/" ++ iface.Interface]]
    ∧ Metric.const .connCountDesc .GaugeValue (.ofInt 0) ["iface/" ++ iface.Interface]
        ∈ interfaceMetrics now monitorInterface
    ∧ (ifaceObservations now monitorInterface.IfaceCheck iface).length = 8
    ∧ (∀ s : String,
        (ifaceObservations now monitorInterface.IfaceCheck iface).take 7
          = (ifaceObservations now monitorInterface.IfaceCheck
              { iface with ConnectNum := s }).take 7)
    ∧ ParseInt "abc" 32 = none := by
  have hconn : ifaceConn iface = 0 := by simp [ifaceConn, hbad]
  refine ⟨?_, ?_, ?_, ?_, by decide⟩
  · simp [ifaceObservations, List.filter, Metric.desc, hconn, ifaceId]
  · apply mem_interfaceMetrics now monitorInterface iface hiface
    simp [ifaceObservations, hconn, ifaceId]
  · simp [ifaceObservations]
  · intro s
    have hl := checkLoop_congr now monitorInterface.IfaceCheck
      { iface with ConnectNum := s } iface rfl
    simp [ifaceObservations, ifaceId, hl]

/-- C15 at wan1, whose connection-count string is "abc". -/
theorem interfaceMetrics_bad_connect_num_witness :
    exWan1.ConnectNum = "abc"
    ∧ (ifaceObservations 1000 exIface.IfaceCheck exWan1).filter
        (fun m => m.desc = .connCountDesc)
      = [Metric.const .connCountDesc .GaugeValue (.ofInt 0)
          ["iface/" ++ exWan1.Interface]] :=
  ⟨by decide,
   (interfaceMetrics_bad_connect_num 1000 exIface exWan1 (by decide) (by decide)).1⟩

/-- C16 at its failing input: the system-statistics query succeeds and the second CPU
utilization string is empty. The slice expression panics in the second iteration, so the
cycle is stopped: core/1 gets no gauge and the output ends with the host down-indicator
instead of host up = 1. -/
theorem Collect_empty_cpu_string :
    exStatSecondCpuEmpty.err = none ∧ exStatSecondCpuEmpty.Result.ErrMsg = "Success"
    ∧ exStatSecondCpuEmpty.SysStat.Cpu = ["5.00%", ""]
    ∧ Collect .perIteration 1700000000 exStatSecondCpuEmpty exLan exIface
        = [ Metric.const .versionDesc .GaugeValue (.ofInt 1)
              ["3.7.11", "x64", "3.7.11 x64 Build202401"],
            Metric.const .cpuUsageRatioDesc .GaugeValue (.parseFloat (goBytes "5.00"))
              ["core/0"],
            Metric.const .UpDesc .GaugeValue (.ofInt 0) ["host"] ]
    ∧ idsOf .cpuUsageRatioDesc
          (Collect .perIteration 1700000000 exStatSecondCpuEmpty exLan exIface)
        = ["core/0"]
    ∧ hostUp ∉ Collect .perIteration 1700000000 exStatSecondCpuEmpty exLan exIface := by
  decide

/-- C17: bucket assignment is monotonic. For every value v and all indices i < j of the
bound sequence, if v is counted in bucket i (v is at most the bound at i) then v is
counted in bucket j as well: both bounds get the count 1. -/
theorem generateAppFlowBucketsCounts_monotonic (v : Int) (i j : Nat) (bi bj : Int)
    (hij : i < j) (hi : appFlowBuckets[i]? = some bi) (hj : appFlowBuckets[j]? = some bj)
    (hv : v ≤ bi) :
    bi < bj
    ∧ countOf (generateAppFlowBucketsCounts appFlowBuckets v) bi = 1
    ∧ countOf (generateAppFlowBucketsCounts appFlowBuckets v) bj = 1
    ∧ (generateAppFlowBucketsCounts appFlowBuckets v).lookup bj = some 1 := by
  obtain ⟨hi1, hi2⟩ := List.getElem?_eq_some.mp hi
  obtain ⟨hj1, hj2⟩ := List.getElem?_eq_some.mp hj
  have hlt : bi < bj := by
    have := List.pairwise_iff_getElem.mp appFlowBuckets_pairwise i j hi1 hj1 hij
    rwa [hi2, hj2] at this
  have hmi : bi ∈ appFlowBuckets := hi2 ▸ List.getElem_mem _
  have hmj : bj ∈ appFlowBuckets := hj2 ▸ List.getElem_mem _
  have hvj : v ≤ bj := by omega
  refine ⟨hlt, ?_, ?_, ?_⟩
  · rw [countOf_generateAppFlowBucketsCounts]; simp [hmi, hv]
  · rw [countOf_generateAppFlowBucketsCounts]; simp [hmj, hvj]
  · rw [generateAppFlowBucketsCounts_eq _ _ appFlowBuckets_nodup, lookup_map_one]
    have : bj ∈ appFlowBuckets.filter (fun b => v ≤ b) := by
      simp [List.mem_filter, hmj, hvj]
    simp [this]

/-- C17 at the value 5000000 and the buckets of index 1 and 4. -/
theorem generateAppFlowBucketsCounts_monotonic_witness :
    appFlowBuckets[1]? = some 6291456 ∧ appFlowBuckets[4]? = some 22020096
    ∧ (5000000 : Int) ≤ 6291456
    ∧ countOf (generateAppFlowBucketsCounts appFlowBuckets 5000000) 22020096 = 1 :=
  ⟨by decide, by decide, by decide,
   (generateAppFlowBucketsCounts_monotonic 5000000 1 4 6291456 22020096 (by decide)
      (by decide) (by decide) (by decide)).2.2.1⟩

/-- C18, the claim as stated, fails: with memory total 2^63 - 1 and memory available
-1 the difference is 2^63, but the `int64` subtraction wraps and the used-memory metric
carries -2^63. -/
theorem Collect_used_memory_counterexample :
    exStatBigMem.err = none ∧ exStatBigMem.Result.ErrMsg = "Success"
    ∧ exStatBigMem.SysStat.MemTotal - exStatBigMem.SysStat.MemAvailable
        = 9223372036854775808
    ∧ (Collect .perIteration 1700000000 exStatBigMem exLan exIface).filter
          (fun m => m.desc = .memUsageDesc)
        = [Metric.const .memUsageDesc .GaugeValue (.ofInt (-9223372036854775808)) []] := by
  decide

/-- C18 (amended): for a successful system-statistics response, every used-memory metric
`Collect` sends carries memory total minus memory available computed in `int64` (no field
of the response is passed through); it is sent once in every cycle the CPU loop does not
stop, and whenever the difference is itself an `int64` value it carries exactly total
minus available, as 600 for total 1000 and available 400. -/
theorem Collect_used_memory (sem : LoopVar) (now : Int) (stat : ShowSysStatResult)
    (lanDevice : ShowMonitorLanResult) (monitorInterface : ShowMonitorInterfaceResult)
    (hstat : stat.err = none ∧ stat.Result.ErrMsg = "Success") :
    (∀ m ∈ Collect sem now stat lanDevice monitorInterface,
        m.desc = .memUsageDesc →
        m = Metric.const .memUsageDesc .GaugeValue
              (.ofInt (wrapInt64 (stat.SysStat.MemTotal - stat.SysStat.MemAvailable))) [])
    ∧ ("" ∉ stat.SysStat.Cpu →
        (Collect sem now stat lanDevice monitorInterface).filter
            (fun m => m.desc = .memUsageDesc)
          = [Metric.const .memUsageDesc .GaugeValue
              (.ofInt (wrapInt64 (stat.SysStat.MemTotal - stat.SysStat.MemAvailable))) []]
        ∧ (isInt64 (stat.SysStat.MemTotal - stat.SysStat.MemAvailable) →
            (Collect sem now stat lanDevice monitorInterface).filter
                (fun m => m.desc = .memUsageDesc)
              = [Metric.const .memUsageDesc .GaugeValue
                  (.ofInt (stat.SysStat.MemTotal - stat.SysStat.MemAvailable)) []])) := by
  have hf : isFail stat.Result stat.err = false := (isFail_eq_false_iff _ _).2 hstat
  have hmem := filter_desc_Collect sem now stat lanDevice monitorInterface
    .memUsageDesc (by decide) (by decide)
  rw [filter_memUsage_collectTail] at hmem
  constructor
  · intro m hm hd
    have hmem2 : m ∈ (Collect sem now stat lanDevice monitorInterface).filter
        (fun m => m.desc = .memUsageDesc) :=
      List.mem_filter.mpr ⟨hm, by simpa using hd⟩
    rw [hmem] at hmem2
    split at hmem2
    · simpa using hmem2
    · simp at hmem2
  · intro hcpu
    have hfilter : (Collect sem now stat lanDevice monitorInterface).filter
            (fun m => m.desc = .memUsageDesc)
          = [Metric.const .memUsageDesc .GaugeValue
              (.ofInt (wrapInt64 (stat.SysStat.MemTotal - stat.SysStat.MemAvailable))) []] := by
      rw [hmem, if_pos ⟨hf, hcpu⟩]
    refine ⟨hfilter, fun hs => ?_⟩
    rw [hfilter, wrapInt64_of_range _ hs.1 hs.2]

/-- C18 (amended) at memory total 1000 and memory available 400: the used-memory metric
is 600. -/
theorem Collect_used_memory_witness :
    exStat.SysStat.MemTotal = 1000 ∧ exStat.SysStat.MemAvailable = 400
    ∧ (Collect .perIteration 1700000000 exStat exLan exIface).filter
          (fun m => m.desc = .memUsageDesc)
        = [Metric.const .memUsageDesc .GaugeValue (.ofInt (1000 - 400)) []] :=
  ⟨by decide, by decide,
   ((Collect_used_memory .perIteration 1700000000 exStat exLan exIface (by decide)).2
     (by decide)).2 (by decide)⟩

/-- C19: `isFail` returns true if and only if a transport error is present or the status
message is not exactly the string "Success" (the comparison is case-sensitive), and false
exactly when there is no error and the message equals "Success". -/
theorem isFail_iff (result : Result) (err : Option String) :
    (isFail result err = true ↔ (err ≠ none ∨ result.ErrMsg ≠ "Success"))
    ∧ (isFail result err = false ↔ (err = none ∧ result.ErrMsg = "Success"))
    ∧ isFail { ErrMsg := "Success" } none = false
    ∧ isFail { ErrMsg := "success" } none = true
    ∧ isFail { ErrMsg := "SUCCESS" } none = true
    ∧ isFail { ErrMsg := "Success " } none = true
    ∧ isFail { ErrMsg := "Success" } (some "connection refused") = true :=
  ⟨isFail_eq_true_iff result err, isFail_eq_false_iff result err,
    by decide, by decide, by decide, by decide, by decide⟩

/-- C20: with the loop variable of Go 1.22 (one per iteration), every device-info series
`Collect` sends has an id label equal to "device/" followed by its own mac label; the
entry the device map holds for an identifier is the first raw record that produced the
identifier (its MAC, hostname, IP address and comment); the entries point to pairwise
distinct variables, and the map is the one the deduplicator of the spec computes, so no
later record overwrites or shares an earlier entry. -/
theorem Collect_device_entries (now : Int) (stat : ShowSysStatResult)
    (lanDevice : ShowMonitorLanResult) (monitorInterface : ShowMonitorInterfaceResult) :
    (∀ x ∈ Collect .perIteration now stat lanDevice monitorInterface,
        x.desc = .lanDeviceDesc →
        ∃ mac, x.label "mac" = some mac ∧ x.label "id" = some ("device/" ++ mac))
    ∧ (∀ e ∈ mergedDevices .perIteration lanDevice.Data,
        ∃ first, lanDevice.Data.find? (fun r => deviceId r = e.1) = some first
          ∧ e.2.Mac = first.Mac ∧ e.2.Hostname = first.Hostname
          ∧ e.2.IPAddr = first.IPAddr ∧ e.2.Comment = first.Comment)
    ∧ ((deviceLoop .perIteration lanDevice.Data).devices.map Prod.snd).Nodup
    ∧ mergedDevices .perIteration lanDevice.Data = specMerge lanDevice.Data := by
  refine ⟨?_, ?_, pointers_nodup_perIteration _, mergedDevices_perIteration _⟩
  · intro x hx hd
    obtain ⟨e, he, rfl⟩ := mem_Collect_lanDevice .perIteration now stat lanDevice
      monitorInterface x hx hd
    obtain ⟨hkey, _⟩ := entry_mergedDevices_perIteration lanDevice.Data e he
    refine ⟨e.2.Mac, ?_, ?_⟩
    · simp [Metric.label, Metric.desc, Metric.labelValues, Desc.variableLabels, List.lookup]
    · simp [Metric.label, Metric.desc, Metric.labelValues, Desc.variableLabels, List.lookup,
        hkey]
  · intro e he
    obtain ⟨hkey, first, hfind, h1, h2, h3, h4, _⟩ :=
      entry_mergedDevices_perIteration lanDevice.Data e he
    refine ⟨first, ?_, h1, h2, h3, h4⟩
    have hp : (fun r : LanDeviceInfo => decide (deviceId r = e.1))
        = (fun r : LanDeviceInfo => decide (r.Mac = e.2.Mac)) := by
      funext r
      rw [hkey]
      exact decide_eq_decide.mpr (deviceId_eq_iff r e.2.Mac)
    rw [hp]
    exact hfind

/-- C20 at the list whose second record has another MAC than the first and the third:
the series of "device/bb:bb" carries the mac label bb:bb and the hostname of the second
record. -/
theorem Collect_device_entries_witness :
    (mergedDevices .perIteration exLan.Data).lookup "device/bb:bb"
      = some { Mac := "bb:bb", Hostname := "tv", IPAddr := "10.0.0.3", Comment := "",
               TotalUp := 10, TotalDown := 20, Upload := 30, Download := 40,
               ConnectNum := 50 }
    ∧ ((deviceLoop .perIteration exLan.Data).devices.map Prod.snd).Nodup
    ∧ mergedDevices .perIteration exLan.Data = specMerge exLan.Data :=
  ⟨by decide,
   (Collect_device_entries 1700000000 exStat exLan exIface).2.2⟩

end Ikuai
